import Mathlib

/-!
Playlist store: reducer and undo/redo history.

A shallow embedding of the state container of `src/PlaylistsScreen.js`:
`initialState`, `playlistReducer` with its local helper `saveToHistory`, the
derived flags `canUndo` / `canRedo`, the handlers `handleCreatePlaylist` and
`handleAddSong`, and the persistence functions `loadSavedState` and
`saveState`.

Modelling conventions.

* JavaScript strings are `String`, booleans `Bool`, arrays `List`.
* `historyIndex` is an `Int` (it starts at `-1`); `songIdCounter` and the
  readings of `Date.now()` are `Nat`.  Numbers are doubles: `counter + 1` is
  `jsAddOne`, exact below `2 ^ 53` and rounded above.  A template literal
  applied to such a number prints its decimal digits, which is `toString` on
  `Nat`; this agrees with JavaScript for every integer up to `2 ^ 53`, the
  values the counter takes when it starts at `1`.
* The reducer reads the clock (`new Date().toISOString()`, `Date.now()`).
  The readings taken during one call are passed in as a `Clock`.
* Reading `.playlists` of `undefined` throws a `TypeError`; the reducer
  therefore returns `Option State`, with `none` for the throw.
* `JSON.parse(JSON.stringify(x))` rebuilds every array and object of `x`;
  `deepCopy` does the same over the typed records.
* `AsyncStorage` is a map from keys to texts.  `JSON.stringify` and
  `JSON.parse`, applied to stored texts, belong to the platform: the functions
  `loadSavedState` and `saveState` take them as a parameter, a `JsonLib`.  The
  awaits of the two functions are run in program order.
* `JSON.parse` returns a value of any shape, and `loadSavedState` passes it on
  unchecked.  A value read from the store is therefore a `Shaped α`: a value
  of the shape `α` the reducer expects, or `other`.  The state after
  `loadSavedState` is a `RawState`, whose fields are such values.
* `platformJson` is the `JsonLib` of the platform: the texts `JSON.stringify`
  writes for the two records, and a parser of the JSON grammar (`jsonParse`)
  followed by the view of the parsed value from the record.  Numbers are read
  as doubles (`nearestDouble`).
-/

set_option autoImplicit false

namespace PlaylistStore

/-! ## Data model -/

/-- A song record, as built in the `ADD_SONG` case. -/
structure Song where
  id : String
  name : String
  artist : String
  duration : String
  addedAt : String
deriving DecidableEq, Repr

/-- A playlist record, as in `initialState.playlists` and `CREATE_PLAYLIST`. -/
structure Playlist where
  id : String
  title : String
  description : String
  songs : List Song
  color : String
  isDefault : Bool
deriving DecidableEq, Repr

/-- An entry of `state.history`, as pushed by `saveToHistory`. -/
structure Snapshot where
  playlists : List Playlist
  timestamp : Nat
deriving DecidableEq, Repr

/-- The reducer state. -/
structure State where
  playlists : List Playlist
  activePlaylistId : String
  history : List Snapshot
  historyIndex : Int
  songIdCounter : Nat
deriving DecidableEq, Repr

/-- Payload of `ADD_SONG`.  The reducer applies `||` to `artist` and
`duration`, so these two may be missing. -/
structure SongPayload where
  name : String
  artist : Option String
  duration : Option String
deriving DecidableEq, Repr

/-- Payload of `CREATE_PLAYLIST`.  The reducer applies `||` to `color`, so it
may be missing. -/
structure PlaylistPayload where
  title : String
  description : String
  color : Option String
deriving DecidableEq, Repr

/-- Payload of `LOAD_STATE`: an object holding any subset of the state's
fields, spread over the state. -/
structure LoadedState where
  playlists : Option (List Playlist) := none
  activePlaylistId : Option String := none
  history : Option (List Snapshot) := none
  historyIndex : Option Int := none
  songIdCounter : Option Nat := none
deriving DecidableEq, Repr

/-- The actions of `ActionTypes`, each with its payload. -/
inductive Action where
  | ADD_SONG (payload : SongPayload)
  | REMOVE_SONG (payload : String)
  | CLEAR_PLAYLIST
  | CREATE_PLAYLIST (payload : PlaylistPayload)
  | DELETE_PLAYLIST (payload : String)
  | SELECT_PLAYLIST (payload : String)
  | UNDO
  | REDO
  | LOAD_STATE (payload : LoadedState)
deriving DecidableEq, Repr

/-- The clock readings of one reducer call: `iso` is the value of
`new Date().toISOString()` in `ADD_SONG`, `now` the value of `Date.now()` in
`CREATE_PLAYLIST`, `stamp` the value of `Date.now()` inside `saveToHistory`. -/
structure Clock where
  iso : String
  now : Nat
  stamp : Nat
deriving DecidableEq, Repr

/-! ## JavaScript helpers -/

/-- The expression `x || d` on an optional string: a missing or empty `x` is
falsy and yields `d`. -/
def jsOr (x : Option String) (d : String) : String :=
  match x with
  | some v => if v = "" then d else v
  | none => d

/-- The call `xs.slice(0, e)`: a negative `e` counts from the end, and the
bounds are clamped to the array. -/
def slice {α : Type} (xs : List α) (e : Int) : List α :=
  if e < 0 then xs.take ((xs.length : Int) + e).toNat else xs.take e.toNat

/-- The read `xs[i]` for an integer `i`: `none` stands for `undefined`. -/
def index {α : Type} (xs : List α) (i : Int) : Option α :=
  if i < 0 then none else xs[i.toNat]?

/-- The number of binary digits of `n`, counted with `fuel` halvings. -/
def bitLengthAux : Nat → Nat → Nat
  | 0, _ => 0
  | fuel + 1, n => if n = 0 then 0 else bitLengthAux fuel (n / 2) + 1

/-- The number of binary digits of `n`. -/
def bitLength (n : Nat) : Nat := bitLengthAux n n

/-- The number a double holds for the integer `k`: `k` itself up to `2 ^ 53`;
above, the nearest integer with 53 significant binary digits, a tie going to
the even one (for `k` below `2 ^ 1024`). -/
def roundToDouble (k : Nat) : Nat :=
  if k ≤ 2 ^ 53 then k
  else
    let e := bitLength k - 53
    let q := k / 2 ^ e
    let r := k % 2 ^ e
    if 2 * r < 2 ^ e ∨ (2 * r = 2 ^ e ∧ q % 2 = 0) then q * 2 ^ e else (q + 1) * 2 ^ e

/-- The expression `n + 1` on numbers, for an integer `n` that a double
holds: exact below `2 ^ 53`, and `2 ^ 53 + 1` is `2 ^ 53`. -/
def jsAddOne (n : Nat) : Nat := roundToDouble (n + 1)

/-- The copy of one song made by `JSON.parse(JSON.stringify(..))`. -/
def copySong (x : Song) : Song :=
  { id := x.id, name := x.name, artist := x.artist, duration := x.duration,
    addedAt := x.addedAt }

/-- The copy of one playlist made by `JSON.parse(JSON.stringify(..))`. -/
def copyPlaylist (p : Playlist) : Playlist :=
  { id := p.id, title := p.title, description := p.description,
    songs := p.songs.map copySong, color := p.color, isDefault := p.isDefault }

/-- The expression `JSON.parse(JSON.stringify(playlists))`. -/
def deepCopy (ps : List Playlist) : List Playlist :=
  ps.map copyPlaylist

/-! ## Initial state and reducer -/

/-- The constant `initialState`. -/
def initialState : State :=
  { playlists :=
      [ { id := "1", title := "Discover Weekly",
          description := "Your weekly mixtape of fresh music",
          songs := [], color := "#1DB954", isDefault := true },
        { id := "2", title := "My Favorites", description := "Songs you love",
          songs := [], color := "#535353", isDefault := false } ],
    activePlaylistId := "1",
    history := [],
    historyIndex := -1,
    songIdCounter := 1 }

/-- The local function `saveToHistory` of `playlistReducer`; `state` is the
reducer's argument, which the closure reads. -/
def saveToHistory (clk : Clock) (state newState : State) : State :=
  let newHistory := slice state.history (state.historyIndex + 1) ++
    [{ playlists := deepCopy newState.playlists, timestamp := clk.stamp }]
  { newState with
    history := newHistory,
    historyIndex := (newHistory.length : Int) - 1 }

/-- The song built in the `ADD_SONG` case. -/
def newSong (clk : Clock) (state : State) (payload : SongPayload) : Song :=
  { id := "song_" ++ toString state.songIdCounter,
    name := payload.name,
    artist := jsOr payload.artist "Unknown Artist",
    duration := jsOr payload.duration "3:30",
    addedAt := clk.iso }

/-- The playlist built in the `CREATE_PLAYLIST` case. -/
def newPlaylist (clk : Clock) (payload : PlaylistPayload) : Playlist :=
  { id := "playlist_" ++ toString clk.now,
    title := payload.title,
    description := payload.description,
    songs := [],
    color := jsOr payload.color "#535353",
    isDefault := false }

/-- The function `playlistReducer`. -/
def playlistReducer (clk : Clock) (state : State) : Action → Option State
  | .ADD_SONG payload =>
    let updatedPlaylists := state.playlists.map fun playlist =>
      if playlist.id = state.activePlaylistId then
        { playlist with songs := playlist.songs ++ [newSong clk state payload] }
      else playlist
    some (saveToHistory clk state
      { state with
        playlists := updatedPlaylists,
        songIdCounter := jsAddOne state.songIdCounter })
  | .REMOVE_SONG payload =>
    let playlistsAfterRemove := state.playlists.map fun playlist =>
      if playlist.id = state.activePlaylistId then
        { playlist with songs := playlist.songs.filter fun song => song.id ≠ payload }
      else playlist
    some (saveToHistory clk state { state with playlists := playlistsAfterRemove })
  | .CLEAR_PLAYLIST =>
    let clearedPlaylists := state.playlists.map fun playlist =>
      if playlist.id = state.activePlaylistId then { playlist with songs := [] }
      else playlist
    some (saveToHistory clk state { state with playlists := clearedPlaylists })
  | .CREATE_PLAYLIST payload =>
    some (saveToHistory clk state
      { state with
        playlists := state.playlists ++ [newPlaylist clk payload],
        activePlaylistId := (newPlaylist clk payload).id })
  | .SELECT_PLAYLIST payload =>
    some { state with activePlaylistId := payload }
  | .UNDO =>
    if state.historyIndex > 0 then
      match index state.history (state.historyIndex - 1) with
      | some previousState =>
        some { state with
          playlists := deepCopy previousState.playlists,
          historyIndex := state.historyIndex - 1 }
      | none => none
    else some state
  | .REDO =>
    if state.historyIndex < (state.history.length : Int) - 1 then
      match index state.history (state.historyIndex + 1) with
      | some nextState =>
        some { state with
          playlists := deepCopy nextState.playlists,
          historyIndex := state.historyIndex + 1 }
      | none => none
    else some state
  | .LOAD_STATE payload =>
    some { playlists := payload.playlists.getD state.playlists,
           activePlaylistId := payload.activePlaylistId.getD state.activePlaylistId,
           history := payload.history.getD state.history,
           historyIndex := payload.historyIndex.getD state.historyIndex,
           songIdCounter := payload.songIdCounter.getD state.songIdCounter }
  | .DELETE_PLAYLIST _ => some state

/-- The flag `canUndo` of the screen. -/
def canUndo (state : State) : Prop := state.historyIndex > 0

/-- The flag `canRedo` of the screen. -/
def canRedo (state : State) : Prop :=
  state.historyIndex < (state.history.length : Int) - 1

instance (state : State) : Decidable (canUndo state) := by
  unfold canUndo; infer_instance

instance (state : State) : Decidable (canRedo state) := by
  unfold canRedo; infer_instance

/-- The palette `colors` of `handleCreatePlaylist`. -/
def colors : List String := ["#E91429", "#509BF5", "#FF6437", "#535353", "#1DB954"]

/-- White space and line terminators, the characters `String.prototype.trim`
strips. -/
def isJsSpace (c : Char) : Bool :=
  decide (c.toNat ∈ [0x09, 0x0A, 0x0B, 0x0C, 0x0D, 0x20, 0xA0, 0x1680, 0x2028, 0x2029,
    0x202F, 0x205F, 0x3000, 0xFEFF]) || (decide (0x2000 ≤ c.toNat) && decide (c.toNat ≤ 0x200A))

/-- The call `s.trim()`. -/
def jsTrim (s : String) : String :=
  ⟨((s.data.dropWhile isJsSpace).reverse.dropWhile isJsSpace).reverse⟩

/-- The handler `handleCreatePlaylist`, as far as it dispatches: the two form
fields are its inputs, `pick` is the value of
`Math.floor(Math.random() * colors.length)`, and the result is the action
handed to `dispatch` (`none` when the trimmed title is empty). -/
def handleCreatePlaylist (playlistTitle playlistDescription : String)
    (pick : Fin 5) : Option Action :=
  if jsTrim playlistTitle ≠ "" then
    some (.CREATE_PLAYLIST
      { title := jsTrim playlistTitle,
        description := jsOr (some (jsTrim playlistDescription)) "Custom playlist",
        color := some (colors.get ⟨pick.val, pick.isLt⟩) })
  else none

/-! ## Action classes and action sequences -/

/-- The cases of the reducer that return through `saveToHistory`. -/
def historyWorthy : Action → Bool
  | .ADD_SONG _ => true
  | .REMOVE_SONG _ => true
  | .CLEAR_PLAYLIST => true
  | .CREATE_PLAYLIST _ => true
  | _ => false

/-- Whether the action is `LOAD_STATE`. -/
def isLoadState : Action → Bool
  | .LOAD_STATE _ => true
  | _ => false

/-- Whether the action is `ADD_SONG`. -/
def isAddSong : Action → Bool
  | .ADD_SONG _ => true
  | _ => false

/-- The number of `ADD_SONG` dispatches of a sequence. -/
def addCount (trace : List (Clock × Action)) : Nat :=
  trace.countP fun e => isAddSong e.2

/-- Successive dispatches: each action, with the clock readings of its call,
is applied to the state the previous one returned. -/
def dispatchAll (state : State) : List (Clock × Action) → Option State
  | [] => some state
  | (clk, a) :: rest => (playlistReducer clk state a).bind fun s => dispatchAll s rest

/-- Every playlist record the state holds: the live ones and those of the
history snapshots. -/
def stored (state : State) : List Playlist :=
  state.playlists ++ (state.history.map Snapshot.playlists).flatten

/-- The songs of the playlist with the given id (of the first one, as
`find` would return it). -/
def songsOf (ps : List Playlist) (id : String) : Option (List Song) :=
  (ps.find? fun p => p.id = id).map Playlist.songs

/-- The history cursor is in bounds: `-1 <= historyIndex < history.length`. -/
def cursorInBounds (state : State) : Prop :=
  -1 ≤ state.historyIndex ∧ state.historyIndex < (state.history.length : Int)

instance (state : State) : Decidable (cursorInBounds state) := by
  unfold cursorInBounds; infer_instance

/-- The playlists a history-worthy action hands to `saveToHistory`. -/
def editedPlaylists (clk : Clock) (state : State) : Action → List Playlist
  | .ADD_SONG payload => state.playlists.map fun playlist =>
      if playlist.id = state.activePlaylistId then
        { playlist with songs := playlist.songs ++ [newSong clk state payload] }
      else playlist
  | .REMOVE_SONG payload => state.playlists.map fun playlist =>
      if playlist.id = state.activePlaylistId then
        { playlist with songs := playlist.songs.filter fun song => song.id ≠ payload }
      else playlist
  | .CLEAR_PLAYLIST => state.playlists.map fun playlist =>
      if playlist.id = state.activePlaylistId then { playlist with songs := [] }
      else playlist
  | .CREATE_PLAYLIST payload => state.playlists ++ [newPlaylist clk payload]
  | _ => state.playlists

/-- The number written by a list of decimal digit characters, most
significant first, continuing from `acc`. -/
def decValue (acc : Nat) (cs : List Char) : Nat :=
  cs.foldl (fun a c => 10 * a + (c.toNat - 48)) acc

/-! ## Handlers and persistence -/

/-- The call `s.padStart(targetLength, pad)` with a one-character pad. -/
def padStart (s : String) (targetLength : Nat) (pad : Char) : String :=
  ⟨List.replicate (targetLength - s.length) pad⟩ ++ s

/-- The handler `handleAddSong`, as far as it dispatches: the two form fields
are its inputs, `minutes` and `seconds` are the values of
`Math.floor(Math.random() * 3)` and `Math.floor(Math.random() * 60)`, and the
result is the action handed to `dispatch` (`none` when the trimmed name is
empty). -/
def handleAddSong (songName artistName : String) (minutes : Fin 3) (seconds : Fin 60) :
    Option Action :=
  if jsTrim songName ≠ "" then
    some (.ADD_SONG
      { name := jsTrim songName,
        artist := some (jsOr (some (jsTrim artistName)) "Unknown Artist"),
        duration := some (toString (minutes.val + 2) ++ ":" ++
          padStart (toString seconds.val) 2 '0') })
  else none

/-- The state after a handler ran: the reducer applied to the action it
dispatched, or the state as it was when it dispatched none. -/
def dispatchOption (clk : Clock) (state : State) (action : Option Action) : Option State :=
  match action with
  | some a => playlistReducer clk state a
  | none => some state

/-- The constant `STORAGE_KEY`. -/
def STORAGE_KEY : String := "@spotify_playlists"

/-- The constant `HISTORY_KEY`. -/
def HISTORY_KEY : String := "@spotify_history"

/-- The constant `ACTIVE_PLAYLIST_KEY`. -/
def ACTIVE_PLAYLIST_KEY : String := "@active_playlist"

/-- The key-value store behind `AsyncStorage`: what `getItem` returns for each
key, `none` standing for `null`. -/
abbrev Storage := String → Option String

/-- The store after `AsyncStorage.setItem(key, value)`. -/
def setItem (storage : Storage) (key value : String) : Storage :=
  fun k => if k = key then some value else storage k

/-- A value that came out of a stored text, seen from a field of type `α`: a
value of the field's shape, or some other JSON value (`null`, a number where
an array is expected, an array of something else, and so on). -/
inductive Shaped (α : Type) where
  | ok (value : α)
  | other
deriving DecidableEq, Repr

/-- The value `JSON.parse` returned for the history record, when it is not
`null`, seen through the two fields `loadSavedState` reads.  `history` is
`none` when the value has no such key or holds a falsy value there;
`historyIndex` is `none` when the value has no such key or holds a falsy value
other than the number `0` there.  A value that is not an object (a number, a
text, an array, a boolean) has neither key. -/
structure HistoryData where
  history : Option (Shaped (List Snapshot))
  historyIndex : Option (Shaped Int)
deriving DecidableEq, Repr

/-- The platform functions `JSON.stringify` and `JSON.parse`, at the two
records the screen stores.

* `parsePlaylists text` is `none` where `JSON.parse(text)` throws a
  `SyntaxError`; otherwise it is the value returned, seen from
  `state.playlists`: `ok ps` for an array of playlist records, `other` for
  every other value, `null` included.
* `parseHistory text` is `none` where `JSON.parse(text)` throws, `some none`
  where it returns `null`, and otherwise the value returned, seen through its
  two fields.
* `stringifyHistory history historyIndex` is the text of the object
  `{ history, historyIndex }`. -/
structure JsonLib where
  stringifyPlaylists : List Playlist → String
  parsePlaylists : String → Option (Shaped (List Playlist))
  stringifyHistory : List Snapshot → Int → String
  parseHistory : String → Option (Option HistoryData)

/-- The test `if (saved)` on what `getItem` returned: it passes, with the
text, for a text that is not empty. -/
def truthyText (saved : Option String) : Option String :=
  match saved with
  | some text => if text = "" then none else some text
  | none => none

/-- The expression `x || -1` on the `historyIndex` read from the record: a
missing or falsy `x`, the number `0` included, yields `d`. -/
def jsOrInt (x : Option (Shaped Int)) (d : Int) : Shaped Int :=
  match x with
  | some (.ok v) => if v = 0 then .ok d else .ok v
  | some .other => .other
  | none => .ok d

/-- The expression `x || []` on the `history` read from the record: a missing
or falsy `x` yields the empty array. -/
def jsOrList {α : Type} (x : Option (Shaped (List α))) : Shaped (List α) :=
  match x with
  | some v => v
  | none => .ok []

/-- The object `loadedState` of `loadSavedState`, with a field for each key of
the state: a field is `none` while its key has not been assigned. -/
structure RawLoaded where
  playlists : Option (Shaped (List Playlist)) := none
  activePlaylistId : Option String := none
  history : Option (Shaped (List Snapshot)) := none
  historyIndex : Option (Shaped Int) := none
  songIdCounter : Option Nat := none
deriving DecidableEq, Repr

/-- The object `loadedState` that the `try` block of `loadSavedState` builds;
`none` when control goes to the `catch`: `JSON.parse` threw, or it returned
`null` for the history record and reading `historyData.history` threw. -/
def loadedState (json : JsonLib) (storage : Storage) : Option RawLoaded :=
  let savedPlaylists := storage STORAGE_KEY
  let savedHistory := storage HISTORY_KEY
  let savedActivePlaylist := storage ACTIVE_PLAYLIST_KEY
  let afterPlaylists : Option RawLoaded :=
    match truthyText savedPlaylists with
    | some text => (json.parsePlaylists text).map fun parsed => { playlists := some parsed }
    | none => some {}
  afterPlaylists.bind fun loaded1 =>
    let afterHistory : Option RawLoaded :=
      match truthyText savedHistory with
      | some text =>
        match json.parseHistory text with
        | some (some historyData) =>
          some { loaded1 with
                 history := some (jsOrList historyData.history),
                 historyIndex := some (jsOrInt historyData.historyIndex (-1)) }
        | some none => none
        | none => none
      | none => some loaded1
    afterHistory.map fun loaded2 =>
      match truthyText savedActivePlaylist with
      | some text => { loaded2 with activePlaylistId := some text }
      | none => loaded2

/-- A reducer state some of whose fields came out of stored texts: these may
hold a value of another shape than the reducer expects. -/
structure RawState where
  playlists : Shaped (List Playlist)
  activePlaylistId : String
  history : Shaped (List Snapshot)
  historyIndex : Shaped Int
  songIdCounter : Nat
deriving DecidableEq, Repr

/-- A reducer state, all of whose fields have their shape. -/
def RawState.ofState (state : State) : RawState :=
  { playlists := .ok state.playlists,
    activePlaylistId := state.activePlaylistId,
    history := .ok state.history,
    historyIndex := .ok state.historyIndex,
    songIdCounter := state.songIdCounter }

/-- The value of a field, when it has the field's shape. -/
def Shaped.value {α : Type} : Shaped α → Option α
  | .ok v => some v
  | .other => none

/-- The object `loadedState` as a payload of `LOAD_STATE`, when every value it
holds has the shape of its field. -/
def RawLoaded.typed (loaded : RawLoaded) : Option LoadedState :=
  if loaded.playlists ≠ some .other ∧ loaded.history ≠ some .other ∧
      loaded.historyIndex ≠ some .other then
    some { playlists := loaded.playlists.bind Shaped.value,
           activePlaylistId := loaded.activePlaylistId,
           history := loaded.history.bind Shaped.value,
           historyIndex := loaded.historyIndex.bind Shaped.value,
           songIdCounter := loaded.songIdCounter }
  else none

/-- The object `{ ...state, ...action.payload }` of the `LOAD_STATE` case, for
a payload that may hold values of another shape: each key of the payload
replaces the field of the state. -/
def spread (state : State) (payload : RawLoaded) : RawState :=
  { playlists := payload.playlists.getD (.ok state.playlists),
    activePlaylistId := payload.activePlaylistId.getD state.activePlaylistId,
    history := payload.history.getD (.ok state.history),
    historyIndex := payload.historyIndex.getD (.ok state.historyIndex),
    songIdCounter := payload.songIdCounter.getD state.songIdCounter }

/-- The function `loadSavedState`: the state after it ran.  It dispatches
`LOAD_STATE` when `loadedState` has a key; it leaves the state as it was when
`loadedState` is empty or the `catch` was reached.  The dispatch goes through
`playlistReducer` when the payload has the shape the reducer is typed for, and
is the spread of the `LOAD_STATE` case otherwise. -/
def loadSavedState (json : JsonLib) (storage : Storage) (clk : Clock) (state : State) :
    Option RawState :=
  match loadedState json storage with
  | some loaded =>
    if loaded ≠ {} then
      match loaded.typed with
      | some payload => (playlistReducer clk state (.LOAD_STATE payload)).map RawState.ofState
      | none => some (spread state loaded)
    else some (RawState.ofState state)
  | none => some (RawState.ofState state)

/-- The function `saveState`, when no write fails: the store after its three
`setItem` calls. -/
def saveState (json : JsonLib) (state : State) (storage : Storage) : Storage :=
  let s1 := setItem storage STORAGE_KEY (json.stringifyPlaylists state.playlists)
  let s2 := setItem s1 HISTORY_KEY (json.stringifyHistory state.history state.historyIndex)
  setItem s2 ACTIVE_PLAYLIST_KEY state.activePlaylistId

/-- How `loadSavedState` finds one JSON record: no text (or an empty one), a
text on which `JSON.parse` throws, or a text with the value `JSON.parse`
returns for it. -/
inductive Record (α : Type) where
  | absent
  | unparseable
  | parsed (value : α)
deriving DecidableEq, Repr

/-- The value `JSON.parse` returned for a record, when it returned one. -/
def Record.value {α : Type} : Record α → Option α
  | .parsed v => some v
  | _ => none

/-- The playlists record, as `loadSavedState` finds it. -/
def playlistsRecord (json : JsonLib) (storage : Storage) :
    Record (Shaped (List Playlist)) :=
  match truthyText (storage STORAGE_KEY) with
  | none => .absent
  | some text =>
    match json.parsePlaylists text with
    | none => .unparseable
    | some v => .parsed v

/-- The history record, as `loadSavedState` finds it; the parsed value is
`none` for `null`. -/
def historyRecord (json : JsonLib) (storage : Storage) : Record (Option HistoryData) :=
  match truthyText (storage HISTORY_KEY) with
  | none => .absent
  | some text =>
    match json.parseHistory text with
    | none => .unparseable
    | some v => .parsed v

/-- The active playlist id record, as `loadSavedState` finds it: a raw text,
never parsed. -/
def activeRecord (storage : Storage) : Option String :=
  truthyText (storage ACTIVE_PLAYLIST_KEY)

/-- The `try` block of `loadSavedState` does not reach its end: `JSON.parse`
throws on the playlists record or on the history record, or it returns `null`
for the history record, whose field is then read. -/
def restoreAborts (json : JsonLib) (storage : Storage) : Prop :=
  playlistsRecord json storage = .unparseable ∨
  historyRecord json storage = .unparseable ∨
  historyRecord json storage = .parsed none

instance (json : JsonLib) (storage : Storage) : Decidable (restoreAborts json storage) := by
  unfold restoreAborts; infer_instance

/-- The JSON library reads back the two records it writes for this state:
the texts are not empty and parse to the values written. -/
def readsBack (json : JsonLib) (state : State) : Prop :=
  json.stringifyPlaylists state.playlists ≠ "" ∧
  json.parsePlaylists (json.stringifyPlaylists state.playlists) = some (.ok state.playlists) ∧
  json.stringifyHistory state.history state.historyIndex ≠ "" ∧
  json.parseHistory (json.stringifyHistory state.history state.historyIndex) =
    some (some { history := some (.ok state.history),
                 historyIndex := some (.ok state.historyIndex) })

instance (json : JsonLib) (state : State) : Decidable (readsBack json state) := by
  unfold readsBack; infer_instance

/-- Whether every `SELECT_PLAYLIST` of the sequence, dispatched from the given
state, names a playlist that is in the state at that moment. -/
def selectsPresent : State → List (Clock × Action) → Bool
  | _, [] => true
  | state, (clk, a) :: rest =>
    (match a with
      | .SELECT_PLAYLIST id => state.playlists.any fun p => p.id = id
      | _ => true) &&
    (match playlistReducer clk state a with
      | some next => selectsPresent next rest
      | none => true)

/-- The active playlist id names a playlist of the state. -/
def activeIsPresent (state : State) : Prop :=
  ∃ p ∈ state.playlists, p.id = state.activePlaylistId

instance (state : State) : Decidable (activeIsPresent state) := by
  unfold activeIsPresent; infer_instance

/-- The clock readings at which the `CREATE_PLAYLIST` dispatches of a sequence
built their ids. -/
def createTimes : List (Clock × Action) → List Nat
  | [] => []
  | (clk, .CREATE_PLAYLIST _) :: rest => clk.now :: createTimes rest
  | _ :: rest => createTimes rest

/-- Every playlist the state holds, live or in a snapshot, has the id "1",
the id "2", or the id `playlist_t` made from one of the given clock
readings. -/
def idsFromClock (times : List Nat) (state : State) : Prop :=
  ∀ p ∈ stored state, p.id = "1" ∨ p.id = "2" ∨
    ∃ t ∈ times, p.id = "playlist_" ++ toString t

/-! ## Values for worked runs -/

/-- Clock readings of a first call, at 2024-01-01T00:00:00.000Z. -/
def clock0 : Clock := ⟨"2024-01-01T00:00:00.000Z", 1704067200000, 1704067200000⟩

/-- Clock readings of a call one second later. -/
def clock1 : Clock := ⟨"2024-01-01T00:00:01.000Z", 1704067201000, 1704067201000⟩

/-- Clock readings of a call two seconds later. -/
def clock2 : Clock := ⟨"2024-01-01T00:00:02.000Z", 1704067202000, 1704067202000⟩

/-- Clock readings of a call three seconds later. -/
def clock3 : Clock := ⟨"2024-01-01T00:00:03.000Z", 1704067203000, 1704067203000⟩

/-- The action `AddSong("Song A", "Artist X", "3:12")`. -/
def addSongA : Action := .ADD_SONG ⟨"Song A", some "Artist X", some "3:12"⟩

/-- The action `AddSong("Song B", "Artist Y", "2:45")`. -/
def addSongB : Action := .ADD_SONG ⟨"Song B", some "Artist Y", some "2:45"⟩

/-- The action `CreatePlaylist("Road Trip", "", color = undefined)`. -/
def createRoadTrip : Action := .CREATE_PLAYLIST ⟨"Road Trip", "", none⟩

/-- The song `song_1` that `addSongA` builds at `clock0` in the initial state. -/
def songA : Song := ⟨"song_1", "Song A", "Artist X", "3:12", "2024-01-01T00:00:00.000Z"⟩

/-- The song `song_2` that `addSongB` builds at `clock1` after `songA`. -/
def songB : Song := ⟨"song_2", "Song B", "Artist Y", "2:45", "2024-01-01T00:00:01.000Z"⟩

/-- The two default playlists, the first holding the given songs. -/
def defaultsWith (songs : List Song) : List Playlist :=
  [ { id := "1", title := "Discover Weekly",
      description := "Your weekly mixtape of fresh music",
      songs := songs, color := "#1DB954", isDefault := true },
    { id := "2", title := "My Favorites", description := "Songs you love",
      songs := [], color := "#535353", isDefault := false } ]

/-- The state after `addSongA` at `clock0` from the initial state. -/
def afterOneAdd : State :=
  { playlists := defaultsWith [songA],
    activePlaylistId := "1",
    history := [⟨defaultsWith [songA], 1704067200000⟩],
    historyIndex := 0,
    songIdCounter := 2 }

/-- The state after `addSongA`, `addSongB` and `UNDO` from the initial state:
the cursor is on the first of two snapshots. -/
def afterTwoAddsAndUndo : State :=
  { playlists := defaultsWith [songA],
    activePlaylistId := "1",
    history := [⟨defaultsWith [songA], 1704067200000⟩,
                ⟨defaultsWith [songA, songB], 1704067201000⟩],
    historyIndex := 0,
    songIdCounter := 3 }

/-- The state after `addSongA` and `addSongB` from the initial state: the
cursor is on the second of two snapshots. -/
def afterTwoAdds : State :=
  { playlists := defaultsWith [songA, songB],
    activePlaylistId := "1",
    history := [⟨defaultsWith [songA], 1704067200000⟩,
                ⟨defaultsWith [songA, songB], 1704067201000⟩],
    historyIndex := 1,
    songIdCounter := 3 }

/-- The live playlists are the ones of the snapshot under the cursor, when
the cursor is on a snapshot. -/
def liveAtCursor (state : State) : Prop :=
  0 ≤ state.historyIndex →
    (index state.history state.historyIndex).map Snapshot.playlists = some state.playlists

instance (state : State) : Decidable (liveAtCursor state) := by
  unfold liveAtCursor; infer_instance

/-- A state whose live playlists differ from the snapshot under the cursor
(as `LOAD_STATE` can produce): three snapshots, the cursor on the second. -/
def strayState : State :=
  { playlists := defaultsWith [],
    activePlaylistId := "1",
    history := [⟨defaultsWith [songA], 1704067200000⟩,
                ⟨defaultsWith [songA, songB], 1704067201000⟩,
                ⟨defaultsWith [songA], 1704067202000⟩],
    historyIndex := 1,
    songIdCounter := 3 }

/-- The playlist that `createRoadTrip` builds at `clock0`. -/
def roadTrip : Playlist :=
  { id := "playlist_1704067200000", title := "Road Trip", description := "",
    songs := [], color := "#535353", isDefault := false }

/-- The state after `createRoadTrip` at `clock0` from the initial state. -/
def afterCreate : State :=
  { playlists := initialState.playlists ++ [roadTrip],
    activePlaylistId := "playlist_1704067200000",
    history := [⟨initialState.playlists ++ [roadTrip], 1704067200000⟩],
    historyIndex := 0,
    songIdCounter := 1 }

/-- Song ids are used once: every song the state holds, live or in a
snapshot, has an id `song_k` with `k` below the counter; within one playlist
no id occurs twice; and two stored songs with the same id are the same
record. -/
def songIdsUsedOnce (state : State) : Prop :=
  (∀ p ∈ stored state, ∀ x ∈ p.songs,
    ∃ k, k < state.songIdCounter ∧ x.id = "song_" ++ toString k) ∧
  (∀ p ∈ stored state, (p.songs.map Song.id).Nodup) ∧
  (∀ p ∈ stored state, ∀ q ∈ stored state, ∀ x ∈ p.songs, ∀ y ∈ q.songs,
    x.id = y.id → x = y)

/-- A sequence of dispatches with every kind of action but `LOAD_STATE`: two
songs added, one undone and redone, the first removed, the other playlist
selected, a song added there, a playlist created, the active one cleared. -/
def sampleTrace : List (Clock × Action) :=
  [(clock0, addSongA), (clock1, addSongB), (clock2, .UNDO), (clock2, .REDO),
   (clock2, .REMOVE_SONG "song_1"), (clock3, .SELECT_PLAYLIST "2"), (clock3, addSongA),
   (clock3, createRoadTrip), (clock3, .CLEAR_PLAYLIST)]

/-- The playlist that `createRoadTrip` builds at `clock1`. -/
def roadTripLater : Playlist :=
  { id := "playlist_1704067201000", title := "Road Trip", description := "",
    songs := [], color := "#535353", isDefault := false }

/-- The dispatches `addSongA`, `createRoadTrip`, `UNDO`. -/
def undoneCreateTrace : List (Clock × Action) :=
  [(clock0, addSongA), (clock1, createRoadTrip), (clock2, .UNDO)]

/-- The state after `undoneCreateTrace` from the initial state: the undo took
the created playlist out of the playlists, and `activePlaylistId` still has
its id. -/
def afterUndoneCreate : State :=
  { playlists := defaultsWith [songA],
    activePlaylistId := "playlist_1704067201000",
    history := [⟨defaultsWith [songA], 1704067200000⟩,
                ⟨defaultsWith [songA] ++ [roadTripLater], 1704067201000⟩],
    historyIndex := 0,
    songIdCounter := 2 }

/-- Whether every `UNDO` of the sequence that moves the cursor, dispatched
from the given state, restores a snapshot that holds a playlist with the
`activePlaylistId` of that moment. -/
def undosKeepActive : State → List (Clock × Action) → Bool
  | _, [] => true
  | state, (clk, a) :: rest =>
    (match a with
      | .UNDO =>
        if state.historyIndex > 0 then
          match index state.history (state.historyIndex - 1) with
          | some snap => snap.playlists.any fun p => p.id = state.activePlaylistId
          | none => true
        else true
      | _ => true) &&
    (match playlistReducer clk state a with
      | some next => undosKeepActive next rest
      | none => true)

/-- Each snapshot of the history has a playlist for every id of the snapshot
before it. -/
def idsGrow (history : List Snapshot) : Prop :=
  ∀ (i : Nat) (a b : Snapshot), history[i]? = some a → history[i + 1]? = some b →
    ∀ p ∈ a.playlists, ∃ q ∈ b.playlists, q.id = p.id

/-- The facts that keep the active playlist id on a playlist of the state:
the cursor is in bounds and on the snapshot of the live playlists, it is `-1`
only with an empty history, the ids of the snapshots grow, and the active id
names a live playlist. -/
def activeInvariant (state : State) : Prop :=
  cursorInBounds state ∧ liveAtCursor state ∧
  (state.historyIndex = -1 → state.history = []) ∧
  idsGrow state.history ∧ activeIsPresent state

/-- The initial state with the counter at `2 ^ 53`, where `counter + 1` is
no longer exact. -/
def saturatedState : State :=
  { initialState with songIdCounter := 9007199254740992 }

/-- The state after `k` dispatches of `ADD_SONG` from the initial state, as far
as the counter and the last song added go. -/
def addedUpTo (k : Nat) (s : State) : Prop :=
  s.songIdCounter = min (k + 1) (2 ^ 53) ∧ s.activePlaylistId = "1" ∧
  (∃ p ∈ s.playlists, p.id = "1") ∧
  (1 ≤ k → ∃ p ∈ s.playlists, ∃ x ∈ p.songs, x.id = "song_" ++ toString (min k (2 ^ 53)))

/-- As many `ADD_SONG` dispatches as take the counter to `2 ^ 53` and one
more. -/
def saturatingTrace : List (Clock × Action) :=
  List.replicate (2 ^ 53) (clock0, addSongA)

/-! ## JSON text -/

/-- One character inside a JSON string, as `JSON.stringify` writes it. -/
def jsonEscape (c : Char) : List Char :=
  if c.toNat = 34 then [Char.ofNat 92, Char.ofNat 34]
  else if c.toNat = 92 then [Char.ofNat 92, Char.ofNat 92]
  else if c.toNat = 8 then [Char.ofNat 92, 'b']
  else if c.toNat = 12 then [Char.ofNat 92, 'f']
  else if c.toNat = 10 then [Char.ofNat 92, 'n']
  else if c.toNat = 13 then [Char.ofNat 92, 'r']
  else if c.toNat = 9 then [Char.ofNat 92, 't']
  else if c.toNat < 32 then
    [Char.ofNat 92, 'u', '0', '0', Nat.digitChar (c.toNat / 16), Nat.digitChar (c.toNat % 16)]
  else [c]

/-- A string as JSON text. -/
def jsonString (s : String) : String :=
  ⟨[Char.ofNat 34] ++ (s.data.map jsonEscape).flatten ++ [Char.ofNat 34]⟩

/-- An array as JSON text, from the texts of its items. -/
def jsonArray (items : List String) : String :=
  "[" ++ ",".intercalate items ++ "]"

/-- An object as JSON text, from its keys and the texts of their values. -/
def jsonObject (fields : List (String × String)) : String :=
  "\x7b" ++ ",".intercalate (fields.map fun f => jsonString f.1 ++ ":" ++ f.2) ++ "\x7d"

/-- A boolean as JSON text. -/
def jsonBool (b : Bool) : String := if b then "true" else "false"

/-- The text `JSON.stringify` writes for a song. -/
def songText (x : Song) : String :=
  jsonObject [("id", jsonString x.id), ("name", jsonString x.name),
    ("artist", jsonString x.artist), ("duration", jsonString x.duration),
    ("addedAt", jsonString x.addedAt)]

/-- The text `JSON.stringify` writes for a playlist. -/
def playlistText (p : Playlist) : String :=
  jsonObject [("id", jsonString p.id), ("title", jsonString p.title),
    ("description", jsonString p.description), ("songs", jsonArray (p.songs.map songText)),
    ("color", jsonString p.color), ("isDefault", jsonBool p.isDefault)]

/-- The text `JSON.stringify` writes for `state.playlists`. -/
def playlistsText (ps : List Playlist) : String :=
  jsonArray (ps.map playlistText)

/-- The text `JSON.stringify` writes for a history snapshot. -/
def snapshotText (h : Snapshot) : String :=
  jsonObject [("playlists", playlistsText h.playlists), ("timestamp", toString h.timestamp)]

/-- The text `JSON.stringify` writes for the history record
`\x7b history, historyIndex \x7d`. -/
def historyText (history : List Snapshot) (historyIndex : Int) : String :=
  jsonObject [("history", jsonArray (history.map snapshotText)),
    ("historyIndex", toString historyIndex)]

/-- The text of a history record that has no `historyIndex` key. -/
def historyOnlyText (history : List Snapshot) : String :=
  jsonObject [("history", jsonArray (history.map snapshotText))]

/-- A JSON value, as `JSON.parse` builds it from a text.  A number keeps its
literal: it stands for `mantissa * 10 ^ exponent`, negated when `negative`. -/
inductive Json where
  | null
  | bool (b : Bool)
  | num (negative : Bool) (mantissa : Nat) (exponent : Int)
  | str (s : String)
  | arr (items : List Json)
  | obj (members : List (String × Json))

/-- The white space of JSON text: space, tab, line feed, carriage return. -/
def isJsonSpace (c : Char) : Bool :=
  c.toNat = 32 || c.toNat = 9 || c.toNat = 10 || c.toNat = 13

/-- The text after its leading white space. -/
def skipSpace : List Char → List Char
  | [] => []
  | c :: cs => if isJsonSpace c then skipSpace cs else c :: cs

/-- The value of a hexadecimal digit. -/
def hexValue (c : Char) : Option Nat :=
  if 48 ≤ c.toNat ∧ c.toNat ≤ 57 then some (c.toNat - 48)
  else if 97 ≤ c.toNat ∧ c.toNat ≤ 102 then some (c.toNat - 87)
  else if 65 ≤ c.toNat ∧ c.toNat ≤ 70 then some (c.toNat - 55)
  else none

/-- The character of the escape `\uXXXX`, from its four digits.  The strings
of the model are sequences of characters and hold no surrogate code unit: the
escape of one, alone or in a pair, is outside the model and gives `none`. -/
def hexChar (h1 h2 h3 h4 : Char) : Option Char :=
  match hexValue h1, hexValue h2, hexValue h3, hexValue h4 with
  | some a, some b, some c, some d =>
    let v := ((a * 16 + b) * 16 + c) * 16 + d
    if 55296 ≤ v ∧ v ≤ 57343 then none else some (Char.ofNat v)
  | _, _, _, _ => none

/-- The character a one-letter escape stands for. -/
def unescape (e : Char) : Option Char :=
  if e.toNat = 34 then some (Char.ofNat 34)
  else if e.toNat = 92 then some (Char.ofNat 92)
  else if e = '/' then some '/'
  else if e = 'b' then some (Char.ofNat 8)
  else if e = 'f' then some (Char.ofNat 12)
  else if e = 'n' then some (Char.ofNat 10)
  else if e = 'r' then some (Char.ofNat 13)
  else if e = 't' then some (Char.ofNat 9)
  else none

/-- The rest of a string literal, after its opening quote: the characters up
to the closing quote, with the text after it; `none` for a literal outside the
grammar (and for the escape of a surrogate, see `hexChar`). -/
def parseStringBody : List Char → List Char → Option (String × List Char)
  | [], _ => none
  | c :: cs, acc =>
    if c.toNat = 34 then some (⟨acc⟩, cs)
    else if c.toNat = 92 then
      match cs with
      | [] => none
      | e :: cs1 =>
        if e = 'u' then
          match cs1 with
          | h1 :: h2 :: h3 :: h4 :: cs2 =>
            match hexChar h1 h2 h3 h4 with
            | some ch => parseStringBody cs2 (acc ++ [ch])
            | none => none
          | _ => none
        else
          match unescape e with
          | some ch => parseStringBody cs1 (acc ++ [ch])
          | none => none
    else if c.toNat < 32 then none
    else parseStringBody cs (acc ++ [c])

/-- The leading decimal digits of a text, and the text after them. -/
def takeDigits : List Char → List Char × List Char
  | [] => ([], [])
  | c :: cs =>
    if 48 ≤ c.toNat ∧ c.toNat ≤ 57 then ((takeDigits cs).1.cons c, (takeDigits cs).2)
    else ([], c :: cs)

/-- The digits of the integer part of a number literal: one or more, with no
leading zero before another digit. -/
def parseIntegerPart (cs : List Char) : Option (List Char × List Char) :=
  match takeDigits cs with
  | ([], _) => none
  | ([d], rest) => some ([d], rest)
  | (d :: ds, rest) => if d = '0' then none else some (d :: ds, rest)

/-- The fraction part of a number literal, when the text goes on with one: a
point and one or more digits. -/
def parseFraction (cs : List Char) : Option (List Char × List Char) :=
  match cs with
  | '.' :: cs1 =>
    match takeDigits cs1 with
    | ([], _) => none
    | (ds, rest) => some (ds, rest)
  | _ => some ([], cs)

/-- The exponent part of a number literal, when the text goes on with one: `e`
or `E`, an optional sign and one or more digits. -/
def parseExponent (cs : List Char) : Option (Int × List Char) :=
  match cs with
  | e :: cs1 =>
    if e = 'e' ∨ e = 'E' then
      let signed : Bool × List Char :=
        match cs1 with
        | '-' :: cs2 => (true, cs2)
        | '+' :: cs2 => (false, cs2)
        | _ => (false, cs1)
      match takeDigits signed.2 with
      | ([], _) => none
      | (ds, rest) =>
        some (if signed.1 then - (decValue 0 ds : Int) else (decValue 0 ds : Int), rest)
    else some (0, cs)
  | [] => some (0, [])

/-- The optional minus sign of a number literal. -/
def parseSign : List Char → Bool × List Char
  | '-' :: cs => (true, cs)
  | cs => (false, cs)

/-- A number literal at the head of a text. -/
def parseNumber (cs : List Char) : Option (Json × List Char) :=
  match parseIntegerPart (parseSign cs).2 with
  | none => none
  | some (ds, cs1) =>
    match parseFraction cs1 with
    | none => none
    | some (fs, cs2) =>
      match parseExponent cs2 with
      | none => none
      | some (e, cs3) =>
        some (.num (parseSign cs).1 (decValue 0 (ds ++ fs)) (e - fs.length), cs3)

/-- What the parser is reading: a value, the elements of an array after the
ones in `acc`, or the members of an object after the ones in `acc`. -/
inductive Reading where
  | value
  | elements (acc : List Json)
  | members (acc : List (String × Json))

/-- The JSON grammar, read from the head of a text: the value, array or object
read, with the text after it, or `none` for text outside the grammar.  The
fuel bounds the calls; the length of the text is enough. -/
def parseJson : Nat → Reading → List Char → Option (Json × List Char)
  | 0, _, _ => none
  | fuel + 1, .value, cs =>
    match skipSpace cs with
    | [] => none
    | c :: rest =>
      if c.toNat = 91 then
        match skipSpace rest with
        | [] => none
        | d :: rest1 =>
          if d.toNat = 93 then some (.arr [], rest1)
          else parseJson fuel (.elements []) (d :: rest1)
      else if c.toNat = 123 then
        match skipSpace rest with
        | [] => none
        | d :: rest1 =>
          if d.toNat = 125 then some (.obj [], rest1)
          else parseJson fuel (.members []) (d :: rest1)
      else if c.toNat = 34 then
        (parseStringBody rest []).map fun r => (.str r.1, r.2)
      else if c = 't' then
        match rest with
        | 'r' :: 'u' :: 'e' :: rest1 => some (.bool true, rest1)
        | _ => none
      else if c = 'f' then
        match rest with
        | 'a' :: 'l' :: 's' :: 'e' :: rest1 => some (.bool false, rest1)
        | _ => none
      else if c = 'n' then
        match rest with
        | 'u' :: 'l' :: 'l' :: rest1 => some (.null, rest1)
        | _ => none
      else parseNumber (c :: rest)
  | fuel + 1, .elements acc, cs =>
    match parseJson fuel .value cs with
    | none => none
    | some (v, rest) =>
      match skipSpace rest with
      | [] => none
      | d :: rest1 =>
        if d = ',' then parseJson fuel (.elements (acc ++ [v])) rest1
        else if d.toNat = 93 then some (.arr (acc ++ [v]), rest1)
        else none
  | fuel + 1, .members acc, cs =>
    match skipSpace cs with
    | [] => none
    | q :: rest =>
      if q.toNat = 34 then
        match parseStringBody rest [] with
        | none => none
        | some (key, rest1) =>
          match skipSpace rest1 with
          | [] => none
          | colon :: rest2 =>
            if colon = ':' then
              match parseJson fuel .value rest2 with
              | none => none
              | some (v, rest3) =>
                match skipSpace rest3 with
                | [] => none
                | d :: rest4 =>
                  if d = ',' then parseJson fuel (.members (acc ++ [(key, v)])) rest4
                  else if d.toNat = 125 then some (.obj (acc ++ [(key, v)]), rest4)
                  else none
            else none
      else none

/-- The call `JSON.parse(text)`: the value of a text that is one JSON value
between optional white space, `none` where `JSON.parse` throws. -/
def jsonParse (text : String) : Option Json :=
  match parseJson (text.length + 1) .value text.data with
  | none => none
  | some (v, rest) => if skipSpace rest = [] then some v else none

/-- The double nearest to `a / b`, ties to even, for positive `a` and `b`: a
pair `(m, p)` standing for `m * 2 ^ p`, with `m` below `2 ^ 53 + 1` and `p` at
least `-1074`.  The caller checks the overflow. -/
def nearestDouble (a b : Nat) : Nat × Int :=
  let k : Int := (bitLength a : Int) - (bitLength b : Int)
  let quotient (p : Int) : Nat × Nat × Nat :=
    if 0 ≤ p then (a / (b * 2 ^ p.toNat), a % (b * 2 ^ p.toNat), b * 2 ^ p.toNat)
    else (a * 2 ^ (-p).toNat / b, a * 2 ^ (-p).toNat % b, b)
  let p0 : Int := k - 53
  let p1 : Int := if 2 ^ 53 ≤ (quotient p0).1 then p0 + 1 else p0
  let p : Int := if p1 < -1074 then -1074 else p1
  let q := (quotient p).1
  let r := (quotient p).2.1
  let den := (quotient p).2.2
  if 2 * r < den ∨ (2 * r = den ∧ q % 2 = 0) then (q, p) else (q + 1, p)

/-- The value of a number literal `mantissa * 10 ^ exponent`, as the double
`JSON.parse` returns, when that double is an integer: its magnitude.  It is
`none` for a double that is not an integer and for an overflow to
`Infinity`. -/
def numberMagnitude (mantissa : Nat) (exponent : Int) : Option Nat :=
  if mantissa = 0 then some 0
  else
    let d : Nat × Int :=
      if 0 ≤ exponent then nearestDouble (mantissa * 10 ^ exponent.toNat) 1
      else nearestDouble mantissa (10 ^ (-exponent).toNat)
    if 0 ≤ d.2 then
      if d.1 * 2 ^ d.2.toNat < 2 ^ 1024 then some (d.1 * 2 ^ d.2.toNat) else none
    else if d.1 % 2 ^ (-d.2).toNat = 0 then some (d.1 / 2 ^ (-d.2).toNat)
    else none

/-- The member of an object that a key reads: the last one with this key. -/
def member (members : List (String × Json)) (key : String) : Option Json :=
  (members.reverse.find? fun m => m.1 = key).map Prod.snd

/-- The keys of an object are the given ones, in any order. -/
def hasKeys (members : List (String × Json)) (keys : List String) : Bool :=
  (members.all fun m => keys.contains m.1) && keys.all fun k => members.any fun m => m.1 = k

/-- Each value of a list seen as a record, when all are records. -/
def decodeAll {α : Type} (decode : Json → Option α) : List Json → Option (List α)
  | [] => some []
  | j :: js =>
    match decode j, decodeAll decode js with
    | some v, some vs => some (v :: vs)
    | _, _ => none

/-- A JSON value seen as a song record. -/
def decodeSong : Json → Option Song
  | .obj ms =>
    if hasKeys ms ["id", "name", "artist", "duration", "addedAt"] then
      match member ms "id", member ms "name", member ms "artist", member ms "duration",
        member ms "addedAt" with
      | some (.str id), some (.str name), some (.str artist), some (.str duration),
        some (.str addedAt) => some ⟨id, name, artist, duration, addedAt⟩
      | _, _, _, _, _ => none
    else none
  | _ => none

/-- A JSON value seen as a playlist record. -/
def decodePlaylist : Json → Option Playlist
  | .obj ms =>
    if hasKeys ms ["id", "title", "description", "songs", "color", "isDefault"] then
      match member ms "id", member ms "title", member ms "description", member ms "songs",
        member ms "color", member ms "isDefault" with
      | some (.str id), some (.str title), some (.str description), some (.arr songs),
        some (.str color), some (.bool isDefault) =>
        (decodeAll decodeSong songs).map fun songs =>
          ⟨id, title, description, songs, color, isDefault⟩
      | _, _, _, _, _, _ => none
    else none
  | _ => none

/-- A JSON value seen from `state.playlists`. -/
def playlistsView : Json → Shaped (List Playlist)
  | .arr items =>
    match decodeAll decodePlaylist items with
    | some ps => .ok ps
    | none => .other
  | _ => .other

/-- A JSON value seen as a history snapshot. -/
def decodeSnapshot : Json → Option Snapshot
  | .obj ms =>
    if hasKeys ms ["playlists", "timestamp"] then
      match member ms "playlists", member ms "timestamp" with
      | some (.arr items), some (.num negative mantissa exponent) =>
        match decodeAll decodePlaylist items, numberMagnitude mantissa exponent with
        | some ps, some t => if negative = false ∨ t = 0 then some ⟨ps, t⟩ else none
        | _, _ => none
      | _, _ => none
    else none
  | _ => none

/-- A JSON value is falsy: `null`, `false`, the empty text or a number whose
double is zero. -/
def falsy : Json → Bool
  | .null => true
  | .bool b => !b
  | .str s => s = ""
  | .num _ mantissa exponent => numberMagnitude mantissa exponent = some 0
  | _ => false

/-- The `history` read from the history record. -/
def historyView : Option Json → Option (Shaped (List Snapshot))
  | none => none
  | some j =>
    if falsy j then none
    else
      match j with
      | .arr items =>
        match decodeAll decodeSnapshot items with
        | some h => some (.ok h)
        | none => some .other
      | _ => some .other

/-- The `historyIndex` read from the history record. -/
def historyIndexView : Option Json → Option (Shaped Int)
  | none => none
  | some (.num negative mantissa exponent) =>
    match numberMagnitude mantissa exponent with
    | some n => some (.ok (if negative then - (n : Int) else (n : Int)))
    | none => some .other
  | some j => if falsy j then none else some .other

/-- The value parsed from the history record, seen through its two fields;
`none` for `null`. -/
def historyDataView : Json → Option HistoryData
  | .null => none
  | .obj ms =>
    some ⟨historyView (member ms "history"), historyIndexView (member ms "historyIndex")⟩
  | _ => some ⟨none, none⟩

/-- The JSON functions of the platform: `JSON.stringify` at the two records
the screen stores, and `JSON.parse` followed by the view of the parsed value
from the record. -/
def platformJson : JsonLib :=
  { stringifyPlaylists := playlistsText,
    parsePlaylists := fun text => (jsonParse text).map playlistsView,
    stringifyHistory := historyText,
    parseHistory := fun text => (jsonParse text).map historyDataView }

/-- Texts joined by commas. -/
def commaJoin : List (List Char) → List Char
  | [] => []
  | [t] => t
  | t :: t' :: ts => t ++ ',' :: commaJoin (t' :: ts)

/-- What may follow a value inside JSON text: nothing, a comma or a closing
bracket. -/
def Delimited (rest : List Char) : Prop :=
  ∀ c r, rest = c :: r → c = ',' ∨ c = ']' ∨ c.toNat = 125

/-- The parser reads the text `t`, whatever follows it, as the value `j`. -/
def Reads (t : List Char) (j : Json) : Prop :=
  (∃ c r, t = c :: r ∧ isJsonSpace c = false ∧ c.toNat ≠ 93) ∧
  ∀ fuel rest, t.length < fuel → Delimited rest →
    parseJson fuel .value (t ++ rest) = some (j, rest)

/-- The JSON value of a song. -/
def encodeSong (x : Song) : Json :=
  .obj [("id", .str x.id), ("name", .str x.name), ("artist", .str x.artist),
    ("duration", .str x.duration), ("addedAt", .str x.addedAt)]

/-- The JSON value of a playlist. -/
def encodePlaylist (p : Playlist) : Json :=
  .obj [("id", .str p.id), ("title", .str p.title), ("description", .str p.description),
    ("songs", .arr (p.songs.map encodeSong)), ("color", .str p.color),
    ("isDefault", .bool p.isDefault)]

/-- The JSON value of a history snapshot. -/
def encodeSnapshot (h : Snapshot) : Json :=
  .obj [("playlists", .arr (h.playlists.map encodePlaylist)),
    ("timestamp", .num false h.timestamp 0)]

/-- The JSON value of a history cursor. -/
def encodeInt (i : Int) : Json :=
  .num (decide (i < 0)) i.natAbs 0

/-- A decimal digit. -/
def isDigit (c : Char) : Prop := 48 ≤ c.toNat ∧ c.toNat ≤ 57

instance (c : Char) : Decidable (isDigit c) := by
  unfold isDigit; infer_instance

/-- The text of one member of an object: the key, a colon, the value. -/
def memberText (f : String × String) : List Char :=
  (jsonString f.1).data ++ ':' :: f.2.data

/-- The JSON value of the history record. -/
def encodeHistory (history : List Snapshot) (historyIndex : Int) : Json :=
  .obj [("history", .arr (history.map encodeSnapshot)),
    ("historyIndex", encodeInt historyIndex)]

/-- A store that holds nothing. -/
def emptyStorage : Storage := fun _ => none

/-- A store whose playlists record is not JSON text and whose active
playlist id record is "2". -/
def corruptStorage : Storage :=
  setItem (setItem emptyStorage STORAGE_KEY "\x7boops") ACTIVE_PLAYLIST_KEY "2"

/-- A store whose playlists record is the text `null` and whose active
playlist id record is "2". -/
def nullStorage : Storage :=
  setItem (setItem emptyStorage STORAGE_KEY "null") ACTIVE_PLAYLIST_KEY "2"

/-- A store with the playlists record of `afterOneAdd`, no history record and
the active playlist id record "2". -/
def partialStorage : Storage :=
  setItem (setItem emptyStorage STORAGE_KEY (playlistsText (defaultsWith [songA])))
    ACTIVE_PLAYLIST_KEY "2"

/-- A store with a history record that has no `historyIndex` field. -/
def noIndexStorage : Storage :=
  setItem emptyStorage HISTORY_KEY (historyOnlyText afterOneAdd.history)

/-- The state after the store written for `afterOneAdd` is restored into the
initial state: playlist "1" holds `song_1`, and the counter is still `1`. -/
def restoredSession : State :=
  { playlists := defaultsWith [songA],
    activePlaylistId := "1",
    history := afterOneAdd.history,
    historyIndex := -1,
    songIdCounter := 1 }

/-- The song that `addSongB` builds at `clock2` in `restoredSession`: a second
`song_1`. -/
def songBAgain : Song :=
  ⟨"song_1", "Song B", "Artist Y", "2:45", "2024-01-01T00:00:02.000Z"⟩

/-! ## Basic facts about the helpers -/

theorem jsAddOne_of_lt (n : Nat) (h : n < 2 ^ 53) : jsAddOne n = n + 1 := by
  unfold jsAddOne roundToDouble
  rw [if_pos (by omega)]

theorem jsAddOne_bounds (n : Nat) (h : n ≤ 2 ^ 53) :
    n ≤ jsAddOne n ∧ jsAddOne n ≤ n + 1 ∧ jsAddOne n ≤ 2 ^ 53 := by
  by_cases hlt : n < 2 ^ 53
  · rw [jsAddOne_of_lt n hlt]
    omega
  · have hn : n = 2 ^ 53 := by omega
    have hval : jsAddOne (2 ^ 53) = 2 ^ 53 := by decide
    rw [hn, hval]
    omega

@[simp] theorem copySong_eq (x : Song) : copySong x = x := rfl

@[simp] theorem copyPlaylist_eq (p : Playlist) : copyPlaylist p = p := by
  have h : copySong = id := funext copySong_eq
  cases p
  simp [copyPlaylist, h]

@[simp] theorem deepCopy_eq (ps : List Playlist) : deepCopy ps = ps := by
  have h : copyPlaylist = id := funext copyPlaylist_eq
  simp [deepCopy, h]

theorem slice_of_nonneg {α : Type} (xs : List α) (e : Int) (he : 0 ≤ e) :
    slice xs e = xs.take e.toNat := by
  unfold slice
  rw [if_neg (by omega)]

theorem length_slice {α : Type} (xs : List α) (e : Int) (he : 0 ≤ e)
    (hle : e ≤ (xs.length : Int)) : ((slice xs e).length : Int) = e := by
  rw [slice_of_nonneg xs e he, List.length_take]
  omega

theorem index_of_nonneg {α : Type} (xs : List α) (i : Int) (hi : 0 ≤ i) :
    index xs i = xs[i.toNat]? := by
  unfold index
  rw [if_neg (by omega)]

@[simp] theorem saveToHistory_playlists (clk : Clock) (s n : State) :
    (saveToHistory clk s n).playlists = n.playlists := rfl

@[simp] theorem saveToHistory_activePlaylistId (clk : Clock) (s n : State) :
    (saveToHistory clk s n).activePlaylistId = n.activePlaylistId := rfl

@[simp] theorem saveToHistory_songIdCounter (clk : Clock) (s n : State) :
    (saveToHistory clk s n).songIdCounter = n.songIdCounter := rfl

theorem saveToHistory_history (clk : Clock) (s n : State) :
    (saveToHistory clk s n).history =
      slice s.history (s.historyIndex + 1) ++ [⟨n.playlists, clk.stamp⟩] := by
  simp [saveToHistory]

theorem saveToHistory_historyIndex (clk : Clock) (s n : State) :
    (saveToHistory clk s n).historyIndex =
      ((saveToHistory clk s n).history.length : Int) - 1 := by
  simp [saveToHistory]

/-- Every history-worthy case returns `saveToHistory` of a state that keeps
the old history and cursor. -/
theorem reducer_of_historyWorthy (clk : Clock) (s : State) (a : Action)
    (ha : historyWorthy a = true) :
    ∃ n : State, playlistReducer clk s a = some (saveToHistory clk s n) ∧
      n.playlists = editedPlaylists clk s a := by
  cases a <;> simp [historyWorthy] at ha <;>
    exact ⟨_, rfl, rfl⟩

theorem exists_index {α : Type} (xs : List α) (i : Int) (h0 : 0 ≤ i)
    (h1 : i < (xs.length : Int)) : ∃ x, index xs i = some x := by
  rw [index_of_nonneg xs i h0]
  have hlt : i.toNat < xs.length := by omega
  exact ⟨xs[i.toNat], List.getElem?_eq_getElem hlt⟩

/-- The `UNDO` case when the cursor is positive and the entry before it exists. -/
theorem undo_of_pos (clk : Clock) (s : State) (h0 : 0 < s.historyIndex)
    (h1 : s.historyIndex ≤ (s.history.length : Int)) :
    ∃ snap, index s.history (s.historyIndex - 1) = some snap ∧
      playlistReducer clk s .UNDO =
        some { s with playlists := snap.playlists, historyIndex := s.historyIndex - 1 } := by
  obtain ⟨snap, hsnap⟩ := exists_index s.history (s.historyIndex - 1) (by omega) (by omega)
  refine ⟨snap, hsnap, ?_⟩
  simp [playlistReducer, h0, hsnap]

/-- The `UNDO` case at the lower boundary. -/
theorem undo_of_not_pos (clk : Clock) (s : State) (h0 : s.historyIndex ≤ 0) :
    playlistReducer clk s .UNDO = some s := by
  have h : ¬ s.historyIndex > 0 := by omega
  simp [playlistReducer, h]

/-- The `REDO` case when an entry after the cursor exists. -/
theorem redo_of_lt (clk : Clock) (s : State) (h0 : -1 ≤ s.historyIndex)
    (h1 : s.historyIndex < (s.history.length : Int) - 1) :
    ∃ snap, index s.history (s.historyIndex + 1) = some snap ∧
      playlistReducer clk s .REDO =
        some { s with playlists := snap.playlists, historyIndex := s.historyIndex + 1 } := by
  obtain ⟨snap, hsnap⟩ := exists_index s.history (s.historyIndex + 1) (by omega) (by omega)
  refine ⟨snap, hsnap, ?_⟩
  simp [playlistReducer, h1, hsnap]

/-- The `REDO` case at the upper boundary. -/
theorem redo_of_not_lt (clk : Clock) (s : State)
    (h1 : (s.history.length : Int) - 1 ≤ s.historyIndex) :
    playlistReducer clk s .REDO = some s := by
  have h : ¬ s.historyIndex < (s.history.length : Int) - 1 := by omega
  simp [playlistReducer, h]

/-- One step of the reducer keeps the cursor in bounds, for every action but
`LOAD_STATE`. -/
theorem step_cursorInBounds (clk : Clock) (s : State) (a : Action)
    (ha : isLoadState a = false) (hs : cursorInBounds s) :
    ∃ s', playlistReducer clk s a = some s' ∧ cursorInBounds s' := by
  obtain ⟨hlo, hhi⟩ := hs
  by_cases hw : historyWorthy a = true
  · obtain ⟨n, hn, -⟩ := reducer_of_historyWorthy clk s a hw
    refine ⟨_, hn, ?_⟩
    unfold cursorInBounds
    rw [saveToHistory_historyIndex]
    have hlen : 0 < (saveToHistory clk s n).history.length := by
      rw [saveToHistory_history]; simp
    omega
  · cases a with
    | ADD_SONG _ => simp [historyWorthy] at hw
    | REMOVE_SONG _ => simp [historyWorthy] at hw
    | CLEAR_PLAYLIST => simp [historyWorthy] at hw
    | CREATE_PLAYLIST _ => simp [historyWorthy] at hw
    | LOAD_STATE _ => simp [isLoadState] at ha
    | DELETE_PLAYLIST _ => exact ⟨s, rfl, hlo, hhi⟩
    | SELECT_PLAYLIST payload => exact ⟨_, rfl, hlo, hhi⟩
    | UNDO =>
      by_cases h0 : 0 < s.historyIndex
      · obtain ⟨snap, -, hr⟩ := undo_of_pos clk s h0 (by omega)
        refine ⟨_, hr, ?_⟩
        unfold cursorInBounds
        simp only
        omega
      · exact ⟨s, undo_of_not_pos clk s (by omega), hlo, hhi⟩
    | REDO =>
      by_cases h1 : s.historyIndex < (s.history.length : Int) - 1
      · obtain ⟨snap, -, hr⟩ := redo_of_lt clk s hlo h1
        refine ⟨_, hr, ?_⟩
        unfold cursorInBounds
        simp only
        omega
      · exact ⟨s, redo_of_not_lt clk s (by omega), hlo, hhi⟩

/-! ## Decimal printing is injective -/

theorem digitChar_value (k : Nat) (hk : k < 10) : (Nat.digitChar k).toNat - 48 = k := by
  interval_cases k <;> rfl

theorem toDigitsCore_value (fuel : Nat) :
    ∀ (n : Nat) (ds : List Char), n < fuel →
      ∃ l, Nat.toDigitsCore 10 fuel n ds = l ++ ds ∧ decValue 0 l = n := by
  induction fuel with
  | zero => intro n ds h; omega
  | succ fuel ih =>
    intro n ds h
    by_cases hq : n / 10 = 0
    · refine ⟨[Nat.digitChar (n % 10)], ?_, ?_⟩
      · simp [Nat.toDigitsCore, hq]
      · have hd := digitChar_value (n % 10) (Nat.mod_lt _ (by decide))
        simp only [decValue, List.foldl_cons, List.foldl_nil, hd]
        omega
    · obtain ⟨l, hl, hv⟩ := ih (n / 10) (Nat.digitChar (n % 10) :: ds) (by omega)
      refine ⟨l ++ [Nat.digitChar (n % 10)], ?_, ?_⟩
      · simp [Nat.toDigitsCore, hq, hl]
      · have hd := digitChar_value (n % 10) (Nat.mod_lt _ (by decide))
        unfold decValue at hv ⊢
        rw [List.foldl_append, hv]
        simp only [List.foldl_cons, List.foldl_nil, hd]
        omega

theorem decValue_toString (n : Nat) : decValue 0 (toString n).data = n := by
  obtain ⟨l, hl, hv⟩ := toDigitsCore_value (n + 1) n [] (by omega)
  have h : (toString n).data = Nat.toDigitsCore 10 (n + 1) n [] := rfl
  rw [h, hl, List.append_nil, hv]

/-- Two numbers printed after the same text give the same string only when
they are equal. -/
theorem append_toString_inj (pre : String) (a b : Nat)
    (h : pre ++ toString a = pre ++ toString b) : a = b := by
  have hd := congrArg String.data h
  rw [String.data_append, String.data_append] at hd
  have := List.append_cancel_left hd
  rw [← decValue_toString a, ← decValue_toString b, this]

/-! ## The cursor stays in bounds -/

/-- C10: the history cursor stays in bounds.  The initial state satisfies
`-1 <= historyIndex < history.length`, and every action other than
`LOAD_STATE`, applied at any clock reading to a state that satisfies it,
returns a state that satisfies it. -/
theorem cursor_stays_in_bounds :
    cursorInBounds initialState ∧
    ∀ (clk : Clock) (s : State) (a : Action), isLoadState a = false → cursorInBounds s →
      ∃ s', playlistReducer clk s a = some s' ∧
        -1 ≤ s'.historyIndex ∧ s'.historyIndex < (s'.history.length : Int) :=
  ⟨by decide, fun clk s a ha hs => step_cursorInBounds clk s a ha hs⟩

/-- A run of `cursor_stays_in_bounds`: adding a song to the initial state. -/
theorem cursor_stays_in_bounds_witness :
    (isLoadState addSongA = false ∧ cursorInBounds initialState) ∧
    ∃ s', playlistReducer clock0 initialState addSongA = some s' ∧
      -1 ≤ s'.historyIndex ∧ s'.historyIndex < (s'.history.length : Int) :=
  ⟨by decide, cursor_stays_in_bounds.2 clock0 initialState addSongA (by decide) (by decide)⟩

/-! ## History-worthy actions discard the redo entries -/

/-- C3: in a state with `-1 <= historyIndex < history.length`, every
history-worthy action returns a state in which `canRedo` is false
(`historyIndex = history.length - 1`), whose history is the first
`historyIndex + 1` old entries followed by one new snapshot (so the entries
that were after the cursor are gone), and on which `REDO` returns the state
unchanged. -/
theorem edit_discards_redo (clk clk2 : Clock) (s : State) (a : Action)
    (hlo : -1 ≤ s.historyIndex) (hhi : s.historyIndex < (s.history.length : Int))
    (ha : historyWorthy a = true) :
    ∃ s', playlistReducer clk s a = some s' ∧
      ¬ canRedo s' ∧
      s'.historyIndex = (s'.history.length : Int) - 1 ∧
      (∃ snap, s'.history = s.history.take (s.historyIndex + 1).toNat ++ [snap]) ∧
      (s'.history.length : Int) = s.historyIndex + 2 ∧
      playlistReducer clk2 s' .REDO = some s' := by
  obtain ⟨n, hn, -⟩ := reducer_of_historyWorthy clk s a ha
  have hidx := saveToHistory_historyIndex clk s n
  have hhist := saveToHistory_history clk s n
  rw [slice_of_nonneg _ _ (by omega)] at hhist
  refine ⟨_, hn, ?_, hidx, ⟨_, hhist⟩, ?_, ?_⟩
  · unfold canRedo
    omega
  · rw [hhist, List.length_append, List.length_take]
    simp only [List.length_singleton]
    omega
  · exact redo_of_not_lt clk2 _ (by omega)

/-- The worked states are the ones the reducer reaches. -/
theorem worked_states_reached :
    dispatchAll initialState [(clock0, addSongA)] = some afterOneAdd ∧
    dispatchAll initialState [(clock0, addSongA), (clock1, addSongB)] = some afterTwoAdds ∧
    dispatchAll initialState [(clock0, addSongA), (clock1, addSongB), (clock2, .UNDO)] =
      some afterTwoAddsAndUndo := by
  decide

/-- A run of `edit_discards_redo`: after two added songs and one undo, a
playlist is created. -/
theorem edit_discards_redo_witness :
    (-1 ≤ afterTwoAddsAndUndo.historyIndex ∧
      afterTwoAddsAndUndo.historyIndex < (afterTwoAddsAndUndo.history.length : Int) ∧
      historyWorthy createRoadTrip = true ∧ canRedo afterTwoAddsAndUndo) ∧
    ∃ s', playlistReducer clock3 afterTwoAddsAndUndo createRoadTrip = some s' ∧
      ¬ canRedo s' ∧
      s'.historyIndex = (s'.history.length : Int) - 1 ∧
      (∃ snap, s'.history = afterTwoAddsAndUndo.history.take
          (afterTwoAddsAndUndo.historyIndex + 1).toNat ++ [snap]) ∧
      (s'.history.length : Int) = afterTwoAddsAndUndo.historyIndex + 2 ∧
      playlistReducer clock0 s' .REDO = some s' :=
  ⟨by decide, edit_discards_redo clock3 clock0 afterTwoAddsAndUndo createRoadTrip
    (by decide) (by decide) (by decide)⟩

/-! ## Undo and redo -/

theorem liveAtCursor_iff (s : State) :
    liveAtCursor s ↔ (0 ≤ s.historyIndex →
      ∃ snap, index s.history s.historyIndex = some snap ∧ snap.playlists = s.playlists) := by
  unfold liveAtCursor
  simp [Option.map_eq_some']

/-- The snapshot under the new cursor after a history-worthy action is the
one just pushed. -/
theorem saveToHistory_liveAtCursor (clk : Clock) (s n : State) :
    liveAtCursor (saveToHistory clk s n) := by
  rw [liveAtCursor_iff]
  intro _
  refine ⟨⟨n.playlists, clk.stamp⟩, ?_, rfl⟩
  rw [saveToHistory_historyIndex, saveToHistory_history]
  have hlen : ((slice s.history (s.historyIndex + 1) ++
      [(⟨n.playlists, clk.stamp⟩ : Snapshot)]).length : Int) - 1 =
      ((slice s.history (s.historyIndex + 1)).length : Int) := by
    simp
  rw [hlen, index_of_nonneg _ _ (by omega)]
  simp

/-- One step of the reducer keeps the cursor in bounds and on the snapshot of
the live playlists, for every action but `LOAD_STATE`. -/
theorem step_liveAtCursor (clk : Clock) (s : State) (a : Action)
    (ha : isLoadState a = false) (hb : cursorInBounds s) (hs : liveAtCursor s) :
    ∃ s', playlistReducer clk s a = some s' ∧ cursorInBounds s' ∧ liveAtCursor s' := by
  obtain ⟨s', hr, hb'⟩ := step_cursorInBounds clk s a ha hb
  refine ⟨s', hr, hb', ?_⟩
  obtain ⟨hlo, hhi⟩ := hb
  by_cases hw : historyWorthy a = true
  · obtain ⟨n, hn, -⟩ := reducer_of_historyWorthy clk s a hw
    rw [hn] at hr
    cases hr
    exact saveToHistory_liveAtCursor clk s n
  · cases a with
    | ADD_SONG _ => simp [historyWorthy] at hw
    | REMOVE_SONG _ => simp [historyWorthy] at hw
    | CLEAR_PLAYLIST => simp [historyWorthy] at hw
    | CREATE_PLAYLIST _ => simp [historyWorthy] at hw
    | LOAD_STATE _ => simp [isLoadState] at ha
    | DELETE_PLAYLIST _ => cases hr; exact hs
    | SELECT_PLAYLIST payload => cases hr; exact hs
    | UNDO =>
      by_cases h0 : 0 < s.historyIndex
      · obtain ⟨snap, hsnap, hu⟩ := undo_of_pos clk s h0 (by omega)
        rw [hu] at hr
        cases hr
        rw [liveAtCursor_iff]
        intro _
        exact ⟨snap, hsnap, rfl⟩
      · rw [undo_of_not_pos clk s (by omega)] at hr
        cases hr
        exact hs
    | REDO =>
      by_cases h1 : s.historyIndex < (s.history.length : Int) - 1
      · obtain ⟨snap, hsnap, hu⟩ := redo_of_lt clk s hlo h1
        rw [hu] at hr
        cases hr
        rw [liveAtCursor_iff]
        intro _
        exact ⟨snap, hsnap, rfl⟩
      · rw [redo_of_not_lt clk s (by omega)] at hr
        cases hr
        exact hs

/-! ## Sequences of dispatches -/

theorem dispatchAll_append (s : State) (xs ys : List (Clock × Action)) :
    dispatchAll s (xs ++ ys) = (dispatchAll s xs).bind fun t => dispatchAll t ys := by
  induction xs generalizing s with
  | nil => rfl
  | cons e xs ih =>
    obtain ⟨clk, a⟩ := e
    simp only [List.cons_append, dispatchAll]
    cases playlistReducer clk s a with
    | none => rfl
    | some t => simpa using ih t

/-- A property that every step without `LOAD_STATE` preserves holds after
every sequence of such steps, and the sequence runs to the end. -/
theorem dispatchAll_preserves (P : State → Prop)
    (hstep : ∀ (clk : Clock) (s : State) (a : Action), isLoadState a = false → P s →
      ∃ s', playlistReducer clk s a = some s' ∧ P s')
    (trace : List (Clock × Action)) :
    ∀ s, P s → (∀ e ∈ trace, isLoadState e.2 = false) →
      ∃ s', dispatchAll s trace = some s' ∧ P s' := by
  induction trace with
  | nil => intro s hs _; exact ⟨s, rfl, hs⟩
  | cons e rest ih =>
    intro s hs hall
    obtain ⟨clk, a⟩ := e
    obtain ⟨t, ht, hPt⟩ := hstep clk s a (hall (clk, a) (List.mem_cons_self _ _)) hs
    obtain ⟨s', hs', hP⟩ := ih t hPt fun e he => hall e (List.mem_cons_of_mem _ he)
    exact ⟨s', by simp [dispatchAll, ht, hs'], hP⟩

/-- Every state reached from the initial state without `LOAD_STATE` has its
cursor in bounds and on the snapshot of the live playlists. -/
theorem reached_liveAtCursor (trace : List (Clock × Action))
    (hall : ∀ e ∈ trace, isLoadState e.2 = false) :
    ∃ s, dispatchAll initialState trace = some s ∧ cursorInBounds s ∧ liveAtCursor s := by
  refine dispatchAll_preserves (fun s => cursorInBounds s ∧ liveAtCursor s) ?_ trace
    initialState ⟨by decide, ?_⟩ hall
  · intro clk s a ha hs
    exact step_liveAtCursor clk s a ha hs.1 hs.2
  · intro h
    exact absurd h (by decide)

/-- Where the cursor is on the snapshot of the live playlists, a
history-worthy action followed by `UNDO` gives back the playlists from before
the action. -/
theorem undo_after_edit (clk clk2 : Clock) (s : State) (a : Action)
    (h0 : 0 ≤ s.historyIndex) (h1 : s.historyIndex < (s.history.length : Int))
    (hlive : liveAtCursor s) (ha : historyWorthy a = true) :
    ∃ s1 s2, playlistReducer clk s a = some s1 ∧ playlistReducer clk2 s1 .UNDO = some s2 ∧
      s2.playlists = s.playlists := by
  obtain ⟨n, hn, -⟩ := reducer_of_historyWorthy clk s a ha
  obtain ⟨snap, hsnap, hpl⟩ := (liveAtCursor_iff s).1 hlive h0
  have hhist := saveToHistory_history clk s n
  rw [slice_of_nonneg _ _ (by omega)] at hhist
  have hlen : ((saveToHistory clk s n).history.length : Int) = s.historyIndex + 2 := by
    rw [hhist, List.length_append, List.length_take]
    simp only [List.length_singleton]
    omega
  have hidx := saveToHistory_historyIndex clk s n
  obtain ⟨snap', hsnap', hu⟩ := undo_of_pos clk2 (saveToHistory clk s n) (by omega) (by omega)
  refine ⟨_, _, hn, hu, ?_⟩
  have hi : (saveToHistory clk s n).historyIndex - 1 = s.historyIndex := by omega
  rw [hi, index_of_nonneg _ _ h0, hhist] at hsnap'
  rw [index_of_nonneg _ _ h0] at hsnap
  have hlt : s.historyIndex.toNat < (List.take (s.historyIndex + 1).toNat s.history).length := by
    rw [List.length_take]
    omega
  rw [List.getElem?_append_left hlt, List.getElem?_take_of_lt (by omega), hsnap] at hsnap'
  cases hsnap'
  exact hpl

theorem isLoadState_of_historyWorthy (a : Action) (ha : historyWorthy a = true) :
    isLoadState a = false := by
  cases a <;> simp_all [historyWorthy, isLoadState]

/-- After a non-empty sequence of history-worthy actions from the initial
state, a further history-worthy action followed by `UNDO` gives back the
playlists from before that action. -/
theorem undo_after_edit_reached (trace : List (Clock × Action)) (e : Clock × Action)
    (clk clk2 : Clock) (a : Action)
    (hall : ∀ x ∈ trace ++ [e], historyWorthy x.2 = true) (ha : historyWorthy a = true) :
    ∃ s s1 s2, dispatchAll initialState (trace ++ [e]) = some s ∧
      playlistReducer clk s a = some s1 ∧ playlistReducer clk2 s1 .UNDO = some s2 ∧
      s2.playlists = s.playlists := by
  obtain ⟨s0, hs0, hb0, -⟩ := reached_liveAtCursor trace fun x hx =>
    isLoadState_of_historyWorthy x.2 (hall x (List.mem_append_left _ hx))
  obtain ⟨n, hn, -⟩ := reducer_of_historyWorthy e.1 s0 e.2
    (hall e (List.mem_append_right _ (List.mem_singleton_self e)))
  have hrun : dispatchAll initialState (trace ++ [e]) = some (saveToHistory e.1 s0 n) := by
    rw [dispatchAll_append, hs0]
    simp [dispatchAll, hn]
  have hidx := saveToHistory_historyIndex e.1 s0 n
  have hlen : 0 < (saveToHistory e.1 s0 n).history.length := by
    rw [saveToHistory_history]; simp
  obtain ⟨s1, s2, h1, h2, h3⟩ := undo_after_edit clk clk2 (saveToHistory e.1 s0 n) a
    (by omega) (by omega) (saveToHistory_liveAtCursor e.1 s0 n) ha
  exact ⟨_, s1, s2, hrun, h1, h2, h3⟩

/-- C1, on the code: the first history-worthy action is not undone.  From the
initial state (reached by the empty sequence) `AddSong` puts `song_1` into
playlist "1" and leaves the cursor at `0`; the following `UNDO` returns that
state as it is, so the playlists still hold the song and differ from the
playlists before the action. -/
theorem first_edit_not_undone :
    dispatchAll initialState [] = some initialState ∧
    playlistReducer clock0 initialState addSongA = some afterOneAdd ∧
    afterOneAdd.historyIndex = 0 ∧
    playlistReducer clock1 afterOneAdd .UNDO = some afterOneAdd ∧
    afterOneAdd.playlists ≠ initialState.playlists := by
  decide

/-- C8, on the code: from the default initial state, after
`AddSong("Song A", "Artist X", "3:12")` playlist "1" holds the one song
`song_1` and `canRedo` is false, but `canUndo` is false as well
(`historyIndex` is `0`); the following `UNDO` returns the same state, so
playlist "1" still holds the song and `canRedo` stays false; the following
`REDO` returns the same state again. -/
theorem scenario_add_undo_redo :
    playlistReducer clock0 initialState addSongA = some afterOneAdd ∧
    songsOf afterOneAdd.playlists "1" = some [songA] ∧ songA.id = "song_1" ∧
    ¬ canUndo afterOneAdd ∧ ¬ canRedo afterOneAdd ∧
    playlistReducer clock1 afterOneAdd .UNDO = some afterOneAdd ∧
    playlistReducer clock2 afterOneAdd .REDO = some afterOneAdd := by
  decide

/-- C2 fails as stated.  In the state reached by two `AddSong` and one `UNDO`
`canRedo` is true and the cursor is `0`: `UNDO` returns the state as it is and
`REDO` then moves forward, to a different state.  In `strayState`, where both
`canUndo` and `canRedo` are true but the live playlists are not those of the
snapshot under the cursor, `UNDO` then `REDO` returns a different state
too. -/
theorem undo_redo_counterexample :
    (dispatchAll initialState [(clock0, addSongA), (clock1, addSongB), (clock2, .UNDO)] =
        some afterTwoAddsAndUndo ∧
      canRedo afterTwoAddsAndUndo ∧
      dispatchAll afterTwoAddsAndUndo [(clock3, .UNDO), (clock3, .REDO)] = some afterTwoAdds ∧
      afterTwoAdds ≠ afterTwoAddsAndUndo) ∧
    (canRedo strayState ∧ canUndo strayState ∧
      dispatchAll strayState [(clock3, .UNDO), (clock3, .REDO)] =
        some { strayState with playlists := defaultsWith [songA, songB] } ∧
      { strayState with playlists := defaultsWith [songA, songB] } ≠ strayState) := by
  decide

/-- C2, amended: in every state in which `canUndo` is true
(`0 < historyIndex < history.length`) and whose live playlists are those of
the snapshot under the cursor, `UNDO` followed by `REDO` returns the state
itself. -/
theorem undo_then_redo (clk clk2 : Clock) (s : State) (h0 : canUndo s)
    (h1 : s.historyIndex < (s.history.length : Int)) (hlive : liveAtCursor s) :
    ∃ u, playlistReducer clk s .UNDO = some u ∧ playlistReducer clk2 u .REDO = some s := by
  unfold canUndo at h0
  obtain ⟨snap, hsnap, hpl⟩ := (liveAtCursor_iff s).1 hlive (by omega)
  obtain ⟨prev, -, hu⟩ := undo_of_pos clk s h0 (by omega)
  refine ⟨_, hu, ?_⟩
  obtain ⟨next, hnext, hr⟩ := redo_of_lt clk2
    { s with playlists := prev.playlists, historyIndex := s.historyIndex - 1 }
    (by simp only; omega) (by simp only; omega)
  rw [hr]
  simp only at hnext
  rw [show s.historyIndex - 1 + 1 = s.historyIndex by omega, hsnap] at hnext
  cases hnext
  cases s
  simp_all

/-- A run of `undo_then_redo`: after two added songs the cursor is on the
second snapshot. -/
theorem undo_then_redo_witness :
    (canUndo afterTwoAdds ∧
      afterTwoAdds.historyIndex < (afterTwoAdds.history.length : Int) ∧
      liveAtCursor afterTwoAdds) ∧
    ∃ u, playlistReducer clock2 afterTwoAdds .UNDO = some u ∧
      playlistReducer clock3 u .REDO = some afterTwoAdds :=
  ⟨by decide,
   undo_then_redo clock2 clock3 afterTwoAdds (by decide) (by decide) (by decide)⟩

/-! ## Adding and removing songs -/

/-- C4 fails as stated: in `saturatedState`, whose counter is `2 ^ 53` and
whose active id names playlist "1", `ADD_SONG` returns a state whose counter
is still `2 ^ 53`, not the old one plus 1; a second `ADD_SONG` then puts a
second song of the same id `song_9007199254740992` into the playlist. -/
theorem addSong_counter_counterexample :
    (∃ p ∈ saturatedState.playlists, p.id = saturatedState.activePlaylistId) ∧
    ∃ s1 s2, playlistReducer clock0 saturatedState addSongA = some s1 ∧
      s1.songIdCounter = saturatedState.songIdCounter ∧
      s1.songIdCounter ≠ saturatedState.songIdCounter + 1 ∧
      playlistReducer clock1 s1 addSongB = some s2 ∧
      (songsOf s2.playlists "1").map (fun songs => songs.map Song.id) =
        some ["song_9007199254740992", "song_9007199254740992"] := by
  refine ⟨by decide, _, _, rfl, by decide, by decide, rfl, by decide⟩

/-- C4, amended: in a state whose `activePlaylistId` names a playlist and
whose `songIdCounter` is below `2 ^ 53`, `ADD_SONG` with any payload returns a
state whose `songIdCounter` is the old one plus 1 and whose playlists are the
old ones, position by position, where each playlist with the active id has
its old songs followed by the one new song, of id `song_` followed by the
decimal old counter, and every other playlist is unchanged. -/
theorem addSong_appends_one_song (clk : Clock) (s : State) (payload : SongPayload)
    (hact : ∃ p ∈ s.playlists, p.id = s.activePlaylistId)
    (hsafe : s.songIdCounter < 2 ^ 53) :
    ∃ s' song, playlistReducer clk s (.ADD_SONG payload) = some s' ∧
      s'.songIdCounter = s.songIdCounter + 1 ∧
      song.id = "song_" ++ toString s.songIdCounter ∧ song.name = payload.name ∧
      s'.playlists.length = s.playlists.length ∧
      (∀ (i : Nat) (p : Playlist), s.playlists[i]? = some p →
        ∃ p', s'.playlists[i]? = some p' ∧
          (p.id = s.activePlaylistId → p' = { p with songs := p.songs ++ [song] }) ∧
          (p.id ≠ s.activePlaylistId → p' = p)) ∧
      (∃ p ∈ s.playlists, p.id = s.activePlaylistId ∧
        { p with songs := p.songs ++ [song] } ∈ s'.playlists) := by
  refine ⟨_, newSong clk s payload, rfl, jsAddOne_of_lt _ hsafe, rfl, rfl, ?_, ?_, ?_⟩
  · simp
  · intro i p hp
    simp only [saveToHistory_playlists, List.getElem?_map, hp, Option.map_some']
    refine ⟨_, rfl, ?_, ?_⟩
    · intro h; rw [if_pos h]
    · intro h; rw [if_neg h]
  · obtain ⟨p, hp, hid⟩ := hact
    refine ⟨p, hp, hid, ?_⟩
    simp only [saveToHistory_playlists, List.mem_map]
    exact ⟨p, hp, by rw [if_pos hid]⟩

/-- A run of `addSong_appends_one_song`: a second song added after the first. -/
theorem addSong_appends_one_song_witness :
    ((∃ p ∈ afterOneAdd.playlists, p.id = afterOneAdd.activePlaylistId) ∧
      afterOneAdd.songIdCounter < 2 ^ 53) ∧
    ∃ s' song, playlistReducer clock1 afterOneAdd addSongB = some s' ∧
      s'.songIdCounter = afterOneAdd.songIdCounter + 1 ∧
      song.id = "song_" ++ toString afterOneAdd.songIdCounter ∧ song.name = "Song B" ∧
      s'.playlists.length = afterOneAdd.playlists.length ∧
      (∀ (i : Nat) (p : Playlist), afterOneAdd.playlists[i]? = some p →
        ∃ p', s'.playlists[i]? = some p' ∧
          (p.id = afterOneAdd.activePlaylistId → p' = { p with songs := p.songs ++ [song] }) ∧
          (p.id ≠ afterOneAdd.activePlaylistId → p' = p)) ∧
      (∃ p ∈ afterOneAdd.playlists, p.id = afterOneAdd.activePlaylistId ∧
        { p with songs := p.songs ++ [song] } ∈ s'.playlists) :=
  ⟨by decide, addSong_appends_one_song clock1 afterOneAdd
    ⟨"Song B", some "Artist Y", some "2:45"⟩ (by decide) (by decide)⟩

/-- C6 fails as stated: `REMOVE_SONG` of the id `song_9`, which no song of the
initial state carries, returns a state with one history entry and the cursor
at `0`, where the initial state has an empty history and the cursor at `-1`. -/
theorem removeSong_absent_counterexample :
    (∀ p ∈ initialState.playlists, p.id = initialState.activePlaylistId →
        ∀ x ∈ p.songs, x.id ≠ "song_9") ∧
    playlistReducer clock0 initialState (.REMOVE_SONG "song_9") =
      some { initialState with
        history := [⟨initialState.playlists, 1704067200000⟩], historyIndex := 0 } ∧
    [(⟨initialState.playlists, 1704067200000⟩ : Snapshot)] ≠ initialState.history ∧
    (0 : Int) ≠ initialState.historyIndex := by
  decide

/-- C6, amended: for every state and every song id that no song of a playlist
with the active id carries, `REMOVE_SONG` returns a state with the same
playlists, active id and counter; its history is the old one cut after the
cursor and followed by one new snapshot of these playlists, and its cursor is
on that new last entry. -/
theorem removeSong_absent (clk : Clock) (s : State) (songId : String)
    (habs : ∀ p ∈ s.playlists, p.id = s.activePlaylistId → ∀ x ∈ p.songs, x.id ≠ songId) :
    ∃ s', playlistReducer clk s (.REMOVE_SONG songId) = some s' ∧
      s'.playlists = s.playlists ∧
      s'.activePlaylistId = s.activePlaylistId ∧ s'.songIdCounter = s.songIdCounter ∧
      s'.history = slice s.history (s.historyIndex + 1) ++ [⟨s.playlists, clk.stamp⟩] ∧
      s'.historyIndex = (s'.history.length : Int) - 1 := by
  have hsame : (s.playlists.map fun playlist =>
      if playlist.id = s.activePlaylistId then
        { playlist with songs := playlist.songs.filter fun song => song.id ≠ songId }
      else playlist) = s.playlists := by
    conv_rhs => rw [← List.map_id s.playlists]
    apply List.map_congr_left
    intro p hp
    by_cases hid : p.id = s.activePlaylistId
    · rw [if_pos hid]
      have hf : (p.songs.filter fun song => song.id ≠ songId) = p.songs := by
        rw [List.filter_eq_self]
        intro x hx
        simpa using habs p hp hid x hx
      rw [hf]
      rfl
    · rw [if_neg hid]
      rfl
  refine ⟨_, rfl, ?_, rfl, rfl, ?_, saveToHistory_historyIndex _ _ _⟩
  · rw [saveToHistory_playlists]
    exact hsame
  · rw [saveToHistory_history]
    simp only
    rw [hsame]

/-- A run of `removeSong_absent`: an absent id removed after one added song. -/
theorem removeSong_absent_witness :
    (∀ p ∈ afterOneAdd.playlists, p.id = afterOneAdd.activePlaylistId →
        ∀ x ∈ p.songs, x.id ≠ "song_9") ∧
    ∃ s', playlistReducer clock1 afterOneAdd (.REMOVE_SONG "song_9") = some s' ∧
      s'.playlists = afterOneAdd.playlists ∧
      s'.activePlaylistId = afterOneAdd.activePlaylistId ∧
      s'.songIdCounter = afterOneAdd.songIdCounter ∧
      s'.history = slice afterOneAdd.history (afterOneAdd.historyIndex + 1) ++
        [⟨afterOneAdd.playlists, clock1.stamp⟩] ∧
      s'.historyIndex = (s'.history.length : Int) - 1 :=
  ⟨by decide, removeSong_absent clock1 afterOneAdd "song_9" (by decide)⟩

/-! ## Creating playlists -/

/-- C7 fails as stated: `CREATE_PLAYLIST` at the clock reading of an earlier
creation appends a playlist whose id a playlist of the state already has.
Here `createRoadTrip` is applied twice at `clock0`. -/
theorem createPlaylist_id_counterexample :
    playlistReducer clock0 initialState createRoadTrip = some afterCreate ∧
    ∃ s', playlistReducer clock0 afterCreate createRoadTrip = some s' ∧
      s'.playlists = afterCreate.playlists ++ [roadTrip] ∧
      s'.activePlaylistId = roadTrip.id ∧
      ∃ p ∈ afterCreate.playlists, p.id = roadTrip.id := by
  refine ⟨by decide, _, rfl, by decide, by decide, by decide⟩

/-- C9 fails as stated: the reducer, applied to the default initial state
with title "Road Trip", description "" and no color, appends a third
playlist whose description is the empty string, not "Custom playlist". -/
theorem createPlaylist_description_counterexample :
    ∃ s' np, playlistReducer clock0 initialState createRoadTrip = some s' ∧
      s'.playlists = initialState.playlists ++ [np] ∧
      np.description = "" ∧ np.description ≠ "Custom playlist" := by
  refine ⟨_, roadTrip, rfl, by decide, by decide, by decide⟩

/-- C9, amended: when `handleCreatePlaylist` builds the action from the form
fields "Road Trip" and "" (whatever palette entry it draws), the reducer
applied to the default initial state yields a third playlist whose description
is "Custom playlist" and whose color is in the palette, and `activePlaylistId`
is the new playlist's id; the reducer applied directly to title "Road Trip",
description "" and no color yields a third playlist with description "" and
the palette color `#535353`, again with `activePlaylistId` the new id. -/
theorem scenario_create_road_trip (clk : Clock) (pick : Fin 5) :
    (∃ a s' np, handleCreatePlaylist "Road Trip" "" pick = some a ∧
      playlistReducer clk initialState a = some s' ∧
      s'.playlists = initialState.playlists ++ [np] ∧ s'.playlists.length = 3 ∧
      np.title = "Road Trip" ∧ np.description = "Custom playlist" ∧
      np.color ∈ colors ∧ s'.activePlaylistId = np.id) ∧
    (∃ s' np, playlistReducer clk initialState createRoadTrip = some s' ∧
      s'.playlists = initialState.playlists ++ [np] ∧ s'.playlists.length = 3 ∧
      np.title = "Road Trip" ∧ np.description = "" ∧
      np.color = "#535353" ∧ np.color ∈ colors ∧ s'.activePlaylistId = np.id) := by
  constructor
  · have ht : jsTrim "Road Trip" = "Road Trip" := by decide
    have hd : jsOr (some (jsTrim "")) "Custom playlist" = "Custom playlist" := by decide
    have hne : ¬ ("Road Trip" = "") := by decide
    refine ⟨.CREATE_PLAYLIST ⟨"Road Trip", "Custom playlist",
        some (colors.get ⟨pick.val, pick.isLt⟩)⟩, _, _, ?_, rfl, rfl, rfl, rfl, rfl, ?_, rfl⟩
    · simp [handleCreatePlaylist, ht, hd]
    · have hmem : colors.get ⟨pick.val, pick.isLt⟩ ∈ colors := List.get_mem _ _ _
      have hne : ∀ c ∈ colors, jsOr (some c) "#535353" = c := by decide
      show jsOr (some (colors.get ⟨pick.val, pick.isLt⟩)) "#535353" ∈ colors
      rw [hne _ hmem]
      exact hmem
  · have hc : "#535353" ∈ colors := by decide
    exact ⟨_, newPlaylist clk ⟨"Road Trip", "", none⟩, rfl, rfl, rfl, rfl, rfl, rfl, hc, rfl⟩

/-! ## Song ids are never reused -/

theorem mem_stored (s : State) (p : Playlist) :
    p ∈ stored s ↔ p ∈ s.playlists ∨ ∃ h ∈ s.history, p ∈ h.playlists := by
  simp [stored, List.mem_flatten]

theorem mem_of_mem_slice {α : Type} (xs : List α) (e : Int) (x : α) (h : x ∈ slice xs e) :
    x ∈ xs := by
  unfold slice at h
  split at h <;> exact List.mem_of_mem_take h

theorem mem_of_index {α : Type} (xs : List α) (i : Int) (x : α) (h : index xs i = some x) :
    x ∈ xs := by
  unfold index at h
  split at h
  · cases h
  · exact List.getElem?_mem h

theorem mem_stored_saveToHistory (clk : Clock) (s n : State) (p : Playlist)
    (h : p ∈ stored (saveToHistory clk s n)) : p ∈ n.playlists ∨ p ∈ stored s := by
  rw [mem_stored, saveToHistory_playlists, saveToHistory_history] at h
  rcases h with h | ⟨snap, hsnap, hp⟩
  · exact Or.inl h
  · rw [List.mem_append, List.mem_singleton] at hsnap
    rcases hsnap with hsnap | rfl
    · exact Or.inr ((mem_stored s p).2 (Or.inr ⟨snap, mem_of_mem_slice _ _ _ hsnap, hp⟩))
    · exact Or.inl hp

/-- What `UNDO` returns, when it returns. -/
theorem undo_eq_some (clk : Clock) (s s' : State) (h : playlistReducer clk s .UNDO = some s') :
    s' = s ∨ ∃ snap ∈ s.history,
      s' = { s with playlists := snap.playlists, historyIndex := s.historyIndex - 1 } := by
  simp only [playlistReducer] at h
  split at h
  · split at h
    · rename_i snap hsnap
      cases h
      exact Or.inr ⟨snap, mem_of_index _ _ _ hsnap, by simp⟩
    · cases h
  · cases h
    exact Or.inl rfl

/-- What `REDO` returns, when it returns. -/
theorem redo_eq_some (clk : Clock) (s s' : State) (h : playlistReducer clk s .REDO = some s') :
    s' = s ∨ ∃ snap ∈ s.history,
      s' = { s with playlists := snap.playlists, historyIndex := s.historyIndex + 1 } := by
  simp only [playlistReducer] at h
  split at h
  · split at h
    · rename_i snap hsnap
      cases h
      exact Or.inr ⟨snap, mem_of_index _ _ _ hsnap, by simp⟩
    · cases h
  · cases h
    exact Or.inl rfl

/-- The songs of a playlist stored after a step: none, or part of the songs of
a playlist stored before, or those followed by the song `ADD_SONG` built. -/
theorem stored_step (clk : Clock) (s s' : State) (a : Action)
    (ha : isLoadState a = false) (h : playlistReducer clk s a = some s') :
    ∀ p ∈ stored s', p.songs = [] ∨ ∃ q ∈ stored s, p.songs.Sublist q.songs ∨
      ∃ payload, a = .ADD_SONG payload ∧ p.songs = q.songs ++ [newSong clk s payload] := by
  intro p hp
  have hold : ∀ p, p ∈ stored s → p.songs = [] ∨ ∃ q ∈ stored s, p.songs.Sublist q.songs ∨
      ∃ payload, a = .ADD_SONG payload ∧ p.songs = q.songs ++ [newSong clk s payload] :=
    fun p hq => Or.inr ⟨p, hq, Or.inl (List.Sublist.refl _)⟩
  have hlive : ∀ q, q ∈ s.playlists → q ∈ stored s := fun q hq => (mem_stored s q).2 (Or.inl hq)
  cases a with
  | LOAD_STATE _ => simp [isLoadState] at ha
  | DELETE_PLAYLIST _ => cases h; exact hold p hp
  | SELECT_PLAYLIST payload =>
    cases h
    exact hold p (by simpa [stored] using hp)
  | UNDO =>
    rcases undo_eq_some clk s s' h with rfl | ⟨snap, hsnap, rfl⟩
    · exact hold p hp
    · refine hold p ?_
      rw [mem_stored] at hp ⊢
      rcases hp with hp | hp
      · exact Or.inr ⟨snap, hsnap, hp⟩
      · exact Or.inr hp
  | REDO =>
    rcases redo_eq_some clk s s' h with rfl | ⟨snap, hsnap, rfl⟩
    · exact hold p hp
    · refine hold p ?_
      rw [mem_stored] at hp ⊢
      rcases hp with hp | hp
      · exact Or.inr ⟨snap, hsnap, hp⟩
      · exact Or.inr hp
  | ADD_SONG payload =>
    cases h
    rcases mem_stored_saveToHistory _ _ _ _ hp with hp | hp
    · simp only [List.mem_map] at hp
      obtain ⟨q, hq, rfl⟩ := hp
      refine Or.inr ⟨q, hlive q hq, ?_⟩
      by_cases hid : q.id = s.activePlaylistId
      · rw [if_pos hid]
        exact Or.inr ⟨payload, rfl, rfl⟩
      · rw [if_neg hid]
        exact Or.inl (List.Sublist.refl _)
    · exact hold p hp
  | REMOVE_SONG payload =>
    cases h
    rcases mem_stored_saveToHistory _ _ _ _ hp with hp | hp
    · simp only [List.mem_map] at hp
      obtain ⟨q, hq, rfl⟩ := hp
      refine Or.inr ⟨q, hlive q hq, Or.inl ?_⟩
      by_cases hid : q.id = s.activePlaylistId
      · rw [if_pos hid]
        exact List.filter_sublist _
      · rw [if_neg hid]
    · exact hold p hp
  | CLEAR_PLAYLIST =>
    cases h
    rcases mem_stored_saveToHistory _ _ _ _ hp with hp | hp
    · simp only [List.mem_map] at hp
      obtain ⟨q, hq, rfl⟩ := hp
      by_cases hid : q.id = s.activePlaylistId
      · rw [if_pos hid]
        exact Or.inl rfl
      · rw [if_neg hid]
        exact hold q (hlive q hq)
    · exact hold p hp
  | CREATE_PLAYLIST payload =>
    cases h
    rcases mem_stored_saveToHistory _ _ _ _ hp with hp | hp
    · simp only [List.mem_append, List.mem_singleton] at hp
      rcases hp with hp | rfl
      · exact hold p (hlive p hp)
      · exact Or.inl rfl
    · exact hold p hp

/-- The counter after a step: `counter + 1`, as numbers add, after `ADD_SONG`;
the same otherwise. -/
theorem counter_step (clk : Clock) (s s' : State) (a : Action)
    (ha : isLoadState a = false) (h : playlistReducer clk s a = some s') :
    (∃ payload, a = .ADD_SONG payload ∧ s'.songIdCounter = jsAddOne s.songIdCounter) ∨
    ((∀ payload, a ≠ .ADD_SONG payload) ∧ s'.songIdCounter = s.songIdCounter) := by
  cases a with
  | LOAD_STATE _ => simp [isLoadState] at ha
  | ADD_SONG payload => cases h; exact Or.inl ⟨payload, rfl, rfl⟩
  | REMOVE_SONG _ => cases h; exact Or.inr ⟨by simp, rfl⟩
  | CLEAR_PLAYLIST => cases h; exact Or.inr ⟨by simp, rfl⟩
  | CREATE_PLAYLIST _ => cases h; exact Or.inr ⟨by simp, rfl⟩
  | DELETE_PLAYLIST _ => cases h; exact Or.inr ⟨by simp, rfl⟩
  | SELECT_PLAYLIST _ => cases h; exact Or.inr ⟨by simp, rfl⟩
  | UNDO =>
    rcases undo_eq_some clk s s' h with rfl | ⟨snap, -, rfl⟩ <;> exact Or.inr ⟨by simp, rfl⟩
  | REDO =>
    rcases redo_eq_some clk s s' h with rfl | ⟨snap, -, rfl⟩ <;> exact Or.inr ⟨by simp, rfl⟩

/-- A counter up to `2 ^ 53` stays up to `2 ^ 53` and does not decrease. -/
theorem counter_step_bounds (clk : Clock) (s s' : State) (a : Action)
    (ha : isLoadState a = false) (h : playlistReducer clk s a = some s')
    (hs : s.songIdCounter ≤ 2 ^ 53) :
    s.songIdCounter ≤ s'.songIdCounter ∧ s'.songIdCounter ≤ 2 ^ 53 := by
  have hb := jsAddOne_bounds s.songIdCounter hs
  rcases counter_step clk s s' a ha h with ⟨_, -, hc⟩ | ⟨-, hc⟩ <;> omega

/-- Where every stored song has an id below the counter, no stored song has
the id the next `ADD_SONG` assigns. -/
theorem next_id_fresh (s : State)
    (hS : ∀ p ∈ stored s, ∀ x ∈ p.songs,
      ∃ k, k < s.songIdCounter ∧ x.id = "song_" ++ toString k) :
    ∀ p ∈ stored s, ∀ x ∈ p.songs, x.id ≠ "song_" ++ toString s.songIdCounter := by
  intro p hp x hx heq
  obtain ⟨k, hk, hid⟩ := hS p hp x hx
  rw [hid] at heq
  have := append_toString_inj "song_" k s.songIdCounter heq
  omega

/-- Where each stored song comes from after a step: it was stored before, or
it is the song `ADD_SONG` built. -/
theorem song_origin (clk : Clock) (s s' : State) (a : Action)
    (ha : isLoadState a = false) (h : playlistReducer clk s a = some s') :
    ∀ p ∈ stored s', ∀ x ∈ p.songs, (∃ q ∈ stored s, x ∈ q.songs) ∨
      ∃ payload, a = .ADD_SONG payload ∧ x = newSong clk s payload := by
  intro p hp x hx
  rcases stored_step clk s s' a ha h p hp with hnil | ⟨q, hq, hsub | ⟨payload, rfl, happ⟩⟩
  · rw [hnil] at hx
    cases hx
  · exact Or.inl ⟨q, hq, hsub.subset hx⟩
  · rw [happ, List.mem_append, List.mem_singleton] at hx
    rcases hx with hx | rfl
    · exact Or.inl ⟨q, hq, hx⟩
    · exact Or.inr ⟨payload, rfl, rfl⟩

/-- One step of the reducer keeps `songIdsUsedOnce`, for every action but
`LOAD_STATE`, an `ADD_SONG` being dispatched with the counter below
`2 ^ 53`. -/
theorem step_songIdsUsedOnce (clk : Clock) (s s' : State) (a : Action)
    (ha : isLoadState a = false) (h : playlistReducer clk s a = some s')
    (hsafe : isAddSong a = true → s.songIdCounter < 2 ^ 53)
    (hs : songIdsUsedOnce s) : songIdsUsedOnce s' := by
  obtain ⟨hS, hN, hU⟩ := hs
  have hfresh := next_id_fresh s hS
  have horigin := song_origin clk s s' a ha h
  have hcount := counter_step clk s s' a ha h
  refine ⟨?_, ?_, ?_⟩
  · intro p hp x hx
    rcases horigin p hp x hx with ⟨q, hq, hxq⟩ | ⟨payload, rfl, rfl⟩
    · obtain ⟨k, hk, hid⟩ := hS q hq x hxq
      refine ⟨k, ?_, hid⟩
      rcases hcount with ⟨payload, rfl, hc⟩ | ⟨-, hc⟩
      · rw [hc, jsAddOne_of_lt _ (hsafe rfl)]
        omega
      · omega
    · refine ⟨s.songIdCounter, ?_, rfl⟩
      rcases hcount with ⟨_, -, hc⟩ | ⟨hne, -⟩
      · rw [hc, jsAddOne_of_lt _ (hsafe rfl)]
        omega
      · exact absurd rfl (hne payload)
  · intro p hp
    rcases stored_step clk s s' a ha h p hp with hnil | ⟨q, hq, hsub | ⟨payload, rfl, happ⟩⟩
    · rw [hnil]
      exact List.nodup_nil
    · exact (hN q hq).sublist (hsub.map Song.id)
    · rw [happ, List.map_append, List.nodup_append]
      refine ⟨hN q hq, by simp, ?_⟩
      intro i hi hi'
      rw [List.map_singleton, List.mem_singleton] at hi'
      rw [List.mem_map] at hi
      obtain ⟨y, hy, rfl⟩ := hi
      exact hfresh q hq y hy hi'
  · intro p hp q hq x hx y hy hxy
    rcases horigin p hp x hx with ⟨p0, hp0, hxp⟩ | ⟨payload, rfl, rfl⟩
    · rcases horigin q hq y hy with ⟨q0, hq0, hyq⟩ | ⟨payload, rfl, rfl⟩
      · exact hU p0 hp0 q0 hq0 x hxp y hyq hxy
      · exact absurd hxy (hfresh p0 hp0 x hxp)
    · rcases horigin q hq y hy with ⟨q0, hq0, hyq⟩ | ⟨payload', hpay, rfl⟩
      · exact absurd hxy.symm (hfresh q0 hq0 y hyq)
      · cases hpay
        rfl

/-- A counter up to `2 ^ 53` never decreases along a sequence of dispatches
without `LOAD_STATE`, and stays up to `2 ^ 53`. -/
theorem counter_mono (trace : List (Clock × Action)) :
    ∀ s s', (∀ e ∈ trace, isLoadState e.2 = false) → dispatchAll s trace = some s' →
      s.songIdCounter ≤ 2 ^ 53 →
      s.songIdCounter ≤ s'.songIdCounter ∧ s'.songIdCounter ≤ 2 ^ 53 := by
  induction trace with
  | nil =>
    intro s s' _ h hs
    cases h
    exact ⟨Nat.le_refl _, hs⟩
  | cons e rest ih =>
    intro s s' hall h hs
    obtain ⟨clk, a⟩ := e
    simp only [dispatchAll, Option.bind_eq_some] at h
    obtain ⟨t, ht, hrest⟩ := h
    have h0 := counter_step_bounds clk s t a (hall (clk, a) (List.mem_cons_self _ _)) ht hs
    have h1 := ih t s' (fun e he => hall e (List.mem_cons_of_mem _ he)) hrest h0.2
    omega

/-- Song ids stay used once along a sequence of dispatches without
`LOAD_STATE` whose `ADD_SONG` dispatches do not take the counter beyond
`2 ^ 53`. -/
theorem dispatchAll_songIdsUsedOnce (trace : List (Clock × Action)) :
    ∀ s, (∀ e ∈ trace, isLoadState e.2 = false) → cursorInBounds s → songIdsUsedOnce s →
      s.songIdCounter + addCount trace ≤ 2 ^ 53 →
      ∃ s', dispatchAll s trace = some s' ∧ cursorInBounds s' ∧ songIdsUsedOnce s' := by
  induction trace with
  | nil => intro s _ hb hs _; exact ⟨s, rfl, hb, hs⟩
  | cons e rest ih =>
    intro s hall hb hs hbudget
    obtain ⟨clk, a⟩ := e
    have ha := hall (clk, a) (List.mem_cons_self _ _)
    obtain ⟨t, ht, hbt⟩ := step_cursorInBounds clk s a ha hb
    have hcons : addCount ((clk, a) :: rest) =
        addCount rest + if isAddSong a = true then 1 else 0 := by
      simp [addCount, List.countP_cons]
    rw [hcons] at hbudget
    have hsafe : isAddSong a = true → s.songIdCounter < 2 ^ 53 := by
      intro hadd
      rw [if_pos hadd] at hbudget
      omega
    have hst := step_songIdsUsedOnce clk s t a ha ht hsafe hs
    have hcount : t.songIdCounter + addCount rest ≤ 2 ^ 53 := by
      rcases counter_step clk s t a ha ht with ⟨payload, rfl, hc⟩ | ⟨hne, hc⟩
      · have hadd : isAddSong (Action.ADD_SONG payload) = true := rfl
        rw [hc, jsAddOne_of_lt _ (hsafe hadd)]
        rw [if_pos hadd] at hbudget
        omega
      · rw [hc]
        omega
    obtain ⟨s', hs', hb', hfinal⟩ := ih t (fun e he => hall e (List.mem_cons_of_mem _ he))
      hbt hst hcount
    exact ⟨s', by simp [dispatchAll, ht, hs'], hb', hfinal⟩

theorem addedUpTo_step (clk : Clock) (payload : SongPayload) (k : Nat) (s : State)
    (h : addedUpTo k s) :
    ∃ s', playlistReducer clk s (.ADD_SONG payload) = some s' ∧ addedUpTo (k + 1) s' := by
  obtain ⟨hc, ha, ⟨p, hp, hpid⟩, -⟩ := h
  refine ⟨_, rfl, ?_, ?_, ?_, ?_⟩
  · show jsAddOne s.songIdCounter = _
    rw [hc]
    by_cases hk : k + 1 < 2 ^ 53
    · rw [Nat.min_eq_left (by omega), jsAddOne_of_lt _ hk, Nat.min_eq_left (by omega)]
    · have h53 : jsAddOne (2 ^ 53) = 2 ^ 53 := by decide
      rw [Nat.min_eq_right (by omega), h53, Nat.min_eq_right (by omega)]
  · exact ha
  · refine ⟨{ p with songs := p.songs ++ [newSong clk s payload] }, ?_, hpid⟩
    simp only [saveToHistory_playlists, List.mem_map]
    exact ⟨p, hp, by simp [hpid, ha]⟩
  · intro _
    refine ⟨{ p with songs := p.songs ++ [newSong clk s payload] }, ?_,
      newSong clk s payload, by simp, ?_⟩
    · simp only [saveToHistory_playlists, List.mem_map]
      exact ⟨p, hp, by simp [hpid, ha]⟩
    · show "song_" ++ toString s.songIdCounter = _
      rw [hc]

theorem addedUpTo_replicate (clk : Clock) (payload : SongPayload) (n : Nat) :
    ∀ (k : Nat) (s : State), addedUpTo k s →
      ∃ s', dispatchAll s (List.replicate n (clk, .ADD_SONG payload)) = some s' ∧
        addedUpTo (k + n) s' := by
  induction n with
  | zero => intro k s h; exact ⟨s, rfl, h⟩
  | succ n ih =>
    intro k s h
    obtain ⟨t, ht, hkt⟩ := addedUpTo_step clk payload k s h
    obtain ⟨s', hs', hk'⟩ := ih (k + 1) t hkt
    refine ⟨s', ?_, by rw [show k + (n + 1) = k + 1 + n by omega]; exact hk'⟩
    simp [List.replicate_succ, dispatchAll, ht, hs']

/-- C5 fails as stated: the `2 ^ 53` dispatches of `ADD_SONG` of
`saturatingTrace` run, from the initial state, to a state whose counter is
`2 ^ 53`, where adding 1 changes nothing, and whose playlist "1" already holds
a song with the id that the next `ADD_SONG` would assign. -/
theorem song_id_reused_counterexample :
    (∀ e ∈ saturatingTrace, isLoadState e.2 = false) ∧
    ∃ s, dispatchAll initialState saturatingTrace = some s ∧
      s.songIdCounter = 2 ^ 53 ∧
      ∀ (clk : Clock) (payload : SongPayload),
        ∃ p ∈ s.playlists, ∃ x ∈ p.songs, x.id = (newSong clk s payload).id := by
  constructor
  · intro e he
    rw [saturatingTrace, List.mem_replicate] at he
    rw [he.2]
    rfl
  · have h0 : addedUpTo 0 initialState :=
      ⟨by decide, rfl, ⟨_, List.mem_cons_self _ _, rfl⟩, fun h => absurd h (by decide)⟩
    obtain ⟨s, hs, hc, -, -, hlast⟩ :=
      addedUpTo_replicate clock0 ⟨"Song A", some "Artist X", some "3:12"⟩ (2 ^ 53) 0
        initialState h0
    refine ⟨s, hs, ?_, ?_⟩
    · rw [hc]; omega
    · intro clk payload
      obtain ⟨p, hp, x, hx, hid⟩ := hlast (by omega)
      refine ⟨p, hp, x, hx, ?_⟩
      show x.id = "song_" ++ toString s.songIdCounter
      rw [hid, hc]
      congr 2

/-- C5, amended: every sequence of `ADD_SONG`, `REMOVE_SONG`,
`CLEAR_PLAYLIST`, `CREATE_PLAYLIST`, `SELECT_PLAYLIST`, `UNDO` and `REDO`
dispatches from the initial state runs to a state `s` such that the counter of
every state passed on the way is at most the counter of `s`, and no further
such action decreases it.  When fewer than `2 ^ 53` of the dispatches are
`ADD_SONG`, moreover: the id the next `ADD_SONG` would assign differs from
the id of every song in the live playlists and in every history snapshot; no
playlist, live or in a snapshot, holds an id twice; and two songs held
anywhere with the same id are the same song. -/
theorem song_ids_never_reused (trace : List (Clock × Action))
    (hall : ∀ e ∈ trace, isLoadState e.2 = false) :
    ∃ s, dispatchAll initialState trace = some s ∧
      (∀ before after, trace = before ++ after →
        ∃ t, dispatchAll initialState before = some t ∧ t.songIdCounter ≤ s.songIdCounter) ∧
      (∀ (clk : Clock) (a : Action), isLoadState a = false →
        ∃ s', playlistReducer clk s a = some s' ∧ s.songIdCounter ≤ s'.songIdCounter) ∧
      (addCount trace < 2 ^ 53 →
        (∀ (clk : Clock) (payload : SongPayload),
          (∀ p ∈ s.playlists, ∀ x ∈ p.songs, x.id ≠ (newSong clk s payload).id) ∧
          (∀ h ∈ s.history, ∀ p ∈ h.playlists, ∀ x ∈ p.songs,
            x.id ≠ (newSong clk s payload).id)) ∧
        (∀ p ∈ stored s, (p.songs.map Song.id).Nodup) ∧
        (∀ p ∈ stored s, ∀ q ∈ stored s, ∀ x ∈ p.songs, ∀ y ∈ q.songs,
          x.id = y.id → x = y)) := by
  have hinit : initialState.songIdCounter ≤ 2 ^ 53 := by decide
  obtain ⟨s, hrun, hb⟩ := dispatchAll_preserves cursorInBounds step_cursorInBounds trace
    initialState (by decide) hall
  have hs53 := (counter_mono trace initialState s hall hrun hinit).2
  refine ⟨s, hrun, ?_, ?_, ?_⟩
  · intro before after htr
    subst htr
    rw [dispatchAll_append] at hrun
    simp only [Option.bind_eq_some] at hrun
    obtain ⟨t, ht, hrest⟩ := hrun
    have ht53 := (counter_mono before initialState t
      (fun e he => hall e (List.mem_append_left _ he)) ht hinit).2
    exact ⟨t, ht, (counter_mono after t s
      (fun e he => hall e (List.mem_append_right _ he)) hrest ht53).1⟩
  · intro clk a ha
    obtain ⟨s', hr, -⟩ := step_cursorInBounds clk s a ha hb
    exact ⟨s', hr, (counter_step_bounds clk s s' a ha hr hs53).1⟩
  · intro hcount
    obtain ⟨s2, hrun2, -, hS⟩ := dispatchAll_songIdsUsedOnce trace initialState hall
      (by decide) ⟨by decide, by decide, by decide⟩
      (by have h1 : initialState.songIdCounter = 1 := rfl
          omega)
    rw [hrun] at hrun2
    cases hrun2
    have hfresh := next_id_fresh s hS.1
    refine ⟨?_, hS.2.1, hS.2.2⟩
    intro clk payload
    exact ⟨fun p hp x hx => hfresh p ((mem_stored s p).2 (Or.inl hp)) x hx,
      fun h hh p hp x hx => hfresh p ((mem_stored s p).2 (Or.inr ⟨h, hh, hp⟩)) x hx⟩

/-- A run of `song_ids_never_reused` on `sampleTrace`. -/
theorem song_ids_never_reused_witness :
    (∀ e ∈ sampleTrace, isLoadState e.2 = false) ∧ addCount sampleTrace < 2 ^ 53 ∧
    ∃ s, dispatchAll initialState sampleTrace = some s ∧
      (∀ before after, sampleTrace = before ++ after →
        ∃ t, dispatchAll initialState before = some t ∧ t.songIdCounter ≤ s.songIdCounter) ∧
      (∀ (clk : Clock) (a : Action), isLoadState a = false →
        ∃ s', playlistReducer clk s a = some s' ∧ s.songIdCounter ≤ s'.songIdCounter) ∧
      (∀ (clk : Clock) (payload : SongPayload),
        (∀ p ∈ s.playlists, ∀ x ∈ p.songs, x.id ≠ (newSong clk s payload).id) ∧
        (∀ h ∈ s.history, ∀ p ∈ h.playlists, ∀ x ∈ p.songs,
          x.id ≠ (newSong clk s payload).id)) ∧
      (∀ p ∈ stored s, (p.songs.map Song.id).Nodup) ∧
      (∀ p ∈ stored s, ∀ q ∈ stored s, ∀ x ∈ p.songs, ∀ y ∈ q.songs, x.id = y.id → x = y) := by
  obtain ⟨s, h1, h2, h3, h4⟩ := song_ids_never_reused sampleTrace (by decide)
  exact ⟨by decide, by decide, s, h1, h2, h3, h4 (by decide)⟩

/-! ## Committing to the history -/

/-- C12: in a state with `-1 <= historyIndex < history.length`, every
history-worthy action returns a state whose history is the first
`historyIndex + 1` entries of the old history followed by exactly one new
snapshot, holding the resulting playlists, and whose `historyIndex` is the old
one plus 1, the index of that new last entry. -/
theorem edit_commits_snapshot (clk : Clock) (s : State) (a : Action)
    (hlo : -1 ≤ s.historyIndex) (hhi : s.historyIndex < (s.history.length : Int))
    (ha : historyWorthy a = true) :
    ∃ s', playlistReducer clk s a = some s' ∧
      s'.history = s.history.take (s.historyIndex + 1).toNat ++
        [⟨s'.playlists, clk.stamp⟩] ∧
      (s.history.take (s.historyIndex + 1).toNat).length = (s.historyIndex + 1).toNat ∧
      s'.historyIndex = s.historyIndex + 1 ∧
      s'.historyIndex = (s'.history.length : Int) - 1 ∧
      index s'.history s'.historyIndex = some ⟨s'.playlists, clk.stamp⟩ := by
  obtain ⟨n, hn, -⟩ := reducer_of_historyWorthy clk s a ha
  have hidx := saveToHistory_historyIndex clk s n
  have hhist := saveToHistory_history clk s n
  rw [slice_of_nonneg _ _ (by omega)] at hhist
  have htake : (s.history.take (s.historyIndex + 1).toNat).length =
      (s.historyIndex + 1).toNat := by
    rw [List.length_take]
    omega
  have hlen : ((saveToHistory clk s n).history.length : Int) = s.historyIndex + 2 := by
    rw [hhist, List.length_append, htake]
    simp only [List.length_singleton]
    omega
  refine ⟨_, hn, hhist, htake, by omega, hidx, ?_⟩
  have hlive := (liveAtCursor_iff _).1 (saveToHistory_liveAtCursor clk s n) (by omega)
  obtain ⟨snap, hsnap, hpl⟩ := hlive
  rw [hsnap]
  have hmem : snap ∈ (saveToHistory clk s n).history := mem_of_index _ _ _ hsnap
  rw [hidx, hhist, index_of_nonneg _ _ (by rw [← hhist]; omega)] at hsnap
  have hpos : ((List.take (s.historyIndex + 1).toNat s.history ++
      [(⟨n.playlists, clk.stamp⟩ : Snapshot)]).length : Int) - 1 =
      ((List.take (s.historyIndex + 1).toNat s.history).length : Int) := by
    simp
  rw [hpos] at hsnap
  simp only [Int.toNat_ofNat, List.getElem?_concat_length] at hsnap
  rw [← Option.some.inj hsnap]
  rfl

/-- A run of `edit_commits_snapshot`: after two added songs and one undo, a
playlist is created. -/
theorem edit_commits_snapshot_witness :
    (-1 ≤ afterTwoAddsAndUndo.historyIndex ∧
      afterTwoAddsAndUndo.historyIndex < (afterTwoAddsAndUndo.history.length : Int) ∧
      historyWorthy createRoadTrip = true) ∧
    ∃ s', playlistReducer clock3 afterTwoAddsAndUndo createRoadTrip = some s' ∧
      s'.history = afterTwoAddsAndUndo.history.take
          (afterTwoAddsAndUndo.historyIndex + 1).toNat ++ [⟨s'.playlists, clock3.stamp⟩] ∧
      (afterTwoAddsAndUndo.history.take (afterTwoAddsAndUndo.historyIndex + 1).toNat).length =
        (afterTwoAddsAndUndo.historyIndex + 1).toNat ∧
      s'.historyIndex = afterTwoAddsAndUndo.historyIndex + 1 ∧
      s'.historyIndex = (s'.history.length : Int) - 1 ∧
      index s'.history s'.historyIndex = some ⟨s'.playlists, clock3.stamp⟩ :=
  ⟨by decide, edit_commits_snapshot clock3 afterTwoAddsAndUndo createRoadTrip
    (by decide) (by decide) (by decide)⟩

/-! ## Undo and redo, case by case -/

/-- C13: `UNDO` and `REDO` at a history boundary are no-ops.  In every state
with `historyIndex <= 0`, `UNDO` returns the input state, every field equal;
in every state with `historyIndex >= history.length - 1`, `REDO` returns the
input state. -/
theorem undo_redo_at_boundary (clk : Clock) (s : State) :
    (s.historyIndex ≤ 0 → playlistReducer clk s .UNDO = some s) ∧
    ((s.history.length : Int) - 1 ≤ s.historyIndex → playlistReducer clk s .REDO = some s) :=
  ⟨undo_of_not_pos clk s, redo_of_not_lt clk s⟩

/-- A run of `undo_redo_at_boundary`: `UNDO` after two added songs and one
undo, where the cursor is `0`, and `REDO` after two added songs, where the
cursor is on the last snapshot. -/
theorem undo_redo_at_boundary_witness :
    (afterTwoAddsAndUndo.historyIndex ≤ 0 ∧
      (afterTwoAdds.history.length : Int) - 1 ≤ afterTwoAdds.historyIndex) ∧
    playlistReducer clock3 afterTwoAddsAndUndo .UNDO = some afterTwoAddsAndUndo ∧
    playlistReducer clock3 afterTwoAdds .REDO = some afterTwoAdds :=
  ⟨by decide, (undo_redo_at_boundary clock3 afterTwoAddsAndUndo).1 (by decide),
    (undo_redo_at_boundary clock3 afterTwoAdds).2 (by decide)⟩

/-- C14: in every state with `0 < historyIndex < history.length`, `UNDO`
returns a state whose playlists are those of `history[historyIndex - 1]` and
whose `historyIndex` is one less, with `history`, `activePlaylistId` and
`songIdCounter` unchanged; in every state with
`-1 <= historyIndex < history.length - 1`, `REDO` returns a state whose
playlists are those of `history[historyIndex + 1]` and whose `historyIndex` is
one greater, with `history`, `activePlaylistId` and `songIdCounter`
unchanged. -/
theorem undo_redo_move_cursor (clk : Clock) (s : State) :
    (0 < s.historyIndex → s.historyIndex < (s.history.length : Int) →
      ∃ snap s', index s.history (s.historyIndex - 1) = some snap ∧
        playlistReducer clk s .UNDO = some s' ∧
        s'.playlists = snap.playlists ∧ s'.historyIndex = s.historyIndex - 1 ∧
        s'.history = s.history ∧ s'.activePlaylistId = s.activePlaylistId ∧
        s'.songIdCounter = s.songIdCounter) ∧
    (-1 ≤ s.historyIndex → s.historyIndex < (s.history.length : Int) - 1 →
      ∃ snap s', index s.history (s.historyIndex + 1) = some snap ∧
        playlistReducer clk s .REDO = some s' ∧
        s'.playlists = snap.playlists ∧ s'.historyIndex = s.historyIndex + 1 ∧
        s'.history = s.history ∧ s'.activePlaylistId = s.activePlaylistId ∧
        s'.songIdCounter = s.songIdCounter) := by
  constructor
  · intro h0 h1
    obtain ⟨snap, hsnap, hu⟩ := undo_of_pos clk s h0 (by omega)
    exact ⟨snap, _, hsnap, hu, rfl, rfl, rfl, rfl, rfl⟩
  · intro h0 h1
    obtain ⟨snap, hsnap, hr⟩ := redo_of_lt clk s h0 h1
    exact ⟨snap, _, hsnap, hr, rfl, rfl, rfl, rfl, rfl⟩

/-- A run of `undo_redo_move_cursor`: `UNDO` after two added songs, and
`REDO` after the undo. -/
theorem undo_redo_move_cursor_witness :
    ((0 < afterTwoAdds.historyIndex ∧
        afterTwoAdds.historyIndex < (afterTwoAdds.history.length : Int)) ∧
      ∃ snap s', index afterTwoAdds.history (afterTwoAdds.historyIndex - 1) = some snap ∧
        playlistReducer clock2 afterTwoAdds .UNDO = some s' ∧
        s'.playlists = snap.playlists ∧ s'.historyIndex = afterTwoAdds.historyIndex - 1 ∧
        s'.history = afterTwoAdds.history ∧
        s'.activePlaylistId = afterTwoAdds.activePlaylistId ∧
        s'.songIdCounter = afterTwoAdds.songIdCounter) ∧
    ((-1 ≤ afterTwoAddsAndUndo.historyIndex ∧
        afterTwoAddsAndUndo.historyIndex < (afterTwoAddsAndUndo.history.length : Int) - 1) ∧
      ∃ snap s', index afterTwoAddsAndUndo.history (afterTwoAddsAndUndo.historyIndex + 1) =
          some snap ∧
        playlistReducer clock3 afterTwoAddsAndUndo .REDO = some s' ∧
        s'.playlists = snap.playlists ∧
        s'.historyIndex = afterTwoAddsAndUndo.historyIndex + 1 ∧
        s'.history = afterTwoAddsAndUndo.history ∧
        s'.activePlaylistId = afterTwoAddsAndUndo.activePlaylistId ∧
        s'.songIdCounter = afterTwoAddsAndUndo.songIdCounter) :=
  ⟨⟨by decide, (undo_redo_move_cursor clock2 afterTwoAdds).1 (by decide) (by decide)⟩,
   ⟨by decide, (undo_redo_move_cursor clock3 afterTwoAddsAndUndo).2 (by decide) (by decide)⟩⟩

/-- C19: every sequence of `ADD_SONG`, `REMOVE_SONG`, `CLEAR_PLAYLIST`,
`CREATE_PLAYLIST`, `SELECT_PLAYLIST`, `UNDO` and `REDO` dispatches from the
initial state runs to a state in which, when `historyIndex >= 0`, the entry
`history[historyIndex]` exists and its playlists are equal to the live
playlists. -/
theorem cursor_on_live_snapshot (trace : List (Clock × Action))
    (hall : ∀ e ∈ trace, isLoadState e.2 = false) :
    ∃ s, dispatchAll initialState trace = some s ∧
      (0 ≤ s.historyIndex →
        ∃ snap, index s.history s.historyIndex = some snap ∧
          snap.playlists = s.playlists) := by
  obtain ⟨s, hrun, -, hlive⟩ := reached_liveAtCursor trace hall
  exact ⟨s, hrun, (liveAtCursor_iff s).1 hlive⟩

/-- A run of `cursor_on_live_snapshot` on `sampleTrace`. -/
theorem cursor_on_live_snapshot_witness :
    (∀ e ∈ sampleTrace, isLoadState e.2 = false) ∧
    ∃ s, dispatchAll initialState sampleTrace = some s ∧
      (0 ≤ s.historyIndex →
        ∃ snap, index s.history s.historyIndex = some snap ∧
          snap.playlists = s.playlists) :=
  ⟨by decide, cursor_on_live_snapshot sampleTrace (by decide)⟩

/-! ## Actions the handlers never dispatch -/

/-- C15 fails as stated: the reducer, applied to the initial state and an
`ADD_SONG` whose name is empty, appends a song with the empty name to
playlist "1", raises the counter to 2 and commits a history entry. -/
theorem addSong_empty_name_counterexample :
    ∃ s', playlistReducer clock0 initialState (.ADD_SONG ⟨"", none, none⟩) = some s' ∧
      songsOf s'.playlists "1" =
        some [⟨"song_1", "", "Unknown Artist", "3:30", clock0.iso⟩] ∧
      s'.songIdCounter = 2 ∧ s'.historyIndex = 0 ∧ s'.history.length = 1 ∧
      s' ≠ initialState := by
  refine ⟨_, rfl, by decide, by decide, by decide, by decide, by decide⟩

/-- C15, amended: for every state, `handleAddSong` with a song name that is
empty after trimming dispatches no action, so the state stays as it is; the
reducer itself has no such check: applied to an `ADD_SONG` whose name is empty
it appends a song with the empty name to each playlist with the active id,
adds 1 to `songIdCounter` (as numbers add: exactly 1 below `2 ^ 53`) and
commits a history entry. -/
theorem addSong_empty_name (clk : Clock) (s : State) (songName artistName : String)
    (minutes : Fin 3) (seconds : Fin 60) (payload : SongPayload)
    (hname : jsTrim songName = "") (hpayload : payload.name = "") :
    handleAddSong songName artistName minutes seconds = none ∧
    dispatchOption clk s (handleAddSong songName artistName minutes seconds) = some s ∧
    ∃ s' song, playlistReducer clk s (.ADD_SONG payload) = some s' ∧
      song.name = "" ∧ song.id = "song_" ++ toString s.songIdCounter ∧
      s'.playlists = (s.playlists.map fun p =>
        if p.id = s.activePlaylistId then { p with songs := p.songs ++ [song] } else p) ∧
      s'.songIdCounter = jsAddOne s.songIdCounter ∧
      (s.songIdCounter < 2 ^ 53 → s'.songIdCounter = s.songIdCounter + 1) ∧
      s'.history = slice s.history (s.historyIndex + 1) ++ [⟨s'.playlists, clk.stamp⟩] ∧
      s'.historyIndex = (s'.history.length : Int) - 1 := by
  have hnone : handleAddSong songName artistName minutes seconds = none := by
    simp [handleAddSong, hname]
  refine ⟨hnone, by rw [hnone]; rfl, _, newSong clk s payload, rfl, hpayload, rfl, rfl, rfl,
    fun h => jsAddOne_of_lt _ h, ?_, saveToHistory_historyIndex _ _ _⟩
  rw [saveToHistory_history]
  rfl

/-- A run of `addSong_empty_name`: a name of blanks typed after one added
song. -/
theorem addSong_empty_name_witness :
    (jsTrim "   " = "" ∧ (⟨"", none, none⟩ : SongPayload).name = "") ∧
    handleAddSong "   " "Artist X" 1 12 = none ∧
    dispatchOption clock1 afterOneAdd (handleAddSong "   " "Artist X" 1 12) =
      some afterOneAdd ∧
    ∃ s' song, playlistReducer clock1 afterOneAdd (.ADD_SONG ⟨"", none, none⟩) = some s' ∧
      song.name = "" ∧ song.id = "song_" ++ toString afterOneAdd.songIdCounter ∧
      s'.playlists = (afterOneAdd.playlists.map fun p =>
        if p.id = afterOneAdd.activePlaylistId then
          { p with songs := p.songs ++ [song] } else p) ∧
      s'.songIdCounter = jsAddOne afterOneAdd.songIdCounter ∧
      (afterOneAdd.songIdCounter < 2 ^ 53 →
        s'.songIdCounter = afterOneAdd.songIdCounter + 1) ∧
      s'.history = slice afterOneAdd.history (afterOneAdd.historyIndex + 1) ++
        [⟨s'.playlists, clock1.stamp⟩] ∧
      s'.historyIndex = (s'.history.length : Int) - 1 :=
  ⟨by decide, addSong_empty_name clock1 afterOneAdd "   " "Artist X" 1 12 ⟨"", none, none⟩
    (by decide) rfl⟩

/-- C16 fails as stated: `SELECT_PLAYLIST` of the id "nope", which no playlist
of the initial state has, returns a state whose `activePlaylistId` is "nope",
not the previous "1". -/
theorem selectPlaylist_unknown_counterexample :
    (∀ p ∈ initialState.playlists, p.id ≠ "nope") ∧
    playlistReducer clock0 initialState (.SELECT_PLAYLIST "nope") =
      some { initialState with activePlaylistId := "nope" } ∧
    ({ initialState with activePlaylistId := "nope" } : State) ≠ initialState := by
  decide

/-- C16, amended: for every state and every playlist id, whether or not a
playlist of the state has it, `SELECT_PLAYLIST` returns the state with
`activePlaylistId` set to that id and every other field unchanged. -/
theorem selectPlaylist_sets_active (clk : Clock) (s : State) (playlistId : String) :
    ∃ s', playlistReducer clk s (.SELECT_PLAYLIST playlistId) = some s' ∧
      s'.activePlaylistId = playlistId ∧
      s'.playlists = s.playlists ∧ s'.history = s.history ∧
      s'.historyIndex = s.historyIndex ∧ s'.songIdCounter = s.songIdCounter :=
  ⟨_, rfl, rfl, rfl, rfl, rfl, rfl⟩

/-! ## The active playlist id -/

theorem saveToHistory_activeInvariant (clk : Clock) (s n : State) (hK : activeInvariant s)
    (hsub : ∀ p ∈ s.playlists, ∃ q ∈ n.playlists, q.id = p.id)
    (hact : ∃ q ∈ n.playlists, q.id = n.activePlaylistId) :
    activeInvariant (saveToHistory clk s n) := by
  obtain ⟨⟨hlo, hhi⟩, hlive, hempty, hgrow, -⟩ := hK
  have hidx := saveToHistory_historyIndex clk s n
  have hhist := saveToHistory_history clk s n
  rw [slice_of_nonneg _ _ (by omega)] at hhist
  have htake : (s.history.take (s.historyIndex + 1).toNat).length =
      (s.historyIndex + 1).toNat := by
    rw [List.length_take]
    omega
  have hlen : (saveToHistory clk s n).history.length = (s.historyIndex + 1).toNat + 1 := by
    rw [hhist, List.length_append, htake]
    rfl
  refine ⟨⟨by omega, by omega⟩, saveToHistory_liveAtCursor clk s n, ?_, ?_, hact⟩
  · intro h
    omega
  · intro i a b ha hb p hp
    rw [hhist] at ha hb
    by_cases h1 : i + 1 < (s.historyIndex + 1).toNat
    · rw [List.getElem?_append_left (by omega), List.getElem?_take_of_lt (by omega)] at ha hb
      exact hgrow i a b ha hb p hp
    · by_cases h2 : i + 1 = (s.historyIndex + 1).toNat
      · rw [List.getElem?_append_left (by omega), List.getElem?_take_of_lt (by omega)] at ha
        rw [List.getElem?_append_right (by omega)] at hb
        have hz : i + 1 - (s.history.take (s.historyIndex + 1).toNat).length = 0 := by omega
        rw [hz] at hb
        simp only [List.getElem?_cons_zero, Option.some.injEq] at hb
        subst hb
        have h0 : 0 ≤ s.historyIndex := by omega
        obtain ⟨snap, hsnap, hpl⟩ := (liveAtCursor_iff s).1 hlive h0
        rw [index_of_nonneg _ _ h0] at hsnap
        have hi : s.historyIndex.toNat = i := by omega
        rw [hi, ha] at hsnap
        cases hsnap
        rw [hpl] at hp
        exact hsub p hp
      · have hnone : (List.take (s.historyIndex + 1).toNat s.history ++
            [(⟨n.playlists, clk.stamp⟩ : Snapshot)])[i + 1]? = none := by
          apply List.getElem?_eq_none
          rw [List.length_append, htake]
          simp only [List.length_singleton]
          omega
        rw [hnone] at hb
        cases hb

theorem map_keeps_ids (ps : List Playlist) (f : Playlist → Playlist)
    (hf : ∀ p, (f p).id = p.id) : ∀ p ∈ ps, ∃ q ∈ ps.map f, q.id = p.id :=
  fun p hp => ⟨f p, List.mem_map_of_mem _ hp, hf p⟩

/-- One step keeps `activeInvariant`, for every action but `LOAD_STATE`, a
`SELECT_PLAYLIST` being of an id that a playlist of the state has and an
`UNDO` that moves the cursor restoring a snapshot that holds the active
playlist. -/
theorem step_activeInvariant (clk : Clock) (s : State) (a : Action)
    (hload : isLoadState a = false)
    (hsel : ∀ id, a = .SELECT_PLAYLIST id → ∃ p ∈ s.playlists, p.id = id)
    (hundo : a = .UNDO → 0 < s.historyIndex →
      ∀ snap, index s.history (s.historyIndex - 1) = some snap →
        ∃ p ∈ snap.playlists, p.id = s.activePlaylistId)
    (hK : activeInvariant s) :
    ∃ s', playlistReducer clk s a = some s' ∧ activeInvariant s' := by
  have hK' := hK
  obtain ⟨⟨hlo, hhi⟩, hlive, hempty, hgrow, p, hp, hid⟩ := hK'
  cases a with
  | LOAD_STATE _ => simp [isLoadState] at hload
  | DELETE_PLAYLIST _ => exact ⟨s, rfl, hK⟩
  | SELECT_PLAYLIST id =>
    obtain ⟨q, hq, hqid⟩ := hsel id rfl
    exact ⟨_, rfl, ⟨hlo, hhi⟩, hlive, hempty, hgrow, q, hq, hqid⟩
  | ADD_SONG payload =>
    refine ⟨_, rfl, saveToHistory_activeInvariant clk s _ hK
      (map_keeps_ids _ _ (fun q => by split <;> rfl)) ?_⟩
    refine ⟨_, List.mem_map_of_mem _ hp, ?_⟩
    simp only
    split <;> exact hid
  | REMOVE_SONG payload =>
    refine ⟨_, rfl, saveToHistory_activeInvariant clk s _ hK
      (map_keeps_ids _ _ (fun q => by split <;> rfl)) ?_⟩
    refine ⟨_, List.mem_map_of_mem _ hp, ?_⟩
    simp only
    split <;> exact hid
  | CLEAR_PLAYLIST =>
    refine ⟨_, rfl, saveToHistory_activeInvariant clk s _ hK
      (map_keeps_ids _ _ (fun q => by split <;> rfl)) ?_⟩
    refine ⟨_, List.mem_map_of_mem _ hp, ?_⟩
    simp only
    split <;> exact hid
  | CREATE_PLAYLIST payload =>
    refine ⟨_, rfl, saveToHistory_activeInvariant clk s _ hK
      (fun q hq => ⟨q, List.mem_append_left _ hq, rfl⟩) ?_⟩
    exact ⟨newPlaylist clk payload, by simp, rfl⟩
  | UNDO =>
    by_cases h0 : 0 < s.historyIndex
    · obtain ⟨snap, hsnap, hu⟩ := undo_of_pos clk s h0 (by omega)
      refine ⟨_, hu, ⟨by simp only; omega, by simp only; omega⟩, ?_, ?_, hgrow,
        hundo rfl h0 snap hsnap⟩
      · rw [liveAtCursor_iff]
        intro _
        exact ⟨snap, hsnap, rfl⟩
      · intro h
        simp only at h
        omega
    · exact ⟨s, undo_of_not_pos clk s (by omega), hK⟩
  | REDO =>
    by_cases h1 : s.historyIndex < (s.history.length : Int) - 1
    · obtain ⟨snap, hsnap, hr⟩ := redo_of_lt clk s hlo h1
      have h0 : 0 ≤ s.historyIndex := by
        by_contra hneg
        have hm : s.historyIndex = -1 := by omega
        have := hempty hm
        rw [this] at h1
        simp at h1
        omega
      obtain ⟨cur, hcur, hpl⟩ := (liveAtCursor_iff s).1 hlive h0
      rw [index_of_nonneg _ _ h0] at hcur
      rw [index_of_nonneg _ _ (by omega)] at hsnap
      have hnext : (s.historyIndex + 1).toNat = s.historyIndex.toNat + 1 := by omega
      rw [hnext] at hsnap
      obtain ⟨q, hq, hqid⟩ := hgrow _ cur snap hcur hsnap p (by rw [hpl]; exact hp)
      refine ⟨_, hr, ⟨by simp only; omega, by simp only; omega⟩, ?_, ?_, hgrow,
        q, hq, by rw [hqid]; exact hid⟩
      · rw [liveAtCursor_iff]
        intro _
        refine ⟨snap, ?_, rfl⟩
        simp only
        rw [index_of_nonneg _ _ (by omega), hnext]
        exact hsnap
      · intro h
        simp only at h
        omega
    · exact ⟨s, redo_of_not_lt clk s (by omega), hK⟩

/-- The property of `step_activeInvariant` along a sequence of dispatches. -/
theorem dispatchAll_activeInvariant (trace : List (Clock × Action)) :
    ∀ s, (∀ e ∈ trace, isLoadState e.2 = false) →
      selectsPresent s trace = true → undosKeepActive s trace = true →
      activeInvariant s →
      ∃ s', dispatchAll s trace = some s' ∧ activeInvariant s' := by
  induction trace with
  | nil => intro s _ _ _ hK; exact ⟨s, rfl, hK⟩
  | cons e rest ih =>
    intro s hall hsel hundo hK
    obtain ⟨clk, a⟩ := e
    have he := hall (clk, a) (List.mem_cons_self _ _)
    simp only [selectsPresent, Bool.and_eq_true] at hsel
    simp only [undosKeepActive, Bool.and_eq_true] at hundo
    obtain ⟨hsel1, hsel2⟩ := hsel
    obtain ⟨hundo1, hundo2⟩ := hundo
    have hpresent : ∀ id, a = .SELECT_PLAYLIST id → ∃ p ∈ s.playlists, p.id = id := by
      intro id ha
      subst ha
      simpa using hsel1
    have hkeeps : a = .UNDO → 0 < s.historyIndex →
        ∀ snap, index s.history (s.historyIndex - 1) = some snap →
          ∃ p ∈ snap.playlists, p.id = s.activePlaylistId := by
      intro ha h0 snap hsnap
      subst ha
      simp only [gt_iff_lt, h0, if_true, hsnap] at hundo1
      simpa using hundo1
    obtain ⟨t, ht, hKt⟩ := step_activeInvariant clk s a he hpresent hkeeps hK
    rw [ht] at hsel2 hundo2
    obtain ⟨s', hs', hfinal⟩ := ih t (fun e he => hall e (List.mem_cons_of_mem _ he))
      hsel2 hundo2 hKt
    exact ⟨s', by simp [dispatchAll, ht, hs'], hfinal⟩

/-- C11 fails as stated: after `AddSong`, `CreatePlaylist` and `Undo` from the
initial state (no `SelectPlaylist` at all) the playlists are the two default
ones, and `activePlaylistId` is still the id of the created playlist, which
no playlist of the state has. -/
theorem active_id_counterexample :
    (∀ e ∈ undoneCreateTrace, isLoadState e.2 = false) ∧
    selectsPresent initialState undoneCreateTrace = true ∧
    dispatchAll initialState undoneCreateTrace = some afterUndoneCreate ∧
    ¬ ∃ p ∈ afterUndoneCreate.playlists, p.id = afterUndoneCreate.activePlaylistId := by
  decide

/-- C11, amended: every sequence of `ADD_SONG`, `REMOVE_SONG`,
`CLEAR_PLAYLIST`, `CREATE_PLAYLIST`, `UNDO`, `REDO` and `SELECT_PLAYLIST` of
an id present in the playlists at that moment, dispatched from the initial
state, in which every `UNDO` that moves the cursor restores a snapshot that
holds a playlist with the `activePlaylistId` of that moment, runs to a state
whose `activePlaylistId` is the id of a playlist currently in its
playlists. -/
theorem active_id_present_when_undo_keeps (trace : List (Clock × Action))
    (hall : ∀ e ∈ trace, isLoadState e.2 = false)
    (hsel : selectsPresent initialState trace = true)
    (hundo : undosKeepActive initialState trace = true) :
    ∃ s, dispatchAll initialState trace = some s ∧
      ∃ p ∈ s.playlists, p.id = s.activePlaylistId := by
  have hinit : activeInvariant initialState := by
    refine ⟨by decide, by decide, fun _ => rfl, ?_, by decide⟩
    intro i a b ha
    simp [initialState] at ha
  obtain ⟨s, hrun, hK⟩ := dispatchAll_activeInvariant trace initialState hall hsel hundo hinit
  exact ⟨s, hrun, hK.2.2.2.2⟩

/-- A run of `active_id_present_when_undo_keeps` on `sampleTrace`, which has
an `UNDO` that moves the cursor, a `REDO` that moves it back and a
`SELECT_PLAYLIST`; the sequence of the counterexample does not meet the
condition on `UNDO`. -/
theorem active_id_present_when_undo_keeps_witness :
    ((∀ e ∈ sampleTrace, isLoadState e.2 = false) ∧
      selectsPresent initialState sampleTrace = true ∧
      undosKeepActive initialState sampleTrace = true ∧
      undosKeepActive initialState undoneCreateTrace = false) ∧
    ∃ s, dispatchAll initialState sampleTrace = some s ∧
      ∃ p ∈ s.playlists, p.id = s.activePlaylistId :=
  ⟨by decide, active_id_present_when_undo_keeps sampleTrace (by decide) (by decide)
    (by decide)⟩

/-! ## Reading JSON text back -/

theorem skipSpace_cons (c : Char) (cs : List Char) (h : isJsonSpace c = false) :
    skipSpace (c :: cs) = c :: cs := by
  simp [skipSpace, h]

theorem char_of_toNat (c : Char) (n : Nat) (h : c.toNat = n) : c = Char.ofNat n := by
  rw [← h]; exact (Char.ofNat_toNat c).symm

theorem hexChar_control : ∀ n : Fin 32,
    hexChar '0' '0' (Nat.digitChar (n.val / 16)) (Nat.digitChar (n.val % 16)) =
      some (Char.ofNat n.val) := by
  decide

/-- The parser undoes the escape of one character. -/
theorem parseStringBody_escape (c : Char) (cs acc : List Char) :
    parseStringBody (jsonEscape c ++ cs) acc = parseStringBody cs (acc ++ [c]) := by
  unfold jsonEscape
  split
  · next h =>
    have hc := char_of_toNat c 34 h
    subst hc
    rw [parseStringBody.eq_def]
    simp [unescape]
  split
  · next h =>
    have hc := char_of_toNat c 92 h
    subst hc
    rw [parseStringBody.eq_def]
    simp [unescape]
  split
  · next h =>
    have hc := char_of_toNat c 8 h
    subst hc
    rw [parseStringBody.eq_def]
    simp [unescape]
  split
  · next h =>
    have hc := char_of_toNat c 12 h
    subst hc
    rw [parseStringBody.eq_def]
    simp [unescape]
  split
  · next h =>
    have hc := char_of_toNat c 10 h
    subst hc
    rw [parseStringBody.eq_def]
    simp [unescape]
  split
  · next h =>
    have hc := char_of_toNat c 13 h
    subst hc
    rw [parseStringBody.eq_def]
    simp [unescape]
  split
  · next h =>
    have hc := char_of_toNat c 9 h
    subst hc
    rw [parseStringBody.eq_def]
    simp [unescape]
  split
  · next h =>
    have hx := hexChar_control ⟨c.toNat, h⟩
    rw [Char.ofNat_toNat] at hx
    rw [parseStringBody.eq_def]
    simp [hx]
  · next h1 h2 _ _ _ _ _ h8 =>
    rw [parseStringBody.eq_def]
    simp [h1, h2, h8]

/-- The parser reads back the body of a string literal. -/
theorem parseStringBody_flatten (l rest : List Char) :
    ∀ acc, parseStringBody ((l.map jsonEscape).flatten ++ Char.ofNat 34 :: rest) acc =
      some (⟨acc ++ l⟩, rest) := by
  induction l with
  | nil =>
    intro acc
    rw [parseStringBody.eq_def]
    simp
  | cons c l ih =>
    intro acc
    simp only [List.map_cons, List.flatten_cons, List.append_assoc]
    rw [parseStringBody_escape, ih]
    simp

theorem jsonString_data (s : String) :
    (jsonString s).data = Char.ofNat 34 :: ((s.data.map jsonEscape).flatten ++ [Char.ofNat 34]) := by
  simp [jsonString]

theorem parseJson_string (s : String) (fuel : Nat) (rest : List Char) :
    parseJson (fuel + 1) .value ((jsonString s).data ++ rest) = some (.str s, rest) := by
  rw [jsonString_data, parseJson]
  have h := parseStringBody_flatten s.data rest []
  simp only [List.nil_append] at h
  simp [skipSpace, isJsonSpace, h]

theorem reads_string (s : String) : Reads (jsonString s).data (.str s) := by
  refine ⟨⟨Char.ofNat 34, _, jsonString_data s, by decide, by decide⟩, ?_⟩
  intro fuel rest hf _
  obtain ⟨f, rfl⟩ : ∃ f, fuel = f + 1 := ⟨fuel - 1, by omega⟩
  exact parseJson_string s f rest

theorem reads_bool (b : Bool) : Reads (jsonBool b).data (.bool b) := by
  cases b
  · refine ⟨⟨'f', _, rfl, by decide, by decide⟩, ?_⟩
    intro fuel rest hf _
    obtain ⟨f, rfl⟩ : ∃ f, fuel = f + 1 := ⟨fuel - 1, by omega⟩
    rw [parseJson]
    simp [jsonBool, skipSpace, isJsonSpace]
  · refine ⟨⟨'t', _, rfl, by decide, by decide⟩, ?_⟩
    intro fuel rest hf _
    obtain ⟨f, rfl⟩ : ∃ f, fuel = f + 1 := ⟨fuel - 1, by omega⟩
    rw [parseJson]
    simp [jsonBool, skipSpace, isJsonSpace]

theorem digitChar_isDigit (k : Nat) (hk : k < 10) : isDigit (Nat.digitChar k) := by
  unfold isDigit
  interval_cases k <;> decide

theorem digitChar_zero (k : Nat) (hk : k < 10) (h : Nat.digitChar k = '0') : k = 0 := by
  interval_cases k <;> first | rfl | (exact absurd h (by decide))

/-- The decimal digits of a number: at least one, no leading zero except for
zero itself, and their value is the number. -/
theorem toDigitsCore_digits (fuel : Nat) :
    ∀ (n : Nat) (ds : List Char), n < fuel →
      ∃ d l, Nat.toDigitsCore 10 fuel n ds = d :: l ++ ds ∧
        (∀ c ∈ d :: l, isDigit c) ∧ (d = '0' → n = 0 ∧ l = []) ∧
        decValue 0 (d :: l) = n := by
  induction fuel with
  | zero => intro n ds h; omega
  | succ fuel ih =>
    intro n ds h
    by_cases hq : n / 10 = 0
    · have hn : n < 10 := by omega
      refine ⟨Nat.digitChar (n % 10), [], ?_, ?_, ?_, ?_⟩
      · simp [Nat.toDigitsCore, hq]
      · intro c hc
        simp only [List.mem_singleton] at hc
        subst hc
        exact digitChar_isDigit _ (Nat.mod_lt _ (by decide))
      · intro h0
        have := digitChar_zero (n % 10) (Nat.mod_lt _ (by decide)) h0
        exact ⟨by omega, rfl⟩
      · have hd := digitChar_value (n % 10) (Nat.mod_lt _ (by decide))
        simp only [decValue, List.foldl_cons, List.foldl_nil, hd]
        omega
    · obtain ⟨d, l, hl, hdig, hz, hv⟩ :=
        ih (n / 10) (Nat.digitChar (n % 10) :: ds) (by omega)
      refine ⟨d, l ++ [Nat.digitChar (n % 10)], ?_, ?_, ?_, ?_⟩
      · simp [Nat.toDigitsCore, hq, hl]
      · intro c hc
        simp only [List.mem_cons, List.mem_append, List.mem_singleton, List.not_mem_nil,
          or_false] at hc
        rcases hc with hc | hc | hc
        · exact hdig c (by simp [hc])
        · exact hdig c (by simp [hc])
        · subst hc
          exact digitChar_isDigit _ (Nat.mod_lt _ (by decide))
      · intro h0
        exact absurd (hz h0).1 hq
      · have hd := digitChar_value (n % 10) (Nat.mod_lt _ (by decide))
        unfold decValue at hv ⊢
        rw [← List.cons_append, List.foldl_append, hv]
        simp only [List.foldl_cons, List.foldl_nil, hd]
        omega

theorem toString_digits (n : Nat) :
    ∃ d l, (toString n).data = d :: l ∧ (∀ c ∈ d :: l, isDigit c) ∧
      (d = '0' → n = 0 ∧ l = []) ∧ decValue 0 (d :: l) = n := by
  obtain ⟨d, l, hl, h⟩ := toDigitsCore_digits (n + 1) n [] (by omega)
  have h0 : (toString n).data = Nat.toDigitsCore 10 (n + 1) n [] := rfl
  exact ⟨d, l, by rw [h0, hl, List.append_nil], h⟩

theorem takeDigits_append (ds rest : List Char) (hds : ∀ c ∈ ds, isDigit c)
    (hrest : ∀ c r, rest = c :: r → ¬ isDigit c) : takeDigits (ds ++ rest) = (ds, rest) := by
  induction ds with
  | nil =>
    cases rest with
    | nil => rfl
    | cons c r =>
      have := hrest c r rfl
      unfold isDigit at this
      simp [takeDigits, this]
  | cons d ds ih =>
    have hd := hds d (by simp)
    unfold isDigit at hd
    have := ih (fun c hc => hds c (by simp [hc]))
    simp [takeDigits, hd, this]

theorem delimited_cases (rest : List Char) (h : Delimited rest) :
    rest = [] ∨ ∃ c r, rest = c :: r ∧ (c = ',' ∨ c = ']' ∨ c = Char.ofNat 125) := by
  cases rest with
  | nil => exact Or.inl rfl
  | cons c r =>
    refine Or.inr ⟨c, r, rfl, ?_⟩
    rcases h c r rfl with h | h | h
    · exact Or.inl h
    · exact Or.inr (Or.inl h)
    · exact Or.inr (Or.inr (char_of_toNat c 125 h))

theorem delimited_not_digit (rest : List Char) (h : Delimited rest) :
    ∀ c r, rest = c :: r → ¬ isDigit c := by
  intro c r hc
  rcases h c r hc with h | h | h
  · subst h; decide
  · subst h; decide
  · unfold isDigit; omega

theorem parseFraction_delimited (rest : List Char) (h : Delimited rest) :
    parseFraction rest = some ([], rest) := by
  rcases delimited_cases rest h with rfl | ⟨c, r, rfl, hc | hc | hc⟩
  · rfl
  · subst hc; rfl
  · subst hc; rfl
  · subst hc; rfl

theorem parseExponent_delimited (rest : List Char) (h : Delimited rest) :
    parseExponent rest = some (0, rest) := by
  rcases delimited_cases rest h with rfl | ⟨c, r, rfl, hc | hc | hc⟩
  · rfl
  · subst hc; simp [parseExponent]
  · subst hc; simp [parseExponent]
  · subst hc; simp [parseExponent]

theorem parseIntegerPart_digits (d : Char) (l rest : List Char)
    (hds : ∀ c ∈ d :: l, isDigit c) (hz : d = '0' → l = []) (h : Delimited rest) :
    parseIntegerPart (d :: l ++ rest) = some (d :: l, rest) := by
  unfold parseIntegerPart
  rw [takeDigits_append (d :: l) rest hds (delimited_not_digit rest h)]
  cases l with
  | nil => rfl
  | cons e l =>
    have : d ≠ '0' := fun h0 => by simpa using hz h0
    simp [this]

/-- The number parser reads back the digits of a natural number. -/
theorem parseNumber_digits (d : Char) (l rest : List Char)
    (hds : ∀ c ∈ d :: l, isDigit c) (hz : d = '0' → l = []) (h : Delimited rest) :
    parseNumber (d :: l ++ rest) = some (.num false (decValue 0 (d :: l)) 0, rest) := by
  have hd : d ≠ '-' := by
    intro h0
    have := hds d (by simp)
    subst h0
    exact absurd this (by decide)
  have hs : parseSign (d :: l ++ rest) = (false, d :: l ++ rest) := by
    rw [List.cons_append, parseSign.eq_def]
    split
    · next heq =>
      simp only [List.cons.injEq] at heq
      exact absurd heq.1 hd
    · rfl
  unfold parseNumber
  simp only [hs, parseIntegerPart_digits d l rest hds hz h, parseFraction_delimited rest h,
    parseExponent_delimited rest h, List.append_nil, List.length_nil]
  simp

/-- The number parser reads back the digits of a negative number. -/
theorem parseNumber_minus (d : Char) (l rest : List Char)
    (hds : ∀ c ∈ d :: l, isDigit c) (hz : d = '0' → l = []) (h : Delimited rest) :
    parseNumber ('-' :: d :: l ++ rest) = some (.num true (decValue 0 (d :: l)) 0, rest) := by
  have hs : parseSign ('-' :: d :: l ++ rest) = (true, d :: l ++ rest) := rfl
  unfold parseNumber
  simp only [hs, parseIntegerPart_digits d l rest hds hz h, parseFraction_delimited rest h,
    parseExponent_delimited rest h, List.append_nil, List.length_nil]
  simp

theorem parseJson_number (c : Char) (rest : List Char) (fuel : Nat)
    (h : c = '-' ∨ isDigit c) :
    parseJson (fuel + 1) .value (c :: rest) = parseNumber (c :: rest) := by
  have hfacts : isJsonSpace c = false ∧ c.toNat ≠ 91 ∧ c.toNat ≠ 123 ∧ c.toNat ≠ 34 ∧
      c ≠ 't' ∧ c ≠ 'f' ∧ c ≠ 'n' := by
    rcases h with h | h
    · subst h; decide
    · unfold isDigit at h
      refine ⟨?_, by omega, by omega, by omega, ?_, ?_, ?_⟩
      · have h1 : c.toNat ≠ 32 := by omega
        have h2 : c.toNat ≠ 9 := by omega
        have h3 : c.toNat ≠ 10 := by omega
        have h4 : c.toNat ≠ 13 := by omega
        simp [isJsonSpace, h1, h2, h3, h4]
      · intro h0; subst h0; exact absurd h.2 (by decide)
      · intro h0; subst h0; exact absurd h.2 (by decide)
      · intro h0; subst h0; exact absurd h.2 (by decide)
  obtain ⟨h1, h2, h3, h4, h5, h6, h7⟩ := hfacts
  rw [parseJson]
  simp [skipSpace, h1, h2, h3, h4, h5, h6, h7]

theorem reads_nat (n : Nat) : Reads (toString n).data (.num false n 0) := by
  obtain ⟨d, l, hdata, hds, hz, hv⟩ := toString_digits n
  have hd := hds d (by simp)
  refine ⟨⟨d, l, hdata, ?_, ?_⟩, ?_⟩
  · unfold isDigit at hd
    have h1 : d.toNat ≠ 32 := by omega
    have h2 : d.toNat ≠ 9 := by omega
    have h3 : d.toNat ≠ 10 := by omega
    have h4 : d.toNat ≠ 13 := by omega
    simp [isJsonSpace, h1, h2, h3, h4]
  · unfold isDigit at hd; omega
  · intro fuel rest hf hrest
    obtain ⟨f, rfl⟩ : ∃ f, fuel = f + 1 := ⟨fuel - 1, by omega⟩
    rw [hdata, List.cons_append, parseJson_number d _ f (Or.inr hd)]
    have := parseNumber_digits d l rest hds (fun h0 => (hz h0).2) hrest
    rw [hv] at this
    exact this

theorem reads_int (i : Int) : Reads (toString i).data (encodeInt i) := by
  cases i with
  | ofNat m =>
    have h : (toString (Int.ofNat m)).data = (toString m).data := rfl
    have he : encodeInt (Int.ofNat m) = .num false m 0 := by
      simp [encodeInt]
    rw [h, he]
    exact reads_nat m
  | negSucc m =>
    obtain ⟨d, l, hdata, hds, hz, hv⟩ := toString_digits (m + 1)
    have h : (toString (Int.negSucc m)).data = '-' :: (toString (m + 1)).data := rfl
    have he : encodeInt (Int.negSucc m) = .num true (m + 1) 0 := by
      simp [encodeInt, Int.negSucc_lt_zero]
    rw [h, he, hdata]
    refine ⟨⟨'-', _, rfl, by decide, by decide⟩, ?_⟩
    intro fuel rest hf hrest
    obtain ⟨f, rfl⟩ : ∃ f, fuel = f + 1 := ⟨fuel - 1, by omega⟩
    rw [List.cons_append, parseJson_number '-' _ f (Or.inl rfl)]
    have := parseNumber_minus d l rest hds (fun h0 => (hz h0).2) hrest
    rw [hv] at this
    exact this

theorem commaJoin_cons (t : List Char) (ts : List (List Char)) :
    commaJoin (t :: ts) = t ++ (ts.map fun a => ',' :: a).flatten := by
  induction ts generalizing t with
  | nil => simp [commaJoin]
  | cons t' ts ih => simp [commaJoin, ih t']

theorem intercalate_go_data (as : List String) :
    ∀ acc : String, (String.intercalate.go acc "," as).data =
      acc.data ++ (as.map fun a => ',' :: a.data).flatten := by
  induction as with
  | nil => intro acc; simp [String.intercalate.go]
  | cons a as ih =>
    intro acc
    simp only [String.intercalate.go, ih, String.data_append, List.map_cons,
      List.flatten_cons, List.append_assoc]
    rfl

theorem intercalate_data (items : List String) :
    (",".intercalate items).data = commaJoin (items.map String.data) := by
  cases items with
  | nil => rfl
  | cons a as =>
    simp only [String.intercalate, intercalate_go_data, List.map_cons, commaJoin_cons,
      List.map_map]
    rfl

theorem jsonArray_data (items : List String) :
    (jsonArray items).data = '[' :: (commaJoin (items.map String.data) ++ [']']) := by
  simp only [jsonArray, String.data_append, intercalate_data]
  rfl

theorem jsonObject_data (fields : List (String × String)) :
    (jsonObject fields).data =
      Char.ofNat 123 :: (commaJoin (fields.map memberText) ++ [Char.ofNat 125]) := by
  simp only [jsonObject, String.data_append, intercalate_data, List.map_map]
  have : (String.data ∘ fun f : String × String => jsonString f.1 ++ ":" ++ f.2) =
      memberText := by
    funext f
    simp [memberText, String.data_append]
  rw [this]
  rfl

theorem delimited_comma (rest : List Char) : Delimited (',' :: rest) := by
  intro c r h
  simp only [List.cons.injEq] at h
  exact Or.inl h.1.symm

theorem delimited_bracket (rest : List Char) : Delimited (']' :: rest) := by
  intro c r h
  simp only [List.cons.injEq] at h
  exact Or.inr (Or.inl h.1.symm)

theorem delimited_brace (rest : List Char) : Delimited (Char.ofNat 125 :: rest) := by
  intro c r h
  simp only [List.cons.injEq] at h
  exact Or.inr (Or.inr (by rw [← h.1]; rfl))

theorem delimited_nil : Delimited [] := by
  intro c r h
  cases h

/-- The parser reads back the elements of an array up to its closing
bracket. -/
theorem parseJson_elements (ts : List (List Char)) (js : List Json)
    (h : List.Forall₂ Reads ts js) :
    ts ≠ [] → ∀ fuel acc rest, (commaJoin ts).length + 1 < fuel →
      parseJson fuel (.elements acc) (commaJoin ts ++ ']' :: rest) =
        some (.arr (acc ++ js), rest) := by
  induction h with
  | nil => intro hne; exact absurd rfl hne
  | @cons t j ts js hr htail ih =>
    intro _ fuel acc rest hf
    obtain ⟨f, rfl⟩ : ∃ f, fuel = f + 1 := ⟨fuel - 1, by omega⟩
    cases htail with
    | nil =>
      simp only [commaJoin] at hf ⊢
      rw [parseJson, hr.2 f (']' :: rest) (by omega) (delimited_bracket rest)]
      simp [skipSpace, isJsonSpace]
    | @cons t' j' ts' js' hr' htail' =>
      have hlen : (commaJoin (t :: t' :: ts')).length =
          t.length + 1 + (commaJoin (t' :: ts')).length := by
        simp [commaJoin]; omega
      have htext : commaJoin (t :: t' :: ts') ++ ']' :: rest =
          t ++ ',' :: (commaJoin (t' :: ts') ++ ']' :: rest) := by
        simp [commaJoin]
      rw [htext, parseJson, hr.2 f _ (by omega) (delimited_comma _)]
      have := ih (by simp) f (acc ++ [j]) rest (by omega)
      simp [skipSpace, isJsonSpace, this]

theorem reads_array_of (ts : List (List Char)) (js : List Json)
    (h : List.Forall₂ Reads ts js) : Reads ('[' :: (commaJoin ts ++ [']'])) (.arr js) := by
  refine ⟨⟨'[', _, rfl, by decide, by decide⟩, ?_⟩
  intro fuel rest hf _
  obtain ⟨f, rfl⟩ : ∃ f, fuel = f + 1 := ⟨fuel - 1, by omega⟩
  cases h with
  | nil =>
    rw [parseJson]
    simp [commaJoin, skipSpace, isJsonSpace]
  | @cons t j ts js hr htail =>
    obtain ⟨c, r, hc, hsp, hne⟩ := hr.1
    have hcj : ∃ r', commaJoin (t :: ts) = c :: r' := by
      rw [commaJoin_cons, hc]
      exact ⟨_, rfl⟩
    obtain ⟨r', hr'⟩ := hcj
    have hel := parseJson_elements (t :: ts) (j :: js)
      (List.Forall₂.cons hr htail) (by simp) f [] rest
      (by simp only [List.length_cons, List.length_append] at hf; omega)
    rw [parseJson]
    simp only [List.cons_append, List.append_assoc, List.singleton_append, List.nil_append]
      at hel ⊢
    rw [hr'] at hel ⊢
    have h1 : isJsonSpace '[' = false := by decide
    rw [List.cons_append] at hel
    simp [skipSpace_cons, h1, hsp, hne, hel]

theorem reads_array (items : List String) (js : List Json)
    (h : List.Forall₂ (fun t j => Reads t.data j) items js) :
    Reads (jsonArray items).data (.arr js) := by
  rw [jsonArray_data]
  exact reads_array_of _ js (List.forall₂_map_left_iff.mpr h)

/-- The parser reads one member of an object and goes on with what follows
it. -/
theorem parseJson_member (key : String) (v : List Char) (j : Json) (hr : Reads v j)
    (f : Nat) (acc : List (String × Json)) (tail : List Char) (hd : Delimited tail)
    (hf : v.length < f) :
    parseJson (f + 1) (.members acc) ((jsonString key).data ++ ':' :: v ++ tail) =
      match skipSpace tail with
      | [] => none
      | d :: rest4 =>
        if d = ',' then parseJson f (.members (acc ++ [(key, j)])) rest4
        else if d.toNat = 125 then some (.obj (acc ++ [(key, j)]), rest4)
        else none := by
  have hb := parseStringBody_flatten key.data (':' :: (v ++ tail)) []
  simp only [List.nil_append] at hb
  have hq : isJsonSpace (Char.ofNat 34) = false := by decide
  have hcolon : isJsonSpace ':' = false := by decide
  rw [jsonString_data, parseJson]
  simp only [List.cons_append, List.append_assoc, List.singleton_append, List.nil_append]
  rw [skipSpace_cons _ _ hq]
  simp only [hb, skipSpace_cons _ _ hcolon, hr.2 f tail hf hd]
  rfl

/-- The parser reads back the members of an object up to its closing
brace. -/
theorem parseJson_members (fields : List (String × String)) (ms : List (String × Json))
    (h : List.Forall₂ (fun f m => f.1 = m.1 ∧ Reads f.2.data m.2) fields ms) :
    fields ≠ [] → ∀ fuel acc rest, (commaJoin (fields.map memberText)).length + 1 < fuel →
      parseJson fuel (.members acc)
          (commaJoin (fields.map memberText) ++ Char.ofNat 125 :: rest) =
        some (.obj (acc ++ ms), rest) := by
  induction h with
  | nil => intro hne; exact absurd rfl hne
  | @cons fd m fields ms hr htail ih =>
    intro _ fuel acc rest hf
    obtain ⟨f, rfl⟩ : ∃ f, fuel = f + 1 := ⟨fuel - 1, by omega⟩
    obtain ⟨k, v⟩ := fd
    obtain ⟨k', j⟩ := m
    obtain ⟨hk, hv⟩ := hr
    simp only at hk hv
    subst hk
    have hmlen : v.data.length < (memberText (k, v)).length := by
      simp only [memberText, List.length_append, List.length_cons]
      omega
    cases htail with
    | nil =>
      simp only [List.map_cons, List.map_nil, commaJoin] at hf ⊢
      have hstep := parseJson_member k v.data j hv f acc (Char.ofNat 125 :: rest)
        (delimited_brace rest) (by omega)
      have hb : isJsonSpace (Char.ofNat 125) = false := by decide
      simp only [memberText]
      rw [hstep, skipSpace_cons _ _ hb]
      simp
    | @cons fd' m' fields' ms' hr' htail' =>
      simp only [List.map_cons] at hf ih ⊢
      have hlen : (commaJoin (memberText (k, v) :: memberText fd' :: fields'.map memberText)).length =
          (memberText (k, v)).length + 1 +
            (commaJoin (memberText fd' :: fields'.map memberText)).length := by
        simp [commaJoin]; omega
      have htext : commaJoin (memberText (k, v) :: memberText fd' :: fields'.map memberText) ++
            Char.ofNat 125 :: rest =
          (jsonString k).data ++ ':' :: v.data ++ (',' ::
            (commaJoin (memberText fd' :: fields'.map memberText) ++ Char.ofNat 125 :: rest)) := by
        simp [commaJoin, memberText]
      have hstep := parseJson_member k v.data j hv f acc (',' ::
            (commaJoin (memberText fd' :: fields'.map memberText) ++ Char.ofNat 125 :: rest))
        (delimited_comma _) (by omega)
      have hc : isJsonSpace ',' = false := by decide
      rw [htext, hstep, skipSpace_cons _ _ hc]
      have := ih (by simp) f (acc ++ [(k, j)]) rest (by omega)
      simp [this]

theorem reads_object (fields : List (String × String)) (ms : List (String × Json))
    (h : List.Forall₂ (fun f m => f.1 = m.1 ∧ Reads f.2.data m.2) fields ms) :
    Reads (jsonObject fields).data (.obj ms) := by
  refine ⟨⟨Char.ofNat 123, _, jsonObject_data fields, by decide, by decide⟩, ?_⟩
  intro fuel rest hf _
  obtain ⟨f, rfl⟩ : ∃ f, fuel = f + 1 := ⟨fuel - 1, by omega⟩
  rw [jsonObject_data] at hf ⊢
  have h1 : isJsonSpace (Char.ofNat 123) = false := by decide
  cases h with
  | nil =>
    have h2 : isJsonSpace (Char.ofNat 125) = false := by decide
    rw [parseJson]
    simp [commaJoin, skipSpace_cons, h1, h2]
  | @cons fd m fields ms hr htail =>
    have hmem := parseJson_members (fd :: fields) (m :: ms) (List.Forall₂.cons hr htail)
      (by simp) f [] rest
      (by simp only [List.length_cons, List.length_append] at hf; omega)
    have hq : isJsonSpace (Char.ofNat 34) = false := by decide
    have hcj : ∃ r', commaJoin ((fd :: fields).map memberText) = Char.ofNat 34 :: r' := by
      rw [List.map_cons, commaJoin_cons, memberText, jsonString_data]
      exact ⟨_, rfl⟩
    obtain ⟨r', hr'⟩ := hcj
    rw [parseJson]
    simp only [List.cons_append, List.append_assoc, List.singleton_append, List.nil_append]
      at hmem ⊢
    rw [hr'] at hmem ⊢
    rw [List.cons_append] at hmem
    simp [skipSpace_cons, h1, hq, hmem]

theorem forall₂_map_reads {α : Type} (text : α → String) (encode : α → Json)
    (h : ∀ x, Reads (text x).data (encode x)) (xs : List α) :
    List.Forall₂ (fun t j => Reads t.data j) (xs.map text) (xs.map encode) := by
  induction xs with
  | nil => exact List.Forall₂.nil
  | cons x xs ih => exact List.Forall₂.cons (h x) ih

theorem reads_song (x : Song) : Reads (songText x).data (encodeSong x) := by
  unfold songText encodeSong
  apply reads_object
  repeat (first
    | exact List.Forall₂.nil
    | refine List.Forall₂.cons ⟨rfl, reads_string _⟩ ?_)

theorem reads_playlist (p : Playlist) : Reads (playlistText p).data (encodePlaylist p) := by
  unfold playlistText encodePlaylist
  apply reads_object
  refine List.Forall₂.cons ⟨rfl, reads_string _⟩ ?_
  refine List.Forall₂.cons ⟨rfl, reads_string _⟩ ?_
  refine List.Forall₂.cons ⟨rfl, reads_string _⟩ ?_
  refine List.Forall₂.cons ⟨rfl, reads_array _ _ (forall₂_map_reads _ _ reads_song _)⟩ ?_
  refine List.Forall₂.cons ⟨rfl, reads_string _⟩ ?_
  refine List.Forall₂.cons ⟨rfl, reads_bool _⟩ ?_
  exact List.Forall₂.nil

theorem reads_playlists (ps : List Playlist) :
    Reads (playlistsText ps).data (.arr (ps.map encodePlaylist)) := by
  unfold playlistsText
  exact reads_array _ _ (forall₂_map_reads _ _ reads_playlist ps)

theorem reads_snapshot (h : Snapshot) : Reads (snapshotText h).data (encodeSnapshot h) := by
  unfold snapshotText encodeSnapshot
  apply reads_object
  refine List.Forall₂.cons ⟨rfl, reads_playlists _⟩ ?_
  refine List.Forall₂.cons ⟨rfl, reads_nat _⟩ ?_
  exact List.Forall₂.nil

theorem reads_history (history : List Snapshot) (historyIndex : Int) :
    Reads (historyText history historyIndex).data (encodeHistory history historyIndex) := by
  unfold historyText encodeHistory
  apply reads_object
  refine List.Forall₂.cons ⟨rfl, reads_array _ _ (forall₂_map_reads _ _ reads_snapshot _)⟩ ?_
  refine List.Forall₂.cons ⟨rfl, reads_int _⟩ ?_
  exact List.Forall₂.nil

/-- A text the parser reads as a value is parsed to that value. -/
theorem jsonParse_of_reads (text : String) (j : Json) (h : Reads text.data j) :
    jsonParse text = some j := by
  unfold jsonParse
  have := h.2 (text.length + 1) [] (Nat.lt_succ_self _) delimited_nil
  rw [List.append_nil] at this
  rw [this]
  rfl

theorem ne_empty_of_reads (text : String) (j : Json) (h : Reads text.data j) : text ≠ "" := by
  obtain ⟨⟨c, r, hc, -, -⟩, -⟩ := h
  intro h0
  rw [h0] at hc
  cases hc

theorem decodeAll_map {α : Type} (decode : Json → Option α) (encode : α → Json)
    (h : ∀ x, decode (encode x) = some x) (xs : List α) :
    decodeAll decode (xs.map encode) = some xs := by
  induction xs with
  | nil => rfl
  | cons x xs ih => simp [decodeAll, h, ih]

theorem decodeSong_encode (x : Song) : decodeSong (encodeSong x) = some x := by
  rfl

theorem decodePlaylist_encode (p : Playlist) : decodePlaylist (encodePlaylist p) = some p := by
  have h : decodePlaylist (encodePlaylist p) =
      (decodeAll decodeSong (p.songs.map encodeSong)).map fun songs =>
        ⟨p.id, p.title, p.description, songs, p.color, p.isDefault⟩ := rfl
  rw [h, decodeAll_map _ _ decodeSong_encode]
  rfl

theorem playlistsView_encode (ps : List Playlist) :
    playlistsView (.arr (ps.map encodePlaylist)) = .ok ps := by
  simp [playlistsView, decodeAll_map _ _ decodePlaylist_encode]

/-- The platform parser reads back the playlists text the platform writes. -/
theorem platformJson_playlists (ps : List Playlist) :
    platformJson.stringifyPlaylists ps ≠ "" ∧
    platformJson.parsePlaylists (platformJson.stringifyPlaylists ps) = some (.ok ps) := by
  refine ⟨ne_empty_of_reads _ _ (reads_playlists ps), ?_⟩
  show (jsonParse (playlistsText ps)).map playlistsView = some (.ok ps)
  rw [jsonParse_of_reads _ _ (reads_playlists ps)]
  simp [playlistsView_encode]

/-- The platform parser reads the history text the platform writes as an
object. -/
theorem platformJson_history (history : List Snapshot) (historyIndex : Int) :
    platformJson.stringifyHistory history historyIndex ≠ "" ∧
    ∃ d, platformJson.parseHistory (platformJson.stringifyHistory history historyIndex) =
      some (some d) := by
  refine ⟨ne_empty_of_reads _ _ (reads_history history historyIndex), ?_⟩
  refine ⟨⟨historyView (some (.arr (history.map encodeSnapshot))),
    historyIndexView (some (encodeInt historyIndex))⟩, ?_⟩
  show (jsonParse (historyText history historyIndex)).map historyDataView = some (some _)
  rw [jsonParse_of_reads _ _ (reads_history history historyIndex)]
  rfl

/-! ## Restoring from the store -/

set_option maxRecDepth 1000000
set_option maxHeartbeats 4000000

/-- The `try` block of `loadSavedState` reaches the `catch` when a record
makes it abort. -/
theorem loadedState_of_aborts (json : JsonLib) (storage : Storage)
    (h : restoreAborts json storage) : loadedState json storage = none := by
  unfold restoreAborts playlistsRecord historyRecord at h
  unfold loadedState
  cases h1 : truthyText (storage STORAGE_KEY) with
  | none =>
    cases h2 : truthyText (storage HISTORY_KEY) with
    | none => simp [h1, h2] at h
    | some t2 =>
      rcases h3 : json.parseHistory t2 with _ | _ | d
      · simp [h1, h2, h3]
      · simp [h1, h2, h3]
      · simp [h1, h2, h3] at h
  | some t1 =>
    cases h0 : json.parsePlaylists t1 with
    | none => simp [h1, h0]
    | some v =>
      cases h2 : truthyText (storage HISTORY_KEY) with
      | none => simp [h1, h0, h2] at h
      | some t2 =>
        rcases h3 : json.parseHistory t2 with _ | _ | d
        · simp [h1, h0, h2, h3]
        · simp [h1, h0, h2, h3]
        · simp [h1, h0, h2, h3] at h

/-- The object `loadedState` when the `try` block runs to its end: each
record that has a value gives its fields. -/
theorem loadedState_of_runs (json : JsonLib) (storage : Storage)
    (h : ¬ restoreAborts json storage) :
    loadedState json storage = some
      { playlists := (playlistsRecord json storage).value,
        activePlaylistId := activeRecord storage,
        history := (historyRecord json storage).value.join.map fun d => jsOrList d.history,
        historyIndex := (historyRecord json storage).value.join.map fun d =>
          jsOrInt d.historyIndex (-1),
        songIdCounter := none } := by
  unfold restoreAborts at h
  unfold playlistsRecord at h ⊢
  unfold historyRecord at h ⊢
  unfold loadedState activeRecord
  cases h1 : truthyText (storage STORAGE_KEY) with
  | none =>
    cases h2 : truthyText (storage HISTORY_KEY) with
    | none =>
      cases h4 : truthyText (storage ACTIVE_PLAYLIST_KEY) <;>
        simp [h1, h2, h4, Record.value]
    | some t2 =>
      rcases h3 : json.parseHistory t2 with _ | _ | d
      · simp [h1, h2, h3] at h
      · simp [h1, h2, h3] at h
      · cases h4 : truthyText (storage ACTIVE_PLAYLIST_KEY) <;>
          simp [h1, h2, h3, h4, Record.value]
  | some t1 =>
    cases h0 : json.parsePlaylists t1 with
    | none => simp [h1, h0] at h
    | some ps =>
      cases h2 : truthyText (storage HISTORY_KEY) with
      | none =>
        cases h4 : truthyText (storage ACTIVE_PLAYLIST_KEY) <;>
          simp [h1, h0, h2, h4, Record.value]
      | some t2 =>
        rcases h3 : json.parseHistory t2 with _ | _ | d
        · simp [h1, h0, h2, h3] at h
        · simp [h1, h0, h2, h3] at h
        · cases h4 : truthyText (storage ACTIVE_PLAYLIST_KEY) <;>
            simp [h1, h0, h2, h3, h4, Record.value]

/-- The `LOAD_STATE` case of the reducer, at a payload every value of which
has its shape, is the spread of the payload over the state. -/
theorem loadState_typed (clk : Clock) (state : State) (loaded : RawLoaded)
    (payload : LoadedState) (h : loaded.typed = some payload) :
    (playlistReducer clk state (.LOAD_STATE payload)).map RawState.ofState =
      some (spread state loaded) := by
  obtain ⟨p, a, hs, hi, c⟩ := loaded
  unfold RawLoaded.typed at h
  split at h
  · cases h
    rcases p with _ | _ | _ <;> rcases hs with _ | _ | _ <;> rcases hi with _ | _ | _ <;>
      simp_all [playlistReducer, spread, RawState.ofState, Shaped.value]
  · cases h

/-- The state after `loadSavedState` when the `try` block ran to its end. -/
theorem loadSavedState_of_loaded (json : JsonLib) (storage : Storage) (clk : Clock)
    (state : State) (loaded : RawLoaded) (h : loadedState json storage = some loaded) :
    loadSavedState json storage clk state = some (spread state loaded) := by
  unfold loadSavedState
  rw [h]
  by_cases he : loaded = {}
  · subst he
    simp [spread, RawState.ofState]
  · simp only [ne_eq, he, not_false_eq_true, if_true]
    cases ht : loaded.typed with
    | none => rfl
    | some payload => exact loadState_typed clk state loaded payload ht

/-- The state after `loadSavedState` when the `catch` was reached. -/
theorem loadSavedState_of_thrown (json : JsonLib) (storage : Storage) (clk : Clock)
    (state : State) (h : loadedState json storage = none) :
    loadSavedState json storage clk state = some (RawState.ofState state) := by
  unfold loadSavedState
  rw [h]

theorem truthyText_some (text : String) (h : text ≠ "") :
    truthyText (some text) = some text := by
  simp [truthyText, h]

/-- The playlists record that `saveState` leaves, when the text written is not
empty and parses. -/
theorem saveState_playlistsRecord (json : JsonLib) (s : State) (storage : Storage)
    (v : Shaped (List Playlist)) (h1 : json.stringifyPlaylists s.playlists ≠ "")
    (h2 : json.parsePlaylists (json.stringifyPlaylists s.playlists) = some v) :
    playlistsRecord json (saveState json s storage) = .parsed v := by
  have hk1 : ¬ (STORAGE_KEY = ACTIVE_PLAYLIST_KEY) := by decide
  have hk2 : ¬ (STORAGE_KEY = HISTORY_KEY) := by decide
  unfold playlistsRecord saveState setItem
  simp only [hk1, hk2, if_false, if_true]
  rw [truthyText_some _ h1]
  simp only [h2]

/-- The history record that `saveState` leaves, when the text written is not
empty and parses. -/
theorem saveState_historyRecord (json : JsonLib) (s : State) (storage : Storage)
    (v : Option HistoryData) (h1 : json.stringifyHistory s.history s.historyIndex ≠ "")
    (h2 : json.parseHistory (json.stringifyHistory s.history s.historyIndex) = some v) :
    historyRecord json (saveState json s storage) = .parsed v := by
  have hk1 : ¬ (HISTORY_KEY = ACTIVE_PLAYLIST_KEY) := by decide
  unfold historyRecord saveState setItem
  simp only [hk1, if_false, if_true]
  rw [truthyText_some _ h1]
  simp only [h2]

/-- The active playlist id record that `saveState` leaves. -/
theorem saveState_activeRecord (json : JsonLib) (s : State) (storage : Storage) :
    activeRecord (saveState json s storage) = truthyText (some s.activePlaylistId) := by
  unfold activeRecord saveState setItem
  simp

/-- What `saveState` wrote does not make the `try` block abort, when both
texts parse and the history text does not parse to `null`. -/
theorem saveState_runs (json : JsonLib) (s : State) (storage : Storage)
    (v : Shaped (List Playlist)) (d : HistoryData)
    (hp : playlistsRecord json (saveState json s storage) = .parsed v)
    (hh : historyRecord json (saveState json s storage) = .parsed (some d)) :
    ¬ restoreAborts json (saveState json s storage) := by
  unfold restoreAborts
  rw [hp, hh]
  simp

/-- The state after `loadSavedState` when the `try` block ran to its end, field
by field. -/
theorem loadSavedState_of_runs (json : JsonLib) (storage : Storage) (clk : Clock)
    (state : State) (h : ¬ restoreAborts json storage) :
    loadSavedState json storage clk state = some
      { playlists := (playlistsRecord json storage).value.getD (.ok state.playlists),
        activePlaylistId := (activeRecord storage).getD state.activePlaylistId,
        history := ((historyRecord json storage).value.join.map fun d =>
          jsOrList d.history).getD (.ok state.history),
        historyIndex := ((historyRecord json storage).value.join.map fun d =>
          jsOrInt d.historyIndex (-1)).getD (.ok state.historyIndex),
        songIdCounter := state.songIdCounter } := by
  rw [loadSavedState_of_loaded json storage clk state _ (loadedState_of_runs json storage h)]
  rfl

/-- C17 fails as stated: with a playlists record that is not JSON text and an
active playlist id record "2", `loadSavedState` leaves the initial state as it
is; the active playlist id stays "1" although its record is present. -/
theorem restore_counterexample :
    playlistsRecord platformJson corruptStorage = .unparseable ∧
    historyRecord platformJson corruptStorage = .absent ∧
    activeRecord corruptStorage = some "2" ∧
    loadSavedState platformJson corruptStorage clock0 initialState =
      some (RawState.ofState initialState) ∧
    initialState.activePlaylistId ≠ "2" := by
  decide

/-- C17, amended: restoration is all or nothing around a throw.  When
`JSON.parse` throws on the playlists record or on the history record, or
returns `null` for the history record, `loadSavedState` restores nothing and
every field keeps its current value.  Otherwise each absent record leaves its
field or fields at their current value and each present record is loaded: the
playlists become the value `JSON.parse` returned, whatever its shape (`null`
included); the history becomes the parsed `history`, or the empty array when
that is missing or falsy, and the cursor the parsed `historyIndex`, or `-1`
when that is missing or falsy (so an integer other than `0` is kept); the
active playlist id becomes the raw text.  The counter keeps its current
value. -/
theorem restore_per_record (json : JsonLib) (storage : Storage) (clk : Clock) (state : State) :
    (restoreAborts json storage →
      loadSavedState json storage clk state = some (RawState.ofState state)) ∧
    (¬ restoreAborts json storage →
      ∃ r, loadSavedState json storage clk state = some r ∧
        (playlistsRecord json storage = .absent → r.playlists = .ok state.playlists) ∧
        (∀ v, playlistsRecord json storage = .parsed v → r.playlists = v) ∧
        (historyRecord json storage = .absent →
          r.history = .ok state.history ∧ r.historyIndex = .ok state.historyIndex) ∧
        (∀ d, historyRecord json storage = .parsed (some d) →
          r.history = jsOrList d.history ∧ r.historyIndex = jsOrInt d.historyIndex (-1) ∧
          ∀ i, d.historyIndex = some (.ok i) → i ≠ 0 → r.historyIndex = .ok i) ∧
        (activeRecord storage = none → r.activePlaylistId = state.activePlaylistId) ∧
        (∀ id, activeRecord storage = some id → r.activePlaylistId = id) ∧
        r.songIdCounter = state.songIdCounter) := by
  constructor
  · intro h
    exact loadSavedState_of_thrown json storage clk state (loadedState_of_aborts json storage h)
  · intro h
    refine ⟨_, loadSavedState_of_runs json storage clk state h, ?_, ?_, ?_, ?_, ?_, ?_, rfl⟩
    · intro h; simp [h, Record.value]
    · intro v h; simp [h, Record.value]
    · intro h; simp [h, Record.value]
    · intro d h
      refine ⟨by simp [h, Record.value], by simp [h, Record.value], ?_⟩
      intro i hi hne
      simp [h, Record.value, hi, jsOrInt, hne]
    · intro h; simp [h]
    · intro id h; simp [h]

/-- A run of `restore_per_record`: nothing is restored from `corruptStorage`,
whose playlists text is not JSON; from `nullStorage`, whose playlists text is
`null`, the playlists become a value that is no array and the active playlist
id "2" is loaded; from `partialStorage` the playlists and the active playlist
id are loaded and the history keeps its current value. -/
theorem restore_per_record_witness :
    (restoreAborts platformJson corruptStorage ∧
      loadSavedState platformJson corruptStorage clock0 initialState =
        some (RawState.ofState initialState)) ∧
    (¬ restoreAborts platformJson nullStorage ∧
      playlistsRecord platformJson nullStorage = .parsed .other ∧
      activeRecord nullStorage = some "2" ∧
      ∃ r, loadSavedState platformJson nullStorage clock0 initialState = some r ∧
        r.playlists = .other ∧ r.activePlaylistId = "2" ∧
        r.history = .ok initialState.history) ∧
    (¬ restoreAborts platformJson partialStorage ∧
      playlistsRecord platformJson partialStorage = .parsed (.ok (defaultsWith [songA])) ∧
      historyRecord platformJson partialStorage = .absent ∧
      activeRecord partialStorage = some "2" ∧
      ∃ r, loadSavedState platformJson partialStorage clock0 initialState = some r ∧
        r.playlists = .ok (defaultsWith [songA]) ∧
        r.history = .ok initialState.history ∧
        r.historyIndex = .ok initialState.historyIndex ∧
        r.activePlaylistId = "2" ∧ r.songIdCounter = initialState.songIdCounter) := by
  have hc : restoreAborts platformJson corruptStorage := by decide
  have hn : ¬ restoreAborts platformJson nullStorage := by decide
  have hnp : playlistsRecord platformJson nullStorage = .parsed .other := by decide
  have hnh : historyRecord platformJson nullStorage = .absent := by decide
  have hna : activeRecord nullStorage = some "2" := by decide
  have hr : ¬ restoreAborts platformJson partialStorage := by decide
  have hp : playlistsRecord platformJson partialStorage =
      .parsed (.ok (defaultsWith [songA])) := by decide
  have hh : historyRecord platformJson partialStorage = .absent := by decide
  have ha : activeRecord partialStorage = some "2" := by decide
  refine ⟨⟨hc, (restore_per_record platformJson corruptStorage clock0 initialState).1 hc⟩,
    ⟨hn, hnp, hna, ?_⟩, ⟨hr, hp, hh, ha, ?_⟩⟩
  · obtain ⟨r, hr', -, h2, h3, -, -, h6, -⟩ :=
      (restore_per_record platformJson nullStorage clock0 initialState).2 hn
    exact ⟨r, hr', h2 _ hnp, h6 _ hna, (h3 hnh).1⟩
  · obtain ⟨r, hr', -, h2, h3, -, -, h6, h7⟩ :=
      (restore_per_record platformJson partialStorage clock0 initialState).2 hr
    exact ⟨r, hr', h2 _ hp, (h3 hh).1, (h3 hh).2, h6 _ ha, h7⟩

/-- C18: round trip of the playlists through the store.  For every state,
when the records `saveState` writes (no write failing) are read by
`loadSavedState` and applied through `LOAD_STATE` to any current state, with
the JSON functions of the platform, the resulting playlists are the playlists
that were written. -/
theorem playlists_round_trip (saved current : State) (storage : Storage) (clk : Clock) :
    ∃ r, loadSavedState platformJson (saveState platformJson saved storage) clk current =
        some r ∧
      r.playlists = .ok saved.playlists := by
  obtain ⟨hp1, hp2⟩ := platformJson_playlists saved.playlists
  obtain ⟨hh1, d, hh2⟩ := platformJson_history saved.history saved.historyIndex
  have hp := saveState_playlistsRecord platformJson saved storage _ hp1 hp2
  have hh := saveState_historyRecord platformJson saved storage _ hh1 hh2
  refine ⟨_, loadSavedState_of_runs platformJson _ clk current
    (saveState_runs platformJson saved storage _ d hp hh), ?_⟩
  simp [hp, Record.value]

/-- C20: restoring the history record keeps the stored cursor exactly when it
is not `0`.  For a history record that parses to a value other than `null`
(the playlists record not making `JSON.parse` throw), `loadSavedState` loads
the stored `historyIndex` when it is an integer other than `0`, and loads `-1`
when it is `0` or missing.  Hence for a state saved with `historyIndex = 0`
and a non-empty history, save followed by restore yields the saved history
with `historyIndex = -1`, not `0`. -/
theorem restore_historyIndex (json : JsonLib) (storage : Storage) (clk : Clock)
    (state : State) :
    (∀ d, playlistsRecord json storage ≠ .unparseable →
      historyRecord json storage = .parsed (some d) →
      ∃ r, loadSavedState json storage clk state = some r ∧
        (∀ i, d.historyIndex = some (.ok i) → i ≠ 0 → r.historyIndex = .ok i) ∧
        (d.historyIndex = some (.ok 0) → r.historyIndex = .ok (-1)) ∧
        (d.historyIndex = none → r.historyIndex = .ok (-1))) ∧
    (∀ saved : State, saved.historyIndex = 0 → saved.history ≠ [] → readsBack json saved →
      ∃ r, loadSavedState json (saveState json saved storage) clk state = some r ∧
        r.history = .ok saved.history ∧ r.historyIndex = .ok (-1) ∧
        r.historyIndex ≠ .ok saved.historyIndex) := by
  constructor
  · intro d hp hh
    have hruns : ¬ restoreAborts json storage := by
      unfold restoreAborts
      rw [hh]
      simp [hp]
    refine ⟨_, loadSavedState_of_runs json storage clk state hruns, ?_, ?_, ?_⟩
    · intro i hi hne
      simp [hh, Record.value, hi, jsOrInt, hne]
    · intro hi
      simp [hh, Record.value, hi, jsOrInt]
    · intro hi
      simp [hh, Record.value, hi, jsOrInt]
  · intro saved h0 _ hjson
    have hp := saveState_playlistsRecord json saved storage _ hjson.1 hjson.2.1
    have hh := saveState_historyRecord json saved storage _ hjson.2.2.1 hjson.2.2.2
    refine ⟨_, loadSavedState_of_runs json _ clk state
      (saveState_runs json saved storage _ _ hp hh), ?_, ?_, ?_⟩
    · simp [hh, Record.value, jsOrList]
    · simp [hh, Record.value, jsOrInt, h0]
    · simp [hh, Record.value, jsOrInt, h0]

/-- A run of `restore_historyIndex`: the cursor `1` saved after two added
songs is loaded as `1`; a record without cursor is loaded with `-1`; the
cursor `0` saved after one added song is loaded as `-1`. -/
theorem restore_historyIndex_witness :
    (historyRecord platformJson (saveState platformJson afterTwoAdds emptyStorage) =
        .parsed (some ⟨some (.ok afterTwoAdds.history), some (.ok 1)⟩) ∧
      ∃ r, loadSavedState platformJson (saveState platformJson afterTwoAdds emptyStorage)
          clock2 initialState = some r ∧ r.historyIndex = .ok 1) ∧
    (historyRecord platformJson noIndexStorage =
        .parsed (some ⟨some (.ok afterOneAdd.history), none⟩) ∧
      ∃ r, loadSavedState platformJson noIndexStorage clock2 initialState = some r ∧
        r.historyIndex = .ok (-1)) ∧
    ((afterOneAdd.historyIndex = 0 ∧ afterOneAdd.history ≠ [] ∧
        readsBack platformJson afterOneAdd) ∧
      ∃ r, loadSavedState platformJson (saveState platformJson afterOneAdd emptyStorage)
          clock2 initialState = some r ∧
        r.history = .ok afterOneAdd.history ∧ r.historyIndex = .ok (-1) ∧
        r.historyIndex ≠ .ok afterOneAdd.historyIndex) := by
  have h1 : historyRecord platformJson (saveState platformJson afterTwoAdds emptyStorage) =
      .parsed (some ⟨some (.ok afterTwoAdds.history), some (.ok 1)⟩) := by decide
  have p1 : playlistsRecord platformJson (saveState platformJson afterTwoAdds emptyStorage) ≠
      .unparseable := by decide
  have h2 : historyRecord platformJson noIndexStorage =
      .parsed (some ⟨some (.ok afterOneAdd.history), none⟩) := by decide
  have p2 : playlistsRecord platformJson noIndexStorage ≠ .unparseable := by decide
  refine ⟨⟨h1, ?_⟩, ⟨h2, ?_⟩, by decide, ?_⟩
  · obtain ⟨r, hr, hi, -, -⟩ :=
      (restore_historyIndex platformJson _ clock2 initialState).1 _ p1 h1
    exact ⟨r, hr, hi 1 rfl (by decide)⟩
  · obtain ⟨r, hr, -, -, hi⟩ :=
      (restore_historyIndex platformJson _ clock2 initialState).1 _ p2 h2
    exact ⟨r, hr, hi rfl⟩
  · exact (restore_historyIndex platformJson emptyStorage clock2 initialState).2 afterOneAdd
      (by decide) (by decide) (by decide)

/-! ## The song counter is not persisted -/

/-- The object `loadedState` never has a `songIdCounter`. -/
theorem loadedState_songIdCounter (json : JsonLib) (storage : Storage) (loaded : RawLoaded)
    (h : loadedState json storage = some loaded) : loaded.songIdCounter = none := by
  by_cases ha : restoreAborts json storage
  · rw [loadedState_of_aborts json storage ha] at h
    cases h
  · rw [loadedState_of_runs json storage ha] at h
    cases h
    rfl

/-- The counter after `loadSavedState` is the one before it. -/
theorem loadSavedState_songIdCounter (json : JsonLib) (storage : Storage) (clk : Clock)
    (state : State) :
    ∃ r, loadSavedState json storage clk state = some r ∧
      r.songIdCounter = state.songIdCounter := by
  cases h : loadedState json storage with
  | none => exact ⟨_, loadSavedState_of_thrown json storage clk state h, rfl⟩
  | some loaded =>
    refine ⟨_, loadSavedState_of_loaded json storage clk state loaded h, ?_⟩
    simp [spread, loadedState_songIdCounter json storage loaded h]

/-- C21: `songIdCounter` is neither saved nor restored.  What `saveState`
writes does not depend on the counter; the payload `loadSavedState` builds
never has a `songIdCounter`, so after it the counter has its current value.
Consequently there is a saved session, the one after one added song, where
playlist "1" holds `song_1`, such that restoring it into the initial state
and then adding a song yields an active playlist with two different songs of
the same id `song_1`. -/
theorem songIdCounter_not_persisted :
    (∀ (json : JsonLib) (state : State) (storage : Storage) (n : Nat),
      saveState json { state with songIdCounter := n } storage =
        saveState json state storage) ∧
    (∀ (json : JsonLib) (storage : Storage) (loaded : RawLoaded),
      loadedState json storage = some loaded → loaded.songIdCounter = none) ∧
    (∀ (json : JsonLib) (storage : Storage) (clk : Clock) (state : State),
      ∃ r, loadSavedState json storage clk state = some r ∧
        r.songIdCounter = state.songIdCounter) ∧
    (readsBack platformJson afterOneAdd ∧
      songsOf afterOneAdd.playlists "1" = some [songA] ∧ songA.id = "song_1" ∧
      loadSavedState platformJson (saveState platformJson afterOneAdd emptyStorage) clock1
        initialState = some (RawState.ofState restoredSession) ∧
      restoredSession.songIdCounter = initialState.songIdCounter ∧
      ∃ s', playlistReducer clock2 restoredSession addSongB = some s' ∧
        songsOf s'.playlists s'.activePlaylistId = some [songA, songBAgain] ∧
        songA.id = songBAgain.id ∧ songA ≠ songBAgain) := by
  refine ⟨fun _ _ _ _ => rfl, loadedState_songIdCounter, loadSavedState_songIdCounter,
    by decide, by decide, by decide, by decide, by decide, _, rfl, by decide, by decide,
    by decide⟩

/-- A run of `songIdCounter_not_persisted`: the payload built from
`partialStorage` has the playlists and the active playlist id, and no
`songIdCounter`. -/
theorem songIdCounter_not_persisted_witness :
    loadedState platformJson partialStorage =
      some { playlists := some (.ok (defaultsWith [songA])), activePlaylistId := some "2" } ∧
    ({ playlists := some (.ok (defaultsWith [songA])), activePlaylistId := some "2" } :
      RawLoaded).songIdCounter = none :=
  ⟨by decide, songIdCounter_not_persisted.2.1 platformJson partialStorage _ (by decide)⟩

/-! ## Playlist ids made from the clock -/

/-- The id of each playlist stored after a step: the id of a playlist stored
before, or the id `CREATE_PLAYLIST` built from the clock. -/
theorem stored_id_step (clk : Clock) (s s' : State) (a : Action)
    (ha : isLoadState a = false) (h : playlistReducer clk s a = some s') :
    ∀ p ∈ stored s', (∃ q ∈ stored s, p.id = q.id) ∨
      ∃ payload, a = .CREATE_PLAYLIST payload ∧ p.id = "playlist_" ++ toString clk.now := by
  intro p hp
  have hold : ∀ p, p ∈ stored s → (∃ q ∈ stored s, p.id = q.id) ∨
      ∃ payload, a = .CREATE_PLAYLIST payload ∧ p.id = "playlist_" ++ toString clk.now :=
    fun p hq => Or.inl ⟨p, hq, rfl⟩
  have hlive : ∀ q, q ∈ s.playlists → q ∈ stored s := fun q hq => (mem_stored s q).2 (Or.inl hq)
  cases a with
  | LOAD_STATE _ => simp [isLoadState] at ha
  | DELETE_PLAYLIST _ => cases h; exact hold p hp
  | SELECT_PLAYLIST payload =>
    cases h
    exact hold p (by simpa [stored] using hp)
  | UNDO =>
    rcases undo_eq_some clk s s' h with rfl | ⟨snap, hsnap, rfl⟩
    · exact hold p hp
    · refine hold p ?_
      rw [mem_stored] at hp ⊢
      rcases hp with hp | hp
      · exact Or.inr ⟨snap, hsnap, hp⟩
      · exact Or.inr hp
  | REDO =>
    rcases redo_eq_some clk s s' h with rfl | ⟨snap, hsnap, rfl⟩
    · exact hold p hp
    · refine hold p ?_
      rw [mem_stored] at hp ⊢
      rcases hp with hp | hp
      · exact Or.inr ⟨snap, hsnap, hp⟩
      · exact Or.inr hp
  | ADD_SONG payload =>
    cases h
    rcases mem_stored_saveToHistory _ _ _ _ hp with hp | hp
    · simp only [List.mem_map] at hp
      obtain ⟨q, hq, rfl⟩ := hp
      refine Or.inl ⟨q, hlive q hq, ?_⟩
      split <;> rfl
    · exact hold p hp
  | REMOVE_SONG payload =>
    cases h
    rcases mem_stored_saveToHistory _ _ _ _ hp with hp | hp
    · simp only [List.mem_map] at hp
      obtain ⟨q, hq, rfl⟩ := hp
      refine Or.inl ⟨q, hlive q hq, ?_⟩
      split <;> rfl
    · exact hold p hp
  | CLEAR_PLAYLIST =>
    cases h
    rcases mem_stored_saveToHistory _ _ _ _ hp with hp | hp
    · simp only [List.mem_map] at hp
      obtain ⟨q, hq, rfl⟩ := hp
      refine Or.inl ⟨q, hlive q hq, ?_⟩
      split <;> rfl
    · exact hold p hp
  | CREATE_PLAYLIST payload =>
    cases h
    rcases mem_stored_saveToHistory _ _ _ _ hp with hp | hp
    · simp only [List.mem_append, List.mem_singleton] at hp
      rcases hp with hp | rfl
      · exact hold p (hlive p hp)
      · exact Or.inr ⟨payload, rfl, rfl⟩
    · exact hold p hp

/-- The ids stay made from the clock readings of the creations along a
sequence of dispatches without `LOAD_STATE`. -/
theorem dispatchAll_idsFromClock (trace : List (Clock × Action)) :
    ∀ (s : State) (times : List Nat), (∀ e ∈ trace, isLoadState e.2 = false) →
      cursorInBounds s → idsFromClock times s →
      ∃ s', dispatchAll s trace = some s' ∧ cursorInBounds s' ∧
        idsFromClock (createTimes trace ++ times) s' := by
  induction trace with
  | nil => intro s times _ hb hs; exact ⟨s, rfl, hb, hs⟩
  | cons e rest ih =>
    intro s times hall hb hs
    obtain ⟨clk, a⟩ := e
    have ha := hall (clk, a) (List.mem_cons_self _ _)
    obtain ⟨t, ht, hbt⟩ := step_cursorInBounds clk s a ha hb
    have hstep := stored_id_step clk s t a ha ht
    have hrest := fun e he => hall e (List.mem_cons_of_mem _ he)
    by_cases hc : ∃ payload, a = .CREATE_PLAYLIST payload
    · obtain ⟨payload, rfl⟩ := hc
      have hts : idsFromClock (times ++ [clk.now]) t := by
        intro p hp
        rcases hstep p hp with ⟨q, hq, hid⟩ | ⟨_, -, hid⟩
        · rw [hid]
          rcases hs q hq with h1 | h2 | ⟨u, hu, h3⟩
          · exact Or.inl h1
          · exact Or.inr (Or.inl h2)
          · exact Or.inr (Or.inr ⟨u, List.mem_append_left _ hu, h3⟩)
        · exact Or.inr (Or.inr ⟨clk.now, by simp, hid⟩)
      obtain ⟨s', hs', hb', hfinal⟩ := ih t (times ++ [clk.now]) hrest hbt hts
      refine ⟨s', by simp [dispatchAll, ht, hs'], hb', ?_⟩
      intro p hp
      rcases hfinal p hp with h1 | h2 | ⟨u, hu, h3⟩
      · exact Or.inl h1
      · exact Or.inr (Or.inl h2)
      · refine Or.inr (Or.inr ⟨u, ?_, h3⟩)
        simp only [createTimes, List.mem_append, List.mem_cons, List.mem_singleton,
          List.not_mem_nil, or_false] at hu ⊢
        tauto
    · have hts : idsFromClock times t := by
        intro p hp
        rcases hstep p hp with ⟨q, hq, hid⟩ | ⟨payload, hpay, -⟩
        · rw [hid]
          exact hs q hq
        · exact absurd ⟨payload, hpay⟩ hc
      obtain ⟨s', hs', hb', hfinal⟩ := ih t times hrest hbt hts
      refine ⟨s', by simp [dispatchAll, ht, hs'], hb', ?_⟩
      have hct : createTimes ((clk, a) :: rest) = createTimes rest := by
        cases a <;> first | rfl | exact absurd ⟨_, rfl⟩ hc
      rw [hct]
      exact hfinal

theorem ne_playlist_id (c : String) (hc : c.length < 9) (t : Nat) :
    c ≠ "playlist_" ++ toString t := by
  intro h
  have hl := congrArg String.length h
  rw [String.length_append] at hl
  have h9 : "playlist_".length = 9 := by decide
  omega

/-- C7, amended: for every state, every payload and every clock reading,
`CREATE_PLAYLIST` returns the old playlists followed by exactly one new
playlist, whose id is `playlist_` followed by the decimal clock reading, and
the resulting `activePlaylistId` is that id.  In every state reached from the
initial state by a sequence of dispatches without `LOAD_STATE`, when the clock
reading differs from the reading of each earlier `CREATE_PLAYLIST` of the
sequence, the new id is distinct from the id of every playlist already in the
state, live or in a history snapshot. -/
theorem createPlaylist_appends (trace : List (Clock × Action)) (clk : Clock)
    (payload : PlaylistPayload)
    (hall : ∀ e ∈ trace, isLoadState e.2 = false)
    (hclock : ∀ t ∈ createTimes trace, t ≠ clk.now) :
    (∀ s0 : State, ∃ s' np, playlistReducer clk s0 (.CREATE_PLAYLIST payload) = some s' ∧
      s'.playlists = s0.playlists ++ [np] ∧
      np.id = "playlist_" ++ toString clk.now ∧
      np.title = payload.title ∧ np.songs = [] ∧
      s'.activePlaylistId = np.id) ∧
    ∃ s s' np, dispatchAll initialState trace = some s ∧
      playlistReducer clk s (.CREATE_PLAYLIST payload) = some s' ∧
      s'.playlists = s.playlists ++ [np] ∧
      np.id = "playlist_" ++ toString clk.now ∧
      np.title = payload.title ∧ np.songs = [] ∧
      (∀ p ∈ s.playlists, p.id ≠ np.id) ∧
      (∀ h ∈ s.history, ∀ p ∈ h.playlists, p.id ≠ np.id) ∧
      s'.activePlaylistId = np.id := by
  have hinit : idsFromClock [] initialState := by
    intro p hp
    have hp' : p ∈ initialState.playlists := by simpa [stored, initialState] using hp
    simp only [initialState, List.mem_cons, List.mem_singleton, List.not_mem_nil,
      or_false] at hp'
    rcases hp' with rfl | rfl
    · exact Or.inl rfl
    · exact Or.inr (Or.inl rfl)
  obtain ⟨s, hrun, -, hids⟩ := dispatchAll_idsFromClock trace initialState [] hall
    (by decide) hinit
  have hfresh : ∀ p ∈ stored s, p.id ≠ (newPlaylist clk payload).id := by
    intro p hp hid
    have hid' : p.id = "playlist_" ++ toString clk.now := hid
    rcases hids p hp with h1 | h2 | ⟨t, ht, h3⟩
    · rw [h1] at hid'
      exact ne_playlist_id "1" (by decide) _ hid'
    · rw [h2] at hid'
      exact ne_playlist_id "2" (by decide) _ hid'
    · rw [h3] at hid'
      have := append_toString_inj "playlist_" t clk.now hid'
      exact hclock t (by simpa using ht) this
  refine ⟨fun s0 => ⟨_, newPlaylist clk payload, rfl, rfl, rfl, rfl, rfl, rfl⟩,
    s, _, newPlaylist clk payload, hrun, rfl, rfl, rfl, rfl, rfl, ?_, ?_, rfl⟩
  · intro p hp
    exact hfresh p ((mem_stored s p).2 (Or.inl hp))
  · intro h hh p hp
    exact hfresh p ((mem_stored s p).2 (Or.inr ⟨h, hh, hp⟩))

/-- A run of `createPlaylist_appends`: a second playlist created one second
after the first. -/
theorem createPlaylist_appends_witness :
    ((∀ e ∈ [(clock0, createRoadTrip)], isLoadState e.2 = false) ∧
      (∀ t ∈ createTimes [(clock0, createRoadTrip)], t ≠ clock1.now)) ∧
    ∃ s s' np, dispatchAll initialState [(clock0, createRoadTrip)] = some s ∧
      playlistReducer clock1 s (.CREATE_PLAYLIST ⟨"Road Trip", "", none⟩) = some s' ∧
      s'.playlists = s.playlists ++ [np] ∧
      np.id = "playlist_" ++ toString clock1.now ∧
      np.title = "Road Trip" ∧ np.songs = [] ∧
      (∀ p ∈ s.playlists, p.id ≠ np.id) ∧
      (∀ h ∈ s.history, ∀ p ∈ h.playlists, p.id ≠ np.id) ∧
      s'.activePlaylistId = np.id :=
  ⟨by decide, (createPlaylist_appends [(clock0, createRoadTrip)] clock1
    ⟨"Road Trip", "", none⟩ (by decide) (by decide)).2⟩

end PlaylistStore
